import Mathlib

/-!
# Register / memory access-tracking runtime (`common.h`)

A shallow embedding of the register pool (`reg_map`, `find_reg`, `free_reg`,
the two usage counters), of the handle classes `BaseRegisterWrapper<int>`,
`RegisterWrapper<int>` and `PtrWrapper<int>`, and of the access log, followed
by an embedding of the replay loop of the cache simulator (`csim.c`), which
has its own section.

Conventions of the embedding.

* The process-wide variables (`reg_map`, `current_reg_count`, `max_reg_count`,
  `PtrWrapper<int>::access_logs`, and the memory the pointers refer to) are the
  fields of `Globals`, passed explicitly.
* A C++ function that may throw returns `Except Exn α` together with the
  globals (and the objects it received by non-const reference) as they are
  when control leaves the function, normally or by the exception.
* `int` values are modelled by `Int`; the results of the built-in arithmetic
  are reduced to the 32-bit two's-complement range by `wrap32`.  The built-in
  `/` and `%` have no result for a zero divisor and for `INT_MIN / -1`; the
  process is then ended by a signal, which is the outcome `Exn.SIGFPE`.
-/

namespace Cachelab

/-! ## Data model -/

/-- The enumeration `MemoryAccessType`. -/
inductive MemoryAccessType where
  | UNKOWN
  | READ
  | WRITE
  | READ_WRITE
  deriving DecidableEq, Repr

/-- The enumeration `RegisterWrapperState`. -/
inductive RegisterWrapperState where
  | ACTIVE
  | INACTIVE
  | TMP
  deriving DecidableEq, Repr

/-- The ways control leaves a function without a result: the four exception
classes derived from `CachelabException`, and `SIGFPE`, which is not an
exception: it stands for the built-in `/` or `%` of two `int` values that has
no result (a zero divisor, or `INT_MIN` divided by `-1`), on which the
process is ended by the signal of that name and no handler runs. -/
inductive Exn where
  | MemoryDataCalculationException
  | InactiveRegisterException
  | MemoryToMemoryAssignmentException
  | OutOfRegistersException
  | SIGFPE
  deriving DecidableEq, Repr

/-- The class `MemoryAccessLog<int>`: one entry of the access log.  The
address is the raw byte address held by the pointer. -/
structure MemoryAccessLog where
  type_ : MemoryAccessType
  addr_ : Int
  reg_id_ : Int
  deriving DecidableEq, Repr

/-- The constant `reg_num`. -/
def reg_num : Nat := 36

/-- The process-wide state: `reg_map`, the two counters, the static
`access_logs` vector, and the `int` cells of the memory (by byte address). -/
structure Globals where
  reg_map : List Bool
  current_reg_count : Int
  max_reg_count : Int
  access_logs : List MemoryAccessLog
  mem : Int → Int

/-- The state at program start: `reg_map = {0}`, both counters `0`, an empty
log, over a given memory. -/
def Globals.init (mem : Int → Int) : Globals :=
  { reg_map := List.replicate reg_num false
    current_reg_count := 0
    max_reg_count := 0
    access_logs := []
    mem := mem }

/-- The array `reg_map` has exactly `reg_num` entries. -/
def Globals.WF (g : Globals) : Prop := g.reg_map.length = reg_num

instance (g : Globals) : Decidable g.WF := by
  unfold Globals.WF; infer_instance

/-- Slot `i` of `reg_map` is occupied. -/
def Globals.occupied (g : Globals) (i : Nat) : Bool := g.reg_map.getD i false

/-- The data members of `BaseRegisterWrapper<int>`. -/
structure Handle where
  reg_ : Int
  state_ : RegisterWrapperState
  reg_id_ : Int
  deriving DecidableEq, Repr

/-! ## The slot pool -/

/-- The loop of `find_reg`: `remaining` iterations are left and the loop
variable is `i`.  The first free entry is marked, the counters are updated and
`i` is returned; when the loop runs out, `OutOfRegistersException` is thrown. -/
def find_reg_loop (g : Globals) : Nat → Nat → Except Exn Int × Globals
  | 0, _ => (.error .OutOfRegistersException, g)
  | remaining + 1, i =>
    if !g.reg_map.getD i false then
      let current := g.current_reg_count + 1
      (.ok (i : Int),
        { g with
            reg_map := g.reg_map.set i true
            current_reg_count := current
            max_reg_count := max g.max_reg_count current })
    else
      find_reg_loop g remaining (i + 1)

/-- The function `find_reg`: `for (int i = 0; i < reg_num; i++)`. -/
def find_reg (g : Globals) : Except Exn Int × Globals :=
  find_reg_loop g reg_num 0

/-- The function `free_reg`: clears the entry and decrements the counter.  An
index outside the array is undefined behaviour in the source; the embedding
leaves the array as it is in that case. -/
def free_reg (reg_id : Int) (g : Globals) : Globals :=
  { g with
      reg_map :=
        if 0 ≤ reg_id ∧ reg_id < reg_num then g.reg_map.set reg_id.toNat false
        else g.reg_map
      current_reg_count := g.current_reg_count - 1 }

/-! ## Built-in `int` arithmetic -/

/-- Reduction of an integer to the range of a 32-bit two's-complement `int`. -/
def wrap32 (x : Int) : Int := (x + 2 ^ 31) % 2 ^ 32 - 2 ^ 31

/-- The built-in `int + int`. -/
def int_add (a b : Int) : Int := wrap32 (a + b)

/-- The built-in `int - int`. -/
def int_sub (a b : Int) : Int := wrap32 (a - b)

/-- The built-in `int * int`. -/
def int_mul (a b : Int) : Int := wrap32 (a * b)

/-- The built-in `int / int`, which truncates toward zero.  With a zero
divisor, and for `INT_MIN / -1`, whose quotient `2^31` is not an `int`, the
operation has no result: the behaviour is undefined and the division
instruction ends the process by `SIGFPE`. -/
def int_div (a b : Int) : Except Exn Int :=
  if b = 0 ∨ (a = -2 ^ 31 ∧ b = -1) then .error .SIGFPE else .ok (wrap32 (Int.tdiv a b))

/-- The built-in `int % int`, whose sign follows the dividend.  It has no
result where `int / int` has none, `INT_MIN % -1` included. -/
def int_mod (a b : Int) : Except Exn Int :=
  if b = 0 ∨ (a = -2 ^ 31 ∧ b = -1) then .error .SIGFPE else .ok (wrap32 (Int.tmod a b))

/-! ## `BaseRegisterWrapper<int>` -/

/-- The class `MemoryWrapper<int>`: a cell bound to one raw byte address. -/
structure MemoryWrapper where
  ptr_ : Int
  deriving DecidableEq, Repr

namespace BaseRegisterWrapper

/-- The protected constructor
`BaseRegisterWrapper(T reg, RegisterWrapperState state, int reg_id = -2)`. -/
def ctor_state (reg : Int) (state : RegisterWrapperState) (reg_id : Int) (g : Globals) :
    Except Exn Handle × Globals :=
  if state = .ACTIVE then
    match find_reg g with
    | (.ok i, g1) => (.ok { reg_ := reg, state_ := state, reg_id_ := i }, g1)
    | (.error e, g1) => (.error e, g1)
  else
    (.ok { reg_ := reg, state_ := state, reg_id_ := reg_id }, g)

/-- The constructor `BaseRegisterWrapper(T reg = 0)`. -/
def ctor (reg : Int) (g : Globals) : Except Exn Handle × Globals :=
  match find_reg g with
  | (.ok i, g1) => (.ok { reg_ := reg, state_ := .ACTIVE, reg_id_ := i }, g1)
  | (.error e, g1) => (.error e, g1)

/-- The constructors `BaseRegisterWrapper(const MemoryWrapper<T> &other)` and
`BaseRegisterWrapper(const MemoryWrapper<T> &&other)`, which have the same
body: the cell is read, a slot is taken, then a `READ` entry is pushed. -/
def ctor_mem (other : MemoryWrapper) (g : Globals) : Except Exn Handle × Globals :=
  let reg := g.mem other.ptr_
  match find_reg g with
  | (.ok i, g1) =>
    (.ok { reg_ := reg, state_ := .ACTIVE, reg_id_ := i },
      { g1 with access_logs := g1.access_logs ++ [{ type_ := .READ, addr_ := other.ptr_, reg_id_ := i }] })
  | (.error e, g1) => (.error e, g1)

/-- The copy constructor `BaseRegisterWrapper(const BaseRegisterWrapper<T> &other)`. -/
def ctor_copy (other : Handle) (g : Globals) : Except Exn Handle × Globals :=
  match find_reg g with
  | (.ok i, g1) => (.ok { reg_ := other.reg_, state_ := .ACTIVE, reg_id_ := i }, g1)
  | (.error e, g1) => (.error e, g1)

/-- The move constructor `BaseRegisterWrapper(BaseRegisterWrapper<T> &&other)`.
The value `rnd` is what `rand()` returns.  The second component is `other`
when control leaves the constructor. -/
def ctor_move (other : Handle) (rnd : Int) (g : Globals) :
    Except Exn Handle × Handle × Globals :=
  let self : Handle := { reg_ := other.reg_, state_ := other.state_, reg_id_ := other.reg_id_ }
  if other.state_ = .ACTIVE then
    (.ok self, { other with state_ := .INACTIVE, reg_ := rnd }, g)
  else if other.state_ = .INACTIVE then
    (.error .InactiveRegisterException, other, g)
  else
    (.ok self, other, g)

/-- The conversion `operator int() const`, which returns `reg_`. -/
def operator_int (self : Handle) (g : Globals) : Except Exn Int × Globals :=
  (.ok self.reg_, g)

/-- The destructor `~BaseRegisterWrapper()`. -/
def dtor (self : Handle) (g : Globals) : Globals :=
  if self.state_ = .ACTIVE then free_reg self.reg_id_ g else g

/-- The member `check_valid() const`. -/
def check_valid (self : Handle) : Except Exn Unit :=
  if self.state_ ≠ .ACTIVE then .error .InactiveRegisterException else .ok ()

/-- The assignment `operator=(T other)`.  The second component is `*this`
when control leaves the operator. -/
def assign_lit (self : Handle) (other : Int) (g : Globals) :
    Except Exn Unit × Handle × Globals :=
  match check_valid self with
  | .error e => (.error e, self, g)
  | .ok _ => (.ok (), { self with reg_ := other }, g)

/-- The assignment `operator=(const BaseRegisterWrapper<T> &other)`. -/
def assign_copy (self other : Handle) (g : Globals) :
    Except Exn Unit × Handle × Globals :=
  match check_valid self with
  | .error e => (.error e, self, g)
  | .ok _ => (.ok (), { self with reg_ := other.reg_ }, g)

/-- The assignment `operator=(BaseRegisterWrapper<T> &&other)`.  The second
and third components are `*this` and `other` when control leaves the
operator (for two distinct objects). -/
def assign_move (self other : Handle) (g : Globals) :
    Except Exn Unit × Handle × Handle × Globals :=
  match check_valid self with
  | .error e => (.error e, self, other, g)
  | .ok _ =>
    let self1 := { self with reg_ := other.reg_ }
    if other.state_ = .ACTIVE then
      (.ok (), self1, { other with state_ := .INACTIVE }, g)
    else
      (.ok (), self1, other, g)

/-- The assignments `operator=(const MemoryWrapper<T> &other)` and
`operator=(const MemoryWrapper<T> &&other)`, which have the same body. -/
def assign_mem (self : Handle) (other : MemoryWrapper) (g : Globals) :
    Except Exn Unit × Handle × Globals :=
  match check_valid self with
  | .error e => (.error e, self, g)
  | .ok _ =>
    (.ok (), { self with reg_ := g.mem other.ptr_ },
      { g with access_logs :=
          g.access_logs ++ [{ type_ := .READ, addr_ := other.ptr_, reg_id_ := self.reg_id_ }] })

/-- The comparison `operator<` with a handle (both reference overloads). -/
def operator_lt (self other : Handle) (g : Globals) : Except Exn Bool × Globals :=
  ((do check_valid self; check_valid other; pure (decide (self.reg_ < other.reg_))), g)

/-- The comparison `operator<` with a `T` (both reference overloads). -/
def operator_lt_lit (self : Handle) (other : Int) (g : Globals) : Except Exn Bool × Globals :=
  ((do check_valid self; pure (decide (self.reg_ < other))), g)

/-- The comparison `operator>` with a handle. -/
def operator_gt (self other : Handle) (g : Globals) : Except Exn Bool × Globals :=
  ((do check_valid self; check_valid other; pure (decide (self.reg_ > other.reg_))), g)

/-- The comparison `operator>` with a `T`. -/
def operator_gt_lit (self : Handle) (other : Int) (g : Globals) : Except Exn Bool × Globals :=
  ((do check_valid self; pure (decide (self.reg_ > other))), g)

/-- The comparison `operator<=` with a handle. -/
def operator_le (self other : Handle) (g : Globals) : Except Exn Bool × Globals :=
  ((do check_valid self; check_valid other; pure (decide (self.reg_ ≤ other.reg_))), g)

/-- The comparison `operator<=` with a `T`. -/
def operator_le_lit (self : Handle) (other : Int) (g : Globals) : Except Exn Bool × Globals :=
  ((do check_valid self; pure (decide (self.reg_ ≤ other))), g)

/-- The comparison `operator>=` with a handle. -/
def operator_ge (self other : Handle) (g : Globals) : Except Exn Bool × Globals :=
  ((do check_valid self; check_valid other; pure (decide (self.reg_ ≥ other.reg_))), g)

/-- The comparison `operator>=` with a `T`. -/
def operator_ge_lit (self : Handle) (other : Int) (g : Globals) : Except Exn Bool × Globals :=
  ((do check_valid self; pure (decide (self.reg_ ≥ other))), g)

/-- The comparison `operator==` with a handle. -/
def operator_eq (self other : Handle) (g : Globals) : Except Exn Bool × Globals :=
  ((do check_valid self; check_valid other; pure (decide (self.reg_ = other.reg_))), g)

/-- The comparison `operator==` with a `T`. -/
def operator_eq_lit (self : Handle) (other : Int) (g : Globals) : Except Exn Bool × Globals :=
  ((do check_valid self; pure (decide (self.reg_ = other))), g)

end BaseRegisterWrapper

/-- The four ordering operators `<`, `>`, `<=`, `>=`. -/
inductive OrderRel where
  | lt | gt | le | ge
  deriving DecidableEq, Repr

/-- The built-in comparison of two `int` values. -/
def OrderRel.holds : OrderRel → Int → Int → Bool
  | .lt, a, b => decide (a < b)
  | .gt, a, b => decide (a > b)
  | .le, a, b => decide (a ≤ b)
  | .ge, a, b => decide (a ≥ b)

namespace BaseRegisterWrapper

/-- An expression `c < a` (or `c > a`, `c <= a`, `c >= a`) with an `int` on the
left and a handle on the right.  The class declares its relational operators
as members only, so none of them takes an `int` as left operand: the handle
is converted by `operator int()` and the built-in comparison of the two `int`
values is made. -/
def compare_int_left (rel : OrderRel) (c : Int) (self : Handle) (g : Globals) :
    Except Exn Bool × Globals :=
  match operator_int self g with
  | (.error e, g1) => (.error e, g1)
  | (.ok v, g1) => (.ok (rel.holds c v), g1)

end BaseRegisterWrapper

/-! ## `RegisterWrapper<int>`: arithmetic on two handles -/

namespace RegisterWrapper

open BaseRegisterWrapper (check_valid)

/-- The member `T operator+(const RegisterWrapper<T> &other) const` and its
`&&` overload: both operands are checked, then `reg_ + other.reg_`. -/
def operator_plus (self other : Handle) (g : Globals) : Except Exn Int × Globals :=
  ((do check_valid self; check_valid other; pure (int_add self.reg_ other.reg_)), g)

/-- The member `T operator+=(const RegisterWrapper<T> &other)` and its `&&`
overload: both operands are checked, then `reg_ += other.reg_` and `reg_`
is returned.  The second component is `*this` when control leaves. -/
def operator_plus_assign (self other : Handle) (g : Globals) :
    Except Exn Int × Handle × Globals :=
  match (do check_valid self; check_valid other : Except Exn Unit) with
  | .error e => (.error e, self, g)
  | .ok _ =>
    let self1 := { self with reg_ := int_add self.reg_ other.reg_ }
    (.ok self1.reg_, self1, g)

/-- The member `T operator-(const RegisterWrapper<T> &other) const` and its
`&&` overload: both operands are checked, then `reg_ - other.reg_`. -/
def operator_minus (self other : Handle) (g : Globals) : Except Exn Int × Globals :=
  ((do check_valid self; check_valid other; pure (int_sub self.reg_ other.reg_)), g)

/-- The member `T operator-=(const RegisterWrapper<T> &other)` and its `&&`
overload: both operands are checked, then `reg_ -= other.reg_` and `reg_`
is returned.  The second component is `*this` when control leaves. -/
def operator_minus_assign (self other : Handle) (g : Globals) :
    Except Exn Int × Handle × Globals :=
  match (do check_valid self; check_valid other : Except Exn Unit) with
  | .error e => (.error e, self, g)
  | .ok _ =>
    let self1 := { self with reg_ := int_sub self.reg_ other.reg_ }
    (.ok self1.reg_, self1, g)

/-- The member `T operator*(const RegisterWrapper<T> &other) const` and its
`&&` overload: both operands are checked, then `reg_ * other.reg_`. -/
def operator_times (self other : Handle) (g : Globals) : Except Exn Int × Globals :=
  ((do check_valid self; check_valid other; pure (int_mul self.reg_ other.reg_)), g)

/-- The member `T operator*=(const RegisterWrapper<T> &other)` and its `&&`
overload: both operands are checked, then `reg_ *= other.reg_` and `reg_`
is returned.  The second component is `*this` when control leaves. -/
def operator_times_assign (self other : Handle) (g : Globals) :
    Except Exn Int × Handle × Globals :=
  match (do check_valid self; check_valid other : Except Exn Unit) with
  | .error e => (.error e, self, g)
  | .ok _ =>
    let self1 := { self with reg_ := int_mul self.reg_ other.reg_ }
    (.ok self1.reg_, self1, g)

/-- The member `T operator/(const RegisterWrapper<T> &other) const` and its
`&&` overload: both operands are checked, then `reg_ / other.reg_`. -/
def operator_div (self other : Handle) (g : Globals) : Except Exn Int × Globals :=
  ((do check_valid self; check_valid other; int_div self.reg_ other.reg_), g)

/-- The member `T operator/=(const RegisterWrapper<T> &other)` and its `&&`
overload: both operands are checked, then `reg_ /= other.reg_` and `reg_`
is returned.  The second component is `*this` when control leaves. -/
def operator_div_assign (self other : Handle) (g : Globals) :
    Except Exn Int × Handle × Globals :=
  match (do check_valid self; check_valid other : Except Exn Unit) with
  | .error e => (.error e, self, g)
  | .ok _ =>
    match int_div self.reg_ other.reg_ with
    | .error e => (.error e, self, g)
    | .ok v =>
      let self1 := { self with reg_ := v }
      (.ok self1.reg_, self1, g)

/-- The member `T operator%(const RegisterWrapper<T> &other) const` and its
`&&` overload: both operands are checked, then `reg_ % other.reg_`. -/
def operator_mod (self other : Handle) (g : Globals) : Except Exn Int × Globals :=
  ((do check_valid self; check_valid other; int_mod self.reg_ other.reg_), g)

/-- The member `T operator%=(const RegisterWrapper<T> &other)` and its `&&`
overload: both operands are checked, then `reg_ %= other.reg_` and `reg_`
is returned.  The second component is `*this` when control leaves. -/
def operator_mod_assign (self other : Handle) (g : Globals) :
    Except Exn Int × Handle × Globals :=
  match (do check_valid self; check_valid other : Except Exn Unit) with
  | .error e => (.error e, self, g)
  | .ok _ =>
    match int_mod self.reg_ other.reg_ with
    | .error e => (.error e, self, g)
    | .ok v =>
      let self1 := { self with reg_ := v }
      (.ok self1.reg_, self1, g)

end RegisterWrapper

/-! ## `PtrWrapper<int>` -/

/-- The class `PtrWrapper<int>`: the `BaseRegisterWrapper<int>` base object
and the raw byte address `ptr_`. -/
structure PtrHandle where
  base : Handle
  ptr_ : Int
  deriving DecidableEq, Repr

namespace PtrWrapper

/-- The constructor `PtrWrapper(T *ptr) : BaseRegisterWrapper(), ptr_(ptr)`. -/
def ctor (ptr : Int) (g : Globals) : Except Exn PtrHandle × Globals :=
  match BaseRegisterWrapper.ctor 0 g with
  | (.ok b, g1) => (.ok { base := b, ptr_ := ptr }, g1)
  | (.error e, g1) => (.error e, g1)

end PtrWrapper

/-! ## Sequences of pool operations -/

/-- A call of one of the two pool functions. -/
inductive PoolOp where
  | find
  | free (reg_id : Int)
  deriving DecidableEq, Repr

/-- The globals after one pool call (a failing `find_reg` included). -/
def PoolOp.apply (g : Globals) : PoolOp → Globals
  | .find => (find_reg g).2
  | .free reg_id => free_reg reg_id g

/-- A `free_reg` call is admissible when its index is in `[0, reg_num)` and
the slot is occupied; `find_reg` may always be called. -/
def PoolOp.admissible (g : Globals) : PoolOp → Bool
  | .find => true
  | .free reg_id => decide (0 ≤ reg_id ∧ reg_id < reg_num) && g.occupied reg_id.toNat

/-- The globals after a sequence of pool calls. -/
def run_pool (g : Globals) : List PoolOp → Globals
  | [] => g
  | op :: ops => run_pool (op.apply g) ops

/-- Every call of the sequence is admissible in the state it is made in. -/
def admissible_seq (g : Globals) : List PoolOp → Bool
  | [] => true
  | op :: ops => op.admissible g && admissible_seq (op.apply g) ops

/-- The values `current_reg_count` takes along a sequence of pool calls, the
value before the first call included. -/
def count_history (g : Globals) : List PoolOp → List Int
  | [] => [g.current_reg_count]
  | op :: ops => g.current_reg_count :: count_history (op.apply g) ops

/-- The invariant of the pool: the array has `reg_num` entries, the counter is
the number of occupied entries, and it is at most the peak, which is at most
`reg_num`. -/
def PoolInv (g : Globals) : Prop :=
  g.WF ∧ g.current_reg_count = (g.reg_map.count true : Nat) ∧
    g.current_reg_count ≤ g.max_reg_count ∧ g.max_reg_count ≤ reg_num

/-! ## Creating and destroying several handles -/

/-- Handles are constructed one after the other from the given literals; the
handles are returned in the order of their construction.  When a constructor
throws, the handles constructed before it are destroyed as the exception
propagates. -/
def create_handles : List Int → Globals → Except Exn (List Handle) × Globals
  | [], g => (.ok [], g)
  | v :: vs, g =>
    match BaseRegisterWrapper.ctor v g with
    | (.error e, g1) => (.error e, g1)
    | (.ok h, g1) =>
      match create_handles vs g1 with
      | (.error e, g2) => (.error e, BaseRegisterWrapper.dtor h g2)
      | (.ok hs, g2) => (.ok (h :: hs), g2)

/-- The destructor is run on the handles of the list, in the order of the list. -/
def destroy_handles : List Handle → Globals → Globals
  | [], g => g
  | h :: hs, g => destroy_handles hs (BaseRegisterWrapper.dtor h g)

/-! ## Programs over handle objects -/

/-- A program state: the globals, and the handle objects in the order of
their construction (`none` for an object that has been destroyed, or whose
constructor threw). -/
structure World where
  g : Globals
  objs : List (Option Handle)

/-- The state of a program before it constructs any handle. -/
def World.init (mem : Int → Int) : World :=
  { g := Globals.init mem, objs := [] }

/-- The object constructed as number `i`, when it is alive. -/
def World.obj (w : World) (i : Nat) : Option Handle := w.objs.getD i none

/-- The operations of `BaseRegisterWrapper<int>` that construct, assign to or
destroy a handle; objects are named by their construction index. -/
inductive HandleOp where
  | ctor_lit (v : Int)
  | ctor_mem (cell : MemoryWrapper)
  | ctor_copy (src : Nat)
  | ctor_move (src : Nat) (rnd : Int)
  | assign_lit (dst : Nat) (v : Int)
  | assign_copy (dst src : Nat)
  | assign_move (dst src : Nat)
  | assign_mem (dst : Nat) (cell : MemoryWrapper)
  | dtor (obj : Nat)
  deriving DecidableEq, Repr

/-- The object list after a constructor call: the new object, or `none` when
the constructor threw. -/
def World.push (objs : List (Option Handle)) (r : Except Exn Handle) : List (Option Handle) :=
  match r with
  | .ok h => objs ++ [some h]
  | .error _ => objs ++ [none]

/-- One operation of a program.  An operation that names an object which is
not alive is not a program step and leaves the state as it is.  In
`assign_move dst src` with `dst = src` both references denote one object,
whose final state is the one computed for `other`. -/
def World.step (w : World) : HandleOp → World
  | .ctor_lit v =>
    let r := BaseRegisterWrapper.ctor v w.g
    { g := r.2, objs := World.push w.objs r.1 }
  | .ctor_mem cell =>
    let r := BaseRegisterWrapper.ctor_mem cell w.g
    { g := r.2, objs := World.push w.objs r.1 }
  | .ctor_copy src =>
    match w.obj src with
    | none => w
    | some o =>
      let r := BaseRegisterWrapper.ctor_copy o w.g
      { g := r.2, objs := World.push w.objs r.1 }
  | .ctor_move src rnd =>
    match w.obj src with
    | none => w
    | some o =>
      let r := BaseRegisterWrapper.ctor_move o rnd w.g
      { g := r.2.2, objs := World.push (w.objs.set src (some r.2.1)) r.1 }
  | .assign_lit dst v =>
    match w.obj dst with
    | none => w
    | some d =>
      let r := BaseRegisterWrapper.assign_lit d v w.g
      { g := r.2.2, objs := w.objs.set dst (some r.2.1) }
  | .assign_copy dst src =>
    match w.obj dst, w.obj src with
    | some d, some o =>
      let r := BaseRegisterWrapper.assign_copy d o w.g
      { g := r.2.2, objs := w.objs.set dst (some r.2.1) }
    | _, _ => w
  | .assign_move dst src =>
    match w.obj dst, w.obj src with
    | some d, some o =>
      let r := BaseRegisterWrapper.assign_move d o w.g
      { g := r.2.2.2, objs := (w.objs.set dst (some r.2.1)).set src (some r.2.2.1) }
    | _, _ => w
  | .assign_mem dst cell =>
    match w.obj dst with
    | none => w
    | some d =>
      let r := BaseRegisterWrapper.assign_mem d cell w.g
      { g := r.2.2, objs := w.objs.set dst (some r.2.1) }
  | .dtor i =>
    match w.obj i with
    | none => w
    | some h => { g := BaseRegisterWrapper.dtor h w.g, objs := w.objs.set i none }

/-- The state after a sequence of operations. -/
def World.run (w : World) : List HandleOp → World
  | [] => w
  | op :: ops => World.run (w.step op) ops

/-- The slot-ids held by the handles that are alive and `ACTIVE`, in the
order of construction. -/
def World.active_slots (w : World) : List Int :=
  w.objs.filterMap fun o =>
    match o with
    | some h => if h.state_ = .ACTIVE then some h.reg_id_ else none
    | none => none

/-- The indices of the occupied entries of `reg_map`, in increasing order. -/
def Globals.occupied_slots (g : Globals) : List Int :=
  ((List.range reg_num).filter fun i => g.occupied i).map Int.ofNat

/-- No handle object of the program is in the deprecated state `TMP`. -/
def World.NoTmp (w : World) : Prop :=
  ∀ h : Handle, some h ∈ w.objs → h.state_ ≠ .TMP

/-! ## The binary operators on two register handles -/

/-- What an operator returns: `T` for the arithmetic operators, `bool` for the
relational ones. -/
inductive OpResult where
  | int (v : Int)
  | bool (b : Bool)
  deriving DecidableEq, Repr

/-- The operators of `RegisterWrapper<int>` that take a second register
handle: the five arithmetic operators, their in-place forms, and the five
relational operators. -/
inductive RegBinOp where
  | plus | minus | times | div | mod
  | plus_assign | minus_assign | times_assign | div_assign | mod_assign
  | lt | le | gt | ge | eq
  deriving DecidableEq, Repr

/-- The call `self op other` of the member operator: what it returns or
throws, the left operand when control leaves (the const members cannot write
it), and the globals. -/
def RegBinOp.call (op : RegBinOp) (self other : Handle) (g : Globals) :
    Except Exn OpResult × Handle × Globals :=
  match op with
  | .plus =>
    let r := RegisterWrapper.operator_plus self other g
    (r.1.map .int, self, r.2)
  | .minus =>
    let r := RegisterWrapper.operator_minus self other g
    (r.1.map .int, self, r.2)
  | .times =>
    let r := RegisterWrapper.operator_times self other g
    (r.1.map .int, self, r.2)
  | .div =>
    let r := RegisterWrapper.operator_div self other g
    (r.1.map .int, self, r.2)
  | .mod =>
    let r := RegisterWrapper.operator_mod self other g
    (r.1.map .int, self, r.2)
  | .plus_assign =>
    let r := RegisterWrapper.operator_plus_assign self other g
    (r.1.map .int, r.2.1, r.2.2)
  | .minus_assign =>
    let r := RegisterWrapper.operator_minus_assign self other g
    (r.1.map .int, r.2.1, r.2.2)
  | .times_assign =>
    let r := RegisterWrapper.operator_times_assign self other g
    (r.1.map .int, r.2.1, r.2.2)
  | .div_assign =>
    let r := RegisterWrapper.operator_div_assign self other g
    (r.1.map .int, r.2.1, r.2.2)
  | .mod_assign =>
    let r := RegisterWrapper.operator_mod_assign self other g
    (r.1.map .int, r.2.1, r.2.2)
  | .lt =>
    let r := BaseRegisterWrapper.operator_lt self other g
    (r.1.map .bool, self, r.2)
  | .le =>
    let r := BaseRegisterWrapper.operator_le self other g
    (r.1.map .bool, self, r.2)
  | .gt =>
    let r := BaseRegisterWrapper.operator_gt self other g
    (r.1.map .bool, self, r.2)
  | .ge =>
    let r := BaseRegisterWrapper.operator_ge self other g
    (r.1.map .bool, self, r.2)
  | .eq =>
    let r := BaseRegisterWrapper.operator_eq self other g
    (r.1.map .bool, self, r.2)

/-! ## `MemoryWrapper<int>`: stores -/

/-- The size of an element, `sizeof(int)`; `print_log` writes it as the
literal `4`.  An expression `p + n` on a `T*` advances the byte address by
`n` elements. -/
def elem_size : Int := 4

namespace MemoryWrapper

/-- The assignments `const T &operator=(const T &other)` and
`const T &operator=(const T &&other)`, which have the same body: the value is
stored in the cell and a `WRITE` entry with register id `-1` is pushed. -/
def assign_lit (self : MemoryWrapper) (other : Int) (g : Globals) : Except Exn Int × Globals :=
  (.ok other,
    { g with
        mem := fun a => if a = self.ptr_ then other else g.mem a
        access_logs :=
          g.access_logs ++ [{ type_ := .WRITE, addr_ := self.ptr_, reg_id_ := -1 }] })

/-- The assignments `operator=(const RegisterWrapper<T> &other)` and
`operator=(const RegisterWrapper<T> &&other)`, which have the same body:
`other.reg_` is stored and a `WRITE` entry with `other.reg_id_` is pushed;
`other` is returned. -/
def assign_reg (self : MemoryWrapper) (other : Handle) (g : Globals) :
    Except Exn Handle × Globals :=
  (.ok other,
    { g with
        mem := fun a => if a = self.ptr_ then other.reg_ else g.mem a
        access_logs :=
          g.access_logs ++
            [{ type_ := .WRITE, addr_ := self.ptr_, reg_id_ := other.reg_id_ }] })

end MemoryWrapper

/-! ## `PtrWrapper<int>`: the member functions -/

namespace PtrWrapper

/-- The implicitly-defined copy constructor of `PtrWrapper<int>`: the base
object is copy-constructed (which takes a slot) and `ptr_` is copied. -/
def ctor_copy (other : PtrHandle) (g : Globals) : Except Exn PtrHandle × Globals :=
  match BaseRegisterWrapper.ctor_copy other.base g with
  | (.ok b, g1) => (.ok { base := b, ptr_ := other.ptr_ }, g1)
  | (.error e, g1) => (.error e, g1)

/-- The implicitly-defined destructor of `PtrWrapper<int>`, which runs
`~BaseRegisterWrapper()` on the base object. -/
def dtor (self : PtrHandle) (g : Globals) : Globals :=
  BaseRegisterWrapper.dtor self.base g

/-- The member `MemoryWrapper<T> operator*() const`. -/
def deref (self : PtrHandle) (g : Globals) : Except Exn MemoryWrapper × Globals :=
  (.ok { ptr_ := self.ptr_ }, g)

/-- The member `MemoryWrapper<T> operator[](int offset) const`. -/
def index_lit (self : PtrHandle) (offset : Int) (g : Globals) :
    Except Exn MemoryWrapper × Globals :=
  (.ok { ptr_ := self.ptr_ + elem_size * offset }, g)

/-- The members `operator[](const RegisterWrapper<T> &offset) const` and
`operator[](const RegisterWrapper<T> &&offset) const`, which read
`offset.reg_`. -/
def index_reg (self : PtrHandle) (offset : Handle) (g : Globals) :
    Except Exn MemoryWrapper × Globals :=
  (.ok { ptr_ := self.ptr_ + elem_size * offset.reg_ }, g)

/-- The member `PtrWrapper<T> operator+(int offset) const`, which constructs
`PtrWrapper<T>(ptr_ + offset)`. -/
def operator_plus (self : PtrHandle) (offset : Int) (g : Globals) :
    Except Exn PtrHandle × Globals :=
  ctor (self.ptr_ + elem_size * offset) g

/-- The members `operator+(const RegisterWrapper<T> &offset) const` and its
`&&` overload, which construct `PtrWrapper<T>(ptr_ + offset.reg_)`. -/
def operator_plus_reg (self : PtrHandle) (offset : Handle) (g : Globals) :
    Except Exn PtrHandle × Globals :=
  ctor (self.ptr_ + elem_size * offset.reg_) g

/-- The member `PtrWrapper<T> operator-(int offset) const`. -/
def operator_minus (self : PtrHandle) (offset : Int) (g : Globals) :
    Except Exn PtrHandle × Globals :=
  ctor (self.ptr_ - elem_size * offset) g

/-- The members `operator-(const RegisterWrapper<T> &offset) const` and its
`&&` overload. -/
def operator_minus_reg (self : PtrHandle) (offset : Handle) (g : Globals) :
    Except Exn PtrHandle × Globals :=
  ctor (self.ptr_ - elem_size * offset.reg_) g

/-- The member `T operator-(PtrWrapper<T> other) const` called with an lvalue
argument `arg`: the parameter `other` is copy-constructed from `arg`, the
difference of the two `T*` values, a `ptrdiff_t` that counts elements, is
converted to the result type `T = int`, which keeps its low 32 bits, and the
parameter is destroyed when the call is over. -/
def operator_minus_ptr (self arg : PtrHandle) (g : Globals) : Except Exn Int × Globals :=
  match ctor_copy arg g with
  | (.error e, g1) => (.error e, g1)
  | (.ok other, g1) =>
    (.ok (wrap32 (Int.tdiv (self.ptr_ - other.ptr_) elem_size)), dtor other g1)

/-- The member `PtrWrapper<T> operator++()`: `ptr_++`, then `*this` is
returned by value, that is, copy-constructed.  The components are the
returned handle (or the exception), `*this` when control leaves, and the
globals. -/
def operator_inc (self : PtrHandle) (g : Globals) :
    Except Exn PtrHandle × PtrHandle × Globals :=
  let self1 := { self with ptr_ := self.ptr_ + elem_size }
  match ctor_copy self1 g with
  | (.ok r, g1) => (.ok r, self1, g1)
  | (.error e, g1) => (.error e, self1, g1)

/-- The member `PtrWrapper<T> operator--()`. -/
def operator_dec (self : PtrHandle) (g : Globals) :
    Except Exn PtrHandle × PtrHandle × Globals :=
  let self1 := { self with ptr_ := self.ptr_ - elem_size }
  match ctor_copy self1 g with
  | (.ok r, g1) => (.ok r, self1, g1)
  | (.error e, g1) => (.error e, self1, g1)

/-- The member `PtrWrapper<T> operator+=(int offset)`. -/
def operator_plus_assign (self : PtrHandle) (offset : Int) (g : Globals) :
    Except Exn PtrHandle × PtrHandle × Globals :=
  let self1 := { self with ptr_ := self.ptr_ + elem_size * offset }
  match ctor_copy self1 g with
  | (.ok r, g1) => (.ok r, self1, g1)
  | (.error e, g1) => (.error e, self1, g1)

/-- The members `operator+=(const RegisterWrapper<T> &offset)` and its `&&`
overload, which add `offset.reg_`. -/
def operator_plus_assign_reg (self : PtrHandle) (offset : Handle) (g : Globals) :
    Except Exn PtrHandle × PtrHandle × Globals :=
  let self1 := { self with ptr_ := self.ptr_ + elem_size * offset.reg_ }
  match ctor_copy self1 g with
  | (.ok r, g1) => (.ok r, self1, g1)
  | (.error e, g1) => (.error e, self1, g1)

/-- The member `PtrWrapper<T> operator-=(int offset)`. -/
def operator_minus_assign (self : PtrHandle) (offset : Int) (g : Globals) :
    Except Exn PtrHandle × PtrHandle × Globals :=
  let self1 := { self with ptr_ := self.ptr_ - elem_size * offset }
  match ctor_copy self1 g with
  | (.ok r, g1) => (.ok r, self1, g1)
  | (.error e, g1) => (.error e, self1, g1)

/-- The members `operator-=(const RegisterWrapper<T> &offset)` and its `&&`
overload, which subtract `offset.reg_`. -/
def operator_minus_assign_reg (self : PtrHandle) (offset : Handle) (g : Globals) :
    Except Exn PtrHandle × PtrHandle × Globals :=
  let self1 := { self with ptr_ := self.ptr_ - elem_size * offset.reg_ }
  match ctor_copy self1 g with
  | (.ok r, g1) => (.ok r, self1, g1)
  | (.error e, g1) => (.error e, self1, g1)

/-- The value of the expression `addr - base + base_offset` on `T*` operands,
as a byte address: the difference counts elements, and the sum advances
`base_offset` by that many elements.  The static members `base` and
`base_offset` are written by no function of the header and are parameters
here. -/
def rebase (base base_offset addr : Int) : Int :=
  base_offset + elem_size * Int.tdiv (addr - base) elem_size

/-- The stream insertion `operator<<(std::ostream &, const PtrWrapper<T> &)`
(and its `&&` overload): the pointer value that is written. -/
def operator_shl (base base_offset : Int) (ptr : PtrHandle) : Int :=
  rebase base base_offset ptr.ptr_

end PtrWrapper

/-! ## `RegisterWrapper<int>`: in-place arithmetic with a literal -/

namespace RegisterWrapper

/-- The member `T operator+=(const T other)`: `*this` is checked, then
`reg_ += other` and `reg_` is returned. -/
def operator_plus_assign_lit (self : Handle) (other : Int) (g : Globals) :
    Except Exn Int × Handle × Globals :=
  match BaseRegisterWrapper.check_valid self with
  | .error e => (.error e, self, g)
  | .ok _ =>
    let self1 := { self with reg_ := int_add self.reg_ other }
    (.ok self1.reg_, self1, g)

/-- The member `T operator-=(const T other)`: `*this` is checked, then
`reg_ -= other` and `reg_` is returned. -/
def operator_minus_assign_lit (self : Handle) (other : Int) (g : Globals) :
    Except Exn Int × Handle × Globals :=
  match BaseRegisterWrapper.check_valid self with
  | .error e => (.error e, self, g)
  | .ok _ =>
    let self1 := { self with reg_ := int_sub self.reg_ other }
    (.ok self1.reg_, self1, g)

/-- The member `T operator*=(const T other)`: `*this` is checked, then
`reg_ *= other` and `reg_` is returned. -/
def operator_times_assign_lit (self : Handle) (other : Int) (g : Globals) :
    Except Exn Int × Handle × Globals :=
  match BaseRegisterWrapper.check_valid self with
  | .error e => (.error e, self, g)
  | .ok _ =>
    let self1 := { self with reg_ := int_mul self.reg_ other }
    (.ok self1.reg_, self1, g)

/-- The member `T operator/=(const T other)`: `*this` is checked, then
`reg_ /= other` and `reg_` is returned. -/
def operator_div_assign_lit (self : Handle) (other : Int) (g : Globals) :
    Except Exn Int × Handle × Globals :=
  match BaseRegisterWrapper.check_valid self with
  | .error e => (.error e, self, g)
  | .ok _ =>
    match int_div self.reg_ other with
    | .error e => (.error e, self, g)
    | .ok v =>
      let self1 := { self with reg_ := v }
      (.ok self1.reg_, self1, g)

/-- The member `T operator%=(const T other)`: `*this` is checked, then
`reg_ %= other` and `reg_` is returned. -/
def operator_mod_assign_lit (self : Handle) (other : Int) (g : Globals) :
    Except Exn Int × Handle × Globals :=
  match BaseRegisterWrapper.check_valid self with
  | .error e => (.error e, self, g)
  | .ok _ =>
    match int_mod self.reg_ other with
    | .error e => (.error e, self, g)
    | .ok v =>
      let self1 := { self with reg_ := v }
      (.ok self1.reg_, self1, g)

/-- The member `T operator++()`: `*this` is checked, then `reg_++`. -/
def operator_inc (self : Handle) (g : Globals) : Except Exn Int × Handle × Globals :=
  match BaseRegisterWrapper.check_valid self with
  | .error e => (.error e, self, g)
  | .ok _ =>
    let self1 := { self with reg_ := int_add self.reg_ 1 }
    (.ok self1.reg_, self1, g)

/-- The member `T operator--()`: `*this` is checked, then `reg_--`. -/
def operator_dec (self : Handle) (g : Globals) : Except Exn Int × Handle × Globals :=
  match BaseRegisterWrapper.check_valid self with
  | .error e => (.error e, self, g)
  | .ok _ =>
    let self1 := { self with reg_ := int_sub self.reg_ 1 }
    (.ok self1.reg_, self1, g)

end RegisterWrapper

/-! ## Statements that combine pointer and cell operations -/

/-- The statement `*(p + n) = v;` with a literal `v`: the temporary pointer
`p + n` is constructed, dereferenced, the cell is assigned, and the temporary
is destroyed at the end of the statement. -/
def store_at_offset (p : PtrHandle) (n v : Int) (g : Globals) : Except Exn Int × Globals :=
  match PtrWrapper.operator_plus p n g with
  | (.error e, g1) => (.error e, g1)
  | (.ok q, g1) =>
    match PtrWrapper.deref q g1 with
    | (.error e, g2) => (.error e, PtrWrapper.dtor q g2)
    | (.ok cell, g2) =>
      let r := cell.assign_lit v g2
      (r.1, PtrWrapper.dtor q r.2)

/-! ## `print_log` -/

/-- The exception `std::runtime_error`, which is not a `CachelabException`. -/
inductive StdException where
  | runtime_error (what : String)
  deriving DecidableEq, Repr

/-- One line written by `print_log`: the letter between the blanks, the
pointer value written after it, the size written after the comma, and the
register id. -/
structure TraceLine where
  op : Char
  addr : Int
  size : Nat
  reg_id : Int
  deriving DecidableEq, Repr

/-- The loop of `print_log` over the remaining entries; `out` holds the
lines written so far, which stay written when the `default` branch throws. -/
def print_log_loop (base base_offset : Int) :
    List MemoryAccessLog → List TraceLine → Except StdException Unit × List TraceLine
  | [], out => (.ok (), out)
  | log :: rest, out =>
    match log.type_ with
    | .READ =>
      print_log_loop base base_offset rest
        (out ++ [{ op := 'L', addr := PtrWrapper.rebase base base_offset log.addr_, size := 4,
                   reg_id := log.reg_id_ }])
    | .WRITE =>
      print_log_loop base base_offset rest
        (out ++ [{ op := 'S', addr := PtrWrapper.rebase base base_offset log.addr_, size := 4,
                   reg_id := log.reg_id_ }])
    | .READ_WRITE =>
      print_log_loop base base_offset rest
        (out ++ [{ op := 'M', addr := PtrWrapper.rebase base base_offset log.addr_, size := 4,
                   reg_id := log.reg_id_ }])
    | .UNKOWN => (.error (.runtime_error "unkown memory access type"), out)

/-- The function `print_log`, over `ptr_reg::access_logs`. -/
def print_log (base base_offset : Int) (g : Globals) :
    Except StdException Unit × List TraceLine :=
  print_log_loop base base_offset g.access_logs []

/-- The line `print_log` writes for an entry of kind `READ` or `WRITE`. -/
def trace_line (base base_offset : Int) (log : MemoryAccessLog) : TraceLine :=
  { op := if log.type_ = .READ then 'L' else 'S'
    addr := PtrWrapper.rebase base base_offset log.addr_
    size := 4
    reg_id := log.reg_id_ }

/-! ## Programs over handles, registers and cells -/

/-- The in-place operators of `RegisterWrapper<int>` with a literal operand,
and the two increments. -/
inductive RegLitOp where
  | plus_assign | minus_assign | times_assign | div_assign | mod_assign
  | inc | dec
  deriving DecidableEq, Repr

/-- The call of an in-place operator with the literal `v` (which `++` and
`--` do not take). -/
def RegLitOp.call (op : RegLitOp) (self : Handle) (v : Int) (g : Globals) :
    Except Exn Int × Handle × Globals :=
  match op with
  | .plus_assign => RegisterWrapper.operator_plus_assign_lit self v g
  | .minus_assign => RegisterWrapper.operator_minus_assign_lit self v g
  | .times_assign => RegisterWrapper.operator_times_assign_lit self v g
  | .div_assign => RegisterWrapper.operator_div_assign_lit self v g
  | .mod_assign => RegisterWrapper.operator_mod_assign_lit self v g
  | .inc => RegisterWrapper.operator_inc self g
  | .dec => RegisterWrapper.operator_dec self g

/-- The operations of the runtime that can write a handle object, the pool,
the memory or the log: those of `HandleOp`, the operators on two register
handles, the in-place operators with a literal, and the two stores into a
memory cell.  A `PtrWrapper<int>` acts on its base object only through
`BaseRegisterWrapper()`, the copy constructor and the destructor, which are
`HandleOp.ctor_lit 0`, `HandleOp.ctor_copy` and `HandleOp.dtor` on the base
object; its other members are const or write `ptr_` only. -/
inductive RtOp where
  | handle (op : HandleOp)
  | binop (op : RegBinOp) (lhs rhs : Nat)
  | litop (op : RegLitOp) (lhs : Nat) (v : Int)
  | store_lit (cell : MemoryWrapper) (v : Int)
  | store_reg (cell : MemoryWrapper) (src : Nat)
  deriving DecidableEq, Repr

/-- One operation of a program.  As in `World.step`, an operation that names
an object which is not alive leaves the state as it is.  An operator that
ends by `SIGFPE` ends the process with the state as it is; the operations
that follow it in a list are then not run by any program, so what holds after
every list of operations holds after every program. -/
def World.step_rt (w : World) : RtOp → World
  | .handle op => w.step op
  | .binop op lhs rhs =>
    match w.obj lhs, w.obj rhs with
    | some a, some b =>
      let r := op.call a b w.g
      { g := r.2.2, objs := w.objs.set lhs (some r.2.1) }
    | _, _ => w
  | .litop op lhs v =>
    match w.obj lhs with
    | none => w
    | some a =>
      let r := op.call a v w.g
      { g := r.2.2, objs := w.objs.set lhs (some r.2.1) }
  | .store_lit cell v => { g := (cell.assign_lit v w.g).2, objs := w.objs }
  | .store_reg cell src =>
    match w.obj src with
    | none => w
    | some s => { g := (cell.assign_reg s w.g).2, objs := w.objs }

/-- The state after a sequence of operations. -/
def World.run_rt (w : World) : List RtOp → World
  | [] => w
  | op :: ops => World.run_rt (w.step_rt op) ops

/-- Every entry of the log is of kind `READ` or `WRITE`. -/
def Globals.LogKinds (g : Globals) : Prop :=
  ∀ e ∈ g.access_logs, e.type_ = .READ ∨ e.type_ = .WRITE

/-- The log of `g1` is the log of `g`, possibly followed by one entry of kind
`READ` or `WRITE`. -/
def LogStep (g g1 : Globals) : Prop :=
  g1.access_logs = g.access_logs ∨
    ∃ e : MemoryAccessLog, (e.type_ = .READ ∨ e.type_ = .WRITE) ∧
      g1.access_logs = g.access_logs ++ [e]

/-- What one operation `op` may do to the handle object number `i` that was
`h` before it: the object is destroyed by its destructor, or it is alive
with the same state, or it was `ACTIVE`, is now `INACTIVE`, and `op` is a
move construction or a move assignment with this object as source. -/
def StateStep (op : RtOp) (i : Nat) (h : Handle) (after : Option Handle) : Prop :=
  (after = none ∧ op = .handle (.dtor i)) ∨
    ∃ h1, after = some h1 ∧
      (h.state_ = .INACTIVE → h1.state_ = .INACTIVE) ∧
      (h1.state_ ≠ h.state_ →
        h.state_ = .ACTIVE ∧ h1.state_ = .INACTIVE ∧
          ((∃ rnd, op = .handle (.ctor_move i rnd)) ∨ ∃ dst, op = .handle (.assign_move dst i)))

/-! ## The cache simulator (`csim.c`)

The replay loop of `main`.  Reading the options and the trace file is outside
the embedding: the options are the fields of `Params` once `main` has
accepted them (`s >= 0`, `E > 0`, `b >= 0`), and the trace is the list of the
lines on which `sscanf` has stored at least the operation.  The allocation of
the `S * E` lines is taken to succeed.  The `int` counters and the
`unsigned long long` clock are natural numbers; they agree with the program
as long as fewer than `2^31` accesses are replayed, beyond which the counters
of the program overflow. -/

namespace Csim

/-- The struct `line_t`; `valid` and `dirty` only ever hold 0 or 1. -/
structure line_t where
  valid : Bool
  tag : Nat
  lru : Nat
  dirty : Bool
  deriving DecidableEq, Repr

/-- The options `-s`, `-E` and `-b`. -/
structure Params where
  s : Nat
  E : Nat
  b : Nat
  deriving DecidableEq, Repr

/-- A line of the trace as `sscanf` stores it: `op`, `addr`, `size`. -/
structure Record where
  op : Char
  addr : Nat
  size : Int
  deriving DecidableEq, Repr

/-- The variables of `main` that the replay loop reads and writes. -/
structure Sim where
  cache : List line_t
  hits : Nat
  misses : Nat
  evictions : Nat
  use_clock : Nat
  deriving DecidableEq, Repr

/-- The number of sets, `S = 1ULL << s`. -/
def S (p : Params) : Nat := 1 <<< p.s

/-- The state before the first line of the trace: `S * E` lines with all
fields 0, the counters 0 and `use_clock = 1`. -/
def Sim.init (p : Params) : Sim :=
  { cache := List.replicate (S p * p.E) { valid := false, tag := 0, lru := 0, dirty := false }
    hits := 0
    misses := 0
    evictions := 0
    use_clock := 1 }

/-- The line `cache[i]`.  An index outside the array is undefined behaviour
in the source; the embedding reads a line that is not valid there. -/
def line_at (cache : List line_t) (i : Nat) : line_t :=
  cache.getD i { valid := false, tag := 0, lru := 0, dirty := false }

/-- The expression `(addr >> b) & ((1ULL << s) - 1)`. -/
def set_index (p : Params) (addr : Nat) : Nat :=
  (addr >>> p.b) &&& ((1 <<< p.s) - 1)

/-- The expression `addr >> (s + b)`. -/
def tag_of (p : Params) (addr : Nat) : Nat :=
  addr >>> (p.s + p.b)

/-- The variables of the scan over the lines of a set; `none` stands for the
value `-1` of an index. -/
structure Scan where
  hit_idx : Option Nat
  empty_idx : Option Nat
  lru_min : Nat
  lru_idx : Option Nat
  deriving DecidableEq, Repr

/-- The values before the scan: the three indices `-1` and
`lru_min = (unsigned long long)(-1)`. -/
def Scan.start : Scan :=
  { hit_idx := none, empty_idx := none, lru_min := 2 ^ 64 - 1, lru_idx := none }

/-- The loop `for (int i = 0; i < E; ++i)` over the lines of the set at
`base`, with `remaining` iterations left and loop variable `i`; a valid line
with the tag ends the loop (`break`). -/
def scan_loop (cache : List line_t) (base tag : Nat) : Nat → Nat → Scan → Scan
  | 0, _, sc => sc
  | remaining + 1, i, sc =>
    let ln := line_at cache (base + i)
    if ln.valid then
      if ln.tag = tag then
        { sc with hit_idx := some i }
      else if ln.lru < sc.lru_min then
        scan_loop cache base tag remaining (i + 1) { sc with lru_min := ln.lru, lru_idx := some i }
      else
        scan_loop cache base tag remaining (i + 1) sc
    else
      if sc.empty_idx = none then
        scan_loop cache base tag remaining (i + 1) { sc with empty_idx := some i }
      else
        scan_loop cache base tag remaining (i + 1) sc

/-- The line a miss writes: valid, with the tag, stamped with the clock, and
dirty for the operations `S` and `M`. -/
def filled (op : Char) (tag clock : Nat) : line_t :=
  { valid := true, tag := tag, lru := clock, dirty := decide (op = 'S' ∨ op = 'M') }

/-- One iteration of the loop `for (int a = 0; a < accesses; ++a)`: the scan
of the set, then the hit branch or the miss branch.  When the miss branch is
left with `place = -1` the source writes `cache[base - 1]`, which is outside
the array for `base = 0`; the embedding leaves the array as it is in that
case. -/
def access (p : Params) (op : Char) (addr : Nat) (st : Sim) : Sim :=
  let set_idx := set_index p addr
  let tag := tag_of p addr
  let base := set_idx * p.E
  let sc := scan_loop st.cache base tag p.E 0 Scan.start
  match sc.hit_idx with
  | some hit_idx =>
    let ln := line_at st.cache (base + hit_idx)
    { st with
        hits := st.hits + 1
        cache :=
          st.cache.set (base + hit_idx)
            { ln with
                lru := st.use_clock
                dirty := if op = 'S' ∨ op = 'M' then true else ln.dirty }
        use_clock := st.use_clock + 1 }
  | none =>
    match sc.empty_idx with
    | some place =>
      { st with
          misses := st.misses + 1
          cache := st.cache.set (base + place) (filled op tag st.use_clock)
          use_clock := st.use_clock + 1 }
    | none =>
      match sc.lru_idx with
      | some place =>
        { st with
            misses := st.misses + 1
            evictions := st.evictions + 1
            cache := st.cache.set (base + place) (filled op tag st.use_clock)
            use_clock := st.use_clock + 1 }
      | none =>
        { st with
            misses := st.misses + 1
            evictions := st.evictions + 1
            cache :=
              if 0 < base then st.cache.set (base - 1) (filled op tag st.use_clock)
              else st.cache
            use_clock := st.use_clock + 1 }

/-- The body of the loop over the lines of the trace: a line with operation
`I` is skipped, `M` makes two accesses, every other operation one. -/
def replay_line (p : Params) (r : Record) (st : Sim) : Sim :=
  if r.op = 'I' then st
  else if r.op = 'M' then access p r.op r.addr (access p r.op r.addr st)
  else access p r.op r.addr st

/-- The loop over the lines of the trace. -/
def replay (p : Params) : List Record → Sim → Sim
  | [], st => st
  | r :: rest, st => replay p rest (replay_line p r st)

/-- The number of accesses a trace makes: none for `I`, two for `M`, one for
every other operation. -/
def accesses : List Record → Nat
  | [] => 0
  | r :: rest => (if r.op = 'I' then 0 else if r.op = 'M' then 2 else 1) + accesses rest

/-- The number of lines of a trace with the operation `c`. -/
def count_op (c : Char) (trace : List Record) : Nat :=
  trace.countP fun r => r.op = c

/-- The number of valid lines of a cache. -/
def valid_lines (cache : List line_t) : Nat :=
  cache.countP fun ln => ln.valid

end Csim

namespace Csim

/-- What the variables of the scan say about the lines `0 .. i-1` of the set
at `base` when no line with the tag has been met: `empty_idx` is the first
line that is not valid, `lru_idx` a valid line with the stamp `lru_min`, and
`lru_min` a lower bound for the stamps of the valid lines. -/
structure ScanInv (cache : List line_t) (base tag i : Nat) (sc : Scan) : Prop where
  nohit : sc.hit_idx = none
  notag : ∀ j, j < i → (line_at cache (base + j)).valid = true →
    (line_at cache (base + j)).tag ≠ tag
  empty_some : ∀ e, sc.empty_idx = some e →
    e < i ∧ (line_at cache (base + e)).valid = false ∧
      ∀ j, j < e → (line_at cache (base + j)).valid = true
  empty_none : sc.empty_idx = none → ∀ j, j < i → (line_at cache (base + j)).valid = true
  lru_some : ∀ l, sc.lru_idx = some l →
    l < i ∧ (line_at cache (base + l)).valid = true ∧ (line_at cache (base + l)).lru = sc.lru_min
  lru_none : sc.lru_idx = none → sc.lru_min = 2 ^ 64 - 1
  lru_le : ∀ j, j < i → (line_at cache (base + j)).valid = true →
    sc.lru_min ≤ (line_at cache (base + j)).lru

end Csim

namespace Csim

/-- The invariant of the replay loop: the array has `S * E` lines; the stamp
of every valid line is below the clock; every miss that did not evict has
made one more line valid; within a set no two valid lines have the same tag;
no two valid lines have the same stamp. -/
structure Inv (p : Params) (st : Sim) : Prop where
  len : st.cache.length = S p * p.E
  stamp : ∀ i, (line_at st.cache i).valid = true → (line_at st.cache i).lru < st.use_clock
  count : st.evictions + valid_lines st.cache = st.misses
  tags : ∀ k a b, a < p.E → b < p.E →
    (line_at st.cache (k * p.E + a)).valid = true →
    (line_at st.cache (k * p.E + b)).valid = true →
    (line_at st.cache (k * p.E + a)).tag = (line_at st.cache (k * p.E + b)).tag → a = b
  stamps : ∀ i j, (line_at st.cache i).valid = true → (line_at st.cache j).valid = true →
    (line_at st.cache i).lru = (line_at st.cache j).lru → i = j

end Csim

namespace Csim

/-- The states of a run: what the replay loop has made of the initial state
after the lines of a trace with fewer than `2^31` accesses, the range in
which the `int` counters and the 64-bit clock of the source do not
overflow.  The state between the two accesses of an `M` line is the state
after the same line with `S`, since `access` reads the operation only in the
test `op == 'S' || op == 'M'`. -/
def Reachable (p : Params) (st : Sim) : Prop :=
  ∃ trace : List Record, accesses trace < 2 ^ 31 ∧ replay p trace (Sim.init p) = st

/-- Parameters `-s 1 -E 2 -b 2`: two sets of two lines with blocks of four
bytes. -/
def example_params : Params := { s := 1, E := 2, b := 2 }

/-- A trace with the four operations of the trace format. -/
def example_trace : List Record :=
  [ { op := 'L', addr := 0x00, size := 4 },
    { op := 'I', addr := 0x400, size := 4 },
    { op := 'S', addr := 0x08, size := 4 },
    { op := 'M', addr := 0x10, size := 4 },
    { op := 'L', addr := 0x04, size := 4 },
    { op := 'L', addr := 0x08, size := 4 } ]

/-- The state after `example_trace`: set 0 holds the tags 2 and 1 with the
stamps 4 and 6, set 1 holds the tag 0 with the stamp 5. -/
def example_state : Sim := replay example_params example_trace (Sim.init example_params)

/-- A trace of one line whose operation is none of `I`, `L`, `S`, `M`. -/
def other_op_trace : List Record := [ { op := 'X', addr := 0x10, size := 1 } ]

end Csim

/-! ## Example states -/

/-- A state in which all `reg_num` slots are occupied. -/
def Globals.example_full : Globals :=
  { reg_map := List.replicate reg_num true
    current_reg_count := 36
    max_reg_count := 36
    access_logs := []
    mem := fun _ => 0 }

/-! ## Lemmas on the 32-bit range -/

theorem wrap32_eq_bmod (x : Int) : wrap32 x = Int.bmod x (2 ^ 32) := by
  unfold wrap32 Int.bmod
  simp only [Nat.cast_pow, Nat.cast_ofNat]
  split <;> omega

theorem wrap32_of_range (x : Int) (h1 : -2 ^ 31 ≤ x) (h2 : x < 2 ^ 31) : wrap32 x = x := by
  unfold wrap32
  omega

theorem wrap32_range (x : Int) : -2 ^ 31 ≤ wrap32 x ∧ wrap32 x < 2 ^ 31 := by
  unfold wrap32
  omega

theorem getD_set (l : List Bool) (i j : Nat) (a d : Bool) :
    (l.set i a).getD j d = if i = j ∧ i < l.length then a else l.getD j d := by
  rw [List.getD_eq_getElem?_getD, List.getD_eq_getElem?_getD, List.getElem?_set]
  by_cases h : i = j
  · by_cases h2 : i < l.length
    · subst h
      simp [h2]
    · subst h
      simp [h2, List.getElem?_eq_none (Nat.le_of_not_lt h2)]
  · simp [h]

/-! ## Lemmas on the slot pool -/

theorem find_reg_loop_error (g : Globals) :
    ∀ (k i : Nat), (∀ j, i ≤ j → j < i + k → g.reg_map.getD j false = true) →
      find_reg_loop g k i = (.error .OutOfRegistersException, g) := by
  intro k
  induction k with
  | zero => intro i _; rfl
  | succ k ih =>
    intro i h
    have hi : g.reg_map.getD i false = true := h i (le_refl _) (by omega)
    rw [find_reg_loop, hi]
    simp only [Bool.not_true, Bool.false_eq_true, if_false]
    exact ih (i + 1) (fun j h1 h2 => h j (by omega) (by omega))

theorem find_reg_loop_ok (g : Globals) :
    ∀ (k i : Nat), (∃ j, i ≤ j ∧ j < i + k ∧ g.reg_map.getD j false = false) →
      ∃ m, i ≤ m ∧ m < i + k ∧ g.reg_map.getD m false = false ∧
        (∀ j, i ≤ j → j < m → g.reg_map.getD j false = true) ∧
        find_reg_loop g k i =
          (.ok (m : Int),
            { g with
                reg_map := g.reg_map.set m true
                current_reg_count := g.current_reg_count + 1
                max_reg_count := max g.max_reg_count (g.current_reg_count + 1) }) := by
  intro k
  induction k with
  | zero => rintro i ⟨j, h1, h2, _⟩; omega
  | succ k ih =>
    rintro i ⟨j, h1, h2, h3⟩
    by_cases hi : g.reg_map.getD i false = true
    · have hj : i + 1 ≤ j := by
        rcases Nat.eq_or_lt_of_le h1 with h | h
        · subst h; rw [hi] at h3; cases h3
        · exact h
      obtain ⟨m, hm1, hm2, hm3, hm4, hm5⟩ := ih (i + 1) ⟨j, hj, by omega, h3⟩
      refine ⟨m, by omega, by omega, hm3, ?_, ?_⟩
      · intro j' hj1 hj2
        rcases Nat.eq_or_lt_of_le hj1 with h | h
        · subst h; exact hi
        · exact hm4 j' h hj2
      · rw [find_reg_loop, hi]
        simp only [Bool.not_true, Bool.false_eq_true, if_false]
        exact hm5
    · have hi' : g.reg_map.getD i false = false := by
        cases h : g.reg_map.getD i false
        · rfl
        · exact absurd h hi
      refine ⟨i, le_refl _, by omega, hi', fun j' a b => by omega, ?_⟩
      rw [find_reg_loop, hi']
      simp

/-! ## Claims on the slot pool -/

theorem find_reg_ok_spec (g : Globals) (hwf : g.WF)
    (hfree : ∃ j, j < reg_num ∧ g.occupied j = false) :
    ∃ i : Nat, i < reg_num ∧ g.occupied i = false ∧ (∀ j, j < i → g.occupied j = true) ∧
      (find_reg g).1 = .ok (i : Int) ∧
      (find_reg g).2.occupied i = true ∧
      (∀ j, j ≠ i → (find_reg g).2.occupied j = g.occupied j) ∧
      (find_reg g).2.WF ∧
      (find_reg g).2.current_reg_count = g.current_reg_count + 1 ∧
      (find_reg g).2.max_reg_count = max g.max_reg_count (g.current_reg_count + 1) ∧
      (find_reg g).2.access_logs = g.access_logs ∧
      (find_reg g).2.mem = g.mem := by
  obtain ⟨j, hj, hjf⟩ := hfree
  obtain ⟨m, -, hm2, hm3, hm4, hm5⟩ :=
    find_reg_loop_ok g reg_num 0 ⟨j, Nat.zero_le _, by omega, hjf⟩
  have hm : m < g.reg_map.length := by rw [hwf]; omega
  refine ⟨m, by omega, hm3, fun j hj => hm4 j (Nat.zero_le _) hj, ?_⟩
  unfold find_reg
  rw [hm5]
  refine ⟨rfl, ?_, ?_, ?_, rfl, rfl, rfl, rfl⟩
  · simp [Globals.occupied, getD_set, hm]
  · intro j hj
    simp [Globals.occupied, getD_set, Ne.symm hj]
  · simpa [Globals.WF] using hwf

/-- C1. In every pool state with a free slot, `find_reg` returns the
lowest-indexed free slot `i`; afterwards slot `i` is occupied, every other
slot is as before, `current_reg_count` is one more than before and
`max_reg_count` is the maximum of its old value and the new count.  The log
and the memory are not touched. -/
theorem find_reg_allocates_lowest_free (g : Globals) (hwf : g.WF)
    (hfree : ∃ j, j < reg_num ∧ g.occupied j = false) :
    ∃ i : Nat, i < reg_num ∧ g.occupied i = false ∧ (∀ j, j < i → g.occupied j = true) ∧
      (find_reg g).1 = .ok (i : Int) ∧
      (find_reg g).2.occupied i = true ∧
      (∀ j, j ≠ i → (find_reg g).2.occupied j = g.occupied j) ∧
      (find_reg g).2.WF ∧
      (find_reg g).2.current_reg_count = g.current_reg_count + 1 ∧
      (find_reg g).2.max_reg_count = max g.max_reg_count (g.current_reg_count + 1) ∧
      (find_reg g).2.access_logs = g.access_logs ∧
      (find_reg g).2.mem = g.mem :=
  find_reg_ok_spec g hwf hfree

/-- C1 at the initial state: the first call returns slot `0`. -/
theorem find_reg_allocates_lowest_free_witness :
    ∃ i : Nat, i < reg_num ∧ (Globals.init fun _ => 0).occupied i = false ∧
      (∀ j, j < i → (Globals.init fun _ => 0).occupied j = true) ∧
      (find_reg (Globals.init fun _ => 0)).1 = .ok (i : Int) ∧
      (find_reg (Globals.init fun _ => 0)).2.occupied i = true ∧
      (∀ j, j ≠ i →
        (find_reg (Globals.init fun _ => 0)).2.occupied j = (Globals.init fun _ => 0).occupied j) ∧
      (find_reg (Globals.init fun _ => 0)).2.WF ∧
      (find_reg (Globals.init fun _ => 0)).2.current_reg_count =
        (Globals.init fun _ => 0).current_reg_count + 1 ∧
      (find_reg (Globals.init fun _ => 0)).2.max_reg_count =
        max (Globals.init fun _ => 0).max_reg_count
          ((Globals.init fun _ => 0).current_reg_count + 1) ∧
      (find_reg (Globals.init fun _ => 0)).2.access_logs = (Globals.init fun _ => 0).access_logs ∧
      (find_reg (Globals.init fun _ => 0)).2.mem = (Globals.init fun _ => 0).mem :=
  find_reg_allocates_lowest_free (Globals.init fun _ => 0) (by decide) ⟨0, by decide, by decide⟩

/-- C2. In every pool state in which all 36 slots are occupied, `find_reg`
throws `OutOfRegistersException` and leaves the globals (slot array, both
counters, log, memory) exactly as they were; so does every constructor that
takes a slot: from a literal, from a memory cell, by copy, the protected one
with state `ACTIVE`, and the pointer constructor. -/
theorem find_reg_full_throws (g : Globals) (hfull : ∀ j, j < reg_num → g.occupied j = true)
    (v rid ptr : Int) (cell : MemoryWrapper) (src : Handle) :
    find_reg g = (.error .OutOfRegistersException, g) ∧
      BaseRegisterWrapper.ctor v g = (.error .OutOfRegistersException, g) ∧
      BaseRegisterWrapper.ctor_mem cell g = (.error .OutOfRegistersException, g) ∧
      BaseRegisterWrapper.ctor_copy src g = (.error .OutOfRegistersException, g) ∧
      BaseRegisterWrapper.ctor_state v .ACTIVE rid g = (.error .OutOfRegistersException, g) ∧
      PtrWrapper.ctor ptr g = (.error .OutOfRegistersException, g) := by
  have h : find_reg g = (.error .OutOfRegistersException, g) :=
    find_reg_loop_error g reg_num 0 (fun j _ hj => hfull j (by omega))
  refine ⟨h, ?_, ?_, ?_, ?_, ?_⟩
  · simp [BaseRegisterWrapper.ctor, h]
  · simp [BaseRegisterWrapper.ctor_mem, h]
  · simp [BaseRegisterWrapper.ctor_copy, h]
  · simp [BaseRegisterWrapper.ctor_state, h]
  · simp [PtrWrapper.ctor, BaseRegisterWrapper.ctor, h]

/-- C2 at the state with 36 occupied slots and both counters 36. -/
theorem find_reg_full_throws_witness :
    find_reg Globals.example_full = (.error .OutOfRegistersException, Globals.example_full) ∧
      BaseRegisterWrapper.ctor 7 Globals.example_full =
        (.error .OutOfRegistersException, Globals.example_full) ∧
      BaseRegisterWrapper.ctor_mem ⟨64⟩ Globals.example_full =
        (.error .OutOfRegistersException, Globals.example_full) ∧
      BaseRegisterWrapper.ctor_copy ⟨7, .ACTIVE, 3⟩ Globals.example_full =
        (.error .OutOfRegistersException, Globals.example_full) ∧
      BaseRegisterWrapper.ctor_state 7 .ACTIVE (-2) Globals.example_full =
        (.error .OutOfRegistersException, Globals.example_full) ∧
      PtrWrapper.ctor 64 Globals.example_full =
        (.error .OutOfRegistersException, Globals.example_full) :=
  find_reg_full_throws Globals.example_full (by decide) 7 (-2) 64 ⟨64⟩ ⟨7, .ACTIVE, 3⟩

/-! ## The pool invariant -/

theorem getD_eq_getElem (l : List Bool) (i : Nat) (h : i < l.length) :
    l.getD i false = l[i] := by
  rw [List.getD_eq_getElem?_getD, List.getElem?_eq_getElem h]; rfl

theorem count_set_true (l : List Bool) (i : Nat) (h : i < l.length)
    (hf : l.getD i false = false) : (l.set i true).count true = l.count true + 1 := by
  rw [getD_eq_getElem l i h] at hf
  rw [List.count_set _ _ _ _ h]
  simp [hf]

theorem count_set_false (l : List Bool) (i : Nat) (h : i < l.length)
    (hf : l.getD i false = true) : (l.set i false).count true + 1 = l.count true := by
  rw [getD_eq_getElem l i h] at hf
  have hpos : 0 < l.count true := by
    rw [List.count_pos_iff]
    rw [← hf]; exact List.getElem_mem h
  rw [List.count_set _ _ _ _ h]
  simp [hf]
  omega

theorem find_reg_cases (g : Globals) :
    find_reg g = (.error .OutOfRegistersException, g) ∨
    ∃ m : Nat, m < reg_num ∧ g.occupied m = false ∧ (∀ j, j < m → g.occupied j = true) ∧
      find_reg g =
        (.ok (m : Int),
          { g with
              reg_map := g.reg_map.set m true
              current_reg_count := g.current_reg_count + 1
              max_reg_count := max g.max_reg_count (g.current_reg_count + 1) }) := by
  by_cases h : ∃ j, j < reg_num ∧ g.occupied j = false
  · right
    obtain ⟨j, hj, hjf⟩ := h
    obtain ⟨m, -, hm2, hm3, hm4, hm5⟩ :=
      find_reg_loop_ok g reg_num 0 ⟨j, Nat.zero_le _, by omega, hjf⟩
    exact ⟨m, by omega, hm3, fun j hj => hm4 j (Nat.zero_le _) hj, hm5⟩
  · left
    refine find_reg_loop_error g reg_num 0 (fun j _ hj => ?_)
    by_contra hc
    exact h ⟨j, by omega, by simpa [Globals.occupied] using hc⟩

theorem PoolOp.apply_inv (g : Globals) (op : PoolOp) (hinv : PoolInv g)
    (hadm : op.admissible g = true) :
    PoolInv (op.apply g) ∧ g.max_reg_count ≤ (op.apply g).max_reg_count ∧
      ((op.apply g).max_reg_count = g.max_reg_count ∨
        (op.apply g).max_reg_count = (op.apply g).current_reg_count) := by
  obtain ⟨hwf, hcnt, hle, hmax⟩ := hinv
  cases op with
  | find =>
    rcases find_reg_cases g with h | ⟨m, hm, hmf, -, h⟩
    · simp only [PoolOp.apply, h]
      exact ⟨⟨hwf, hcnt, hle, hmax⟩, le_refl _, Or.inl trivial⟩
    · simp only [PoolOp.apply, h]
      have hml : m < g.reg_map.length := by rw [hwf]; exact hm
      have hc := count_set_true g.reg_map m hml hmf
      have hlen : (g.reg_map.set m true).length = reg_num := by
        rw [List.length_set]; exact hwf
      have hb : (g.reg_map.set m true).count true ≤ reg_num := by
        rw [← hlen]; exact List.count_le_length _ _
      refine ⟨⟨hlen, ?_, le_max_right _ _, ?_⟩, le_max_left _ _, ?_⟩
      · show g.current_reg_count + 1 = (((g.reg_map.set m true).count true : Nat) : Int)
        rw [hc, hcnt]; push_cast; rfl
      · show max g.max_reg_count (g.current_reg_count + 1) ≤ (reg_num : Int)
        apply max_le hmax
        rw [hcnt]
        have : (g.reg_map.count true : Int) + 1 = (((g.reg_map.set m true).count true : Nat) : Int) := by
          rw [hc]; push_cast; rfl
        rw [this]
        exact_mod_cast hb
      · show max g.max_reg_count (g.current_reg_count + 1) = g.max_reg_count ∨
          max g.max_reg_count (g.current_reg_count + 1) = g.current_reg_count + 1
        rcases le_total g.max_reg_count (g.current_reg_count + 1) with h1 | h1
        · right; exact max_eq_right h1
        · left; exact max_eq_left h1
  | free i =>
    simp only [PoolOp.admissible, Bool.and_eq_true, decide_eq_true_eq] at hadm
    obtain ⟨⟨h0, h1⟩, hocc⟩ := hadm
    have hil : i.toNat < g.reg_map.length := by
      rw [hwf]; omega
    have hc := count_set_false g.reg_map i.toNat hil hocc
    simp only [PoolOp.apply, free_reg, h0, h1, and_self, if_true]
    refine ⟨⟨?_, ?_, ?_, hmax⟩, le_refl _, Or.inl trivial⟩
    · show (g.reg_map.set i.toNat false).length = reg_num
      rw [List.length_set]; exact hwf
    · show g.current_reg_count - 1 = (((g.reg_map.set i.toNat false).count true : Nat) : Int)
      rw [hcnt, ← hc]; push_cast; ring
    · show g.current_reg_count - 1 ≤ g.max_reg_count
      omega

theorem count_history_head (g : Globals) (ops : List PoolOp) :
    g.current_reg_count ∈ count_history g ops := by
  cases ops <;> simp [count_history]

theorem run_pool_inv (ops : List PoolOp) :
    ∀ g : Globals, PoolInv g → admissible_seq g ops = true →
      PoolInv (run_pool g ops) ∧ g.max_reg_count ≤ (run_pool g ops).max_reg_count ∧
        ((run_pool g ops).max_reg_count = g.max_reg_count ∨
          (run_pool g ops).max_reg_count ∈ count_history g ops) ∧
        (∀ c ∈ count_history g ops, c ≤ (run_pool g ops).max_reg_count) := by
  induction ops with
  | nil =>
    intro g hinv _
    refine ⟨hinv, le_refl _, Or.inl rfl, ?_⟩
    intro c hc
    simp only [count_history, List.mem_singleton] at hc
    subst hc
    exact hinv.2.2.1
  | cons op ops ih =>
    intro g hinv hadm
    simp only [admissible_seq, Bool.and_eq_true] at hadm
    obtain ⟨h1, h2, h3⟩ := PoolOp.apply_inv g op hinv hadm.1
    obtain ⟨i1, i2, i3, i4⟩ := ih (op.apply g) h1 hadm.2
    refine ⟨i1, le_trans h2 i2, ?_, ?_⟩
    · rcases i3 with i3 | i3
      · rcases h3 with h3 | h3
        · left; exact i3.trans h3
        · right
          show (run_pool (op.apply g) ops).max_reg_count ∈
            g.current_reg_count :: count_history (op.apply g) ops
          rw [i3, h3]
          exact List.mem_cons_of_mem _ (count_history_head _ _)
      · right
        exact List.mem_cons_of_mem _ i3
    · intro c hc
      simp only [count_history, List.mem_cons] at hc
      rcases hc with hc | hc
      · subst hc
        exact le_trans hinv.2.2.1 (le_trans h2 i2)
      · exact i4 c hc

theorem run_pool_append (a b : List PoolOp) :
    ∀ g : Globals, run_pool g (a ++ b) = run_pool (run_pool g a) b := by
  induction a with
  | nil => intro g; rfl
  | cons op a ih => intro g; exact ih (op.apply g)

theorem admissible_seq_append (a b : List PoolOp) :
    ∀ g : Globals, admissible_seq g (a ++ b) = true →
      admissible_seq g a = true ∧ admissible_seq (run_pool g a) b = true := by
  induction a with
  | nil => intro g h; exact ⟨rfl, h⟩
  | cons op a ih =>
    intro g h
    simp only [List.cons_append, admissible_seq, Bool.and_eq_true] at h
    obtain ⟨h1, h2⟩ := ih (op.apply g) h.2
    exact ⟨by simp [admissible_seq, h.1, h1], h2⟩

theorem poolInv_init (mem : Int → Int) : PoolInv (Globals.init mem) := by
  refine ⟨rfl, ?_, le_refl _, ?_⟩
  · simp [Globals.init, List.count_replicate]
  · simp [Globals.init, reg_num]

/-- C4. From the initial state, after any sequence of `find_reg` calls
(successful or failing) and of `free_reg` calls on occupied slots in
`[0, 36)`: `current_reg_count` is the number of occupied entries of `reg_map`,
`0 <= current_reg_count <= max_reg_count <= 36`, `max_reg_count` is the
largest value `current_reg_count` has taken along the sequence, and it is at
least what it was after every shorter part of the sequence. -/
theorem pool_invariant (mem : Int → Int) (ops : List PoolOp)
    (hadm : admissible_seq (Globals.init mem) ops = true) :
    (run_pool (Globals.init mem) ops).current_reg_count =
        ((run_pool (Globals.init mem) ops).reg_map.count true : Nat) ∧
      (run_pool (Globals.init mem) ops).reg_map.length = 36 ∧
      0 ≤ (run_pool (Globals.init mem) ops).current_reg_count ∧
      (run_pool (Globals.init mem) ops).current_reg_count ≤
        (run_pool (Globals.init mem) ops).max_reg_count ∧
      (run_pool (Globals.init mem) ops).max_reg_count ≤ 36 ∧
      (run_pool (Globals.init mem) ops).max_reg_count ∈ count_history (Globals.init mem) ops ∧
      (∀ c ∈ count_history (Globals.init mem) ops,
        c ≤ (run_pool (Globals.init mem) ops).max_reg_count) ∧
      (∀ k : Nat, (run_pool (Globals.init mem) (ops.take k)).max_reg_count ≤
        (run_pool (Globals.init mem) ops).max_reg_count) := by
  obtain ⟨⟨hwf, hcnt, hle, hmax⟩, -, h3, h4⟩ :=
    run_pool_inv ops (Globals.init mem) (poolInv_init mem) hadm
  refine ⟨hcnt, hwf, ?_, hle, hmax, ?_, h4, ?_⟩
  · rw [hcnt]; exact Int.natCast_nonneg _
  · rcases h3 with h3 | h3
    · rw [h3]
      exact count_history_head _ _
    · exact h3
  · intro k
    have hsplit : ops = ops.take k ++ ops.drop k := (List.take_append_drop k ops).symm
    have hadm2 := hadm
    rw [hsplit] at hadm2
    obtain ⟨a1, a2⟩ := admissible_seq_append _ _ _ hadm2
    obtain ⟨p1, -, -, -⟩ := run_pool_inv (ops.take k) (Globals.init mem) (poolInv_init mem) a1
    obtain ⟨-, q2, -, -⟩ := run_pool_inv (ops.drop k) _ p1 a2
    rw [← run_pool_append, ← hsplit] at q2
    exact q2

/-- C4 on a sequence with a release and a re-allocation: three allocations,
the release of slot 1, two more allocations. -/
theorem pool_invariant_witness :
    (run_pool (Globals.init fun _ => 0)
        [.find, .find, .find, .free 1, .find, .find]).current_reg_count =
        ((run_pool (Globals.init fun _ => 0)
          [.find, .find, .find, .free 1, .find, .find]).reg_map.count true : Nat) ∧
      (run_pool (Globals.init fun _ => 0)
        [.find, .find, .find, .free 1, .find, .find]).reg_map.length = 36 ∧
      0 ≤ (run_pool (Globals.init fun _ => 0)
        [.find, .find, .find, .free 1, .find, .find]).current_reg_count ∧
      (run_pool (Globals.init fun _ => 0)
        [.find, .find, .find, .free 1, .find, .find]).current_reg_count ≤
        (run_pool (Globals.init fun _ => 0)
          [.find, .find, .find, .free 1, .find, .find]).max_reg_count ∧
      (run_pool (Globals.init fun _ => 0)
        [.find, .find, .find, .free 1, .find, .find]).max_reg_count ≤ 36 ∧
      (run_pool (Globals.init fun _ => 0)
        [.find, .find, .find, .free 1, .find, .find]).max_reg_count ∈
        count_history (Globals.init fun _ => 0) [.find, .find, .find, .free 1, .find, .find] ∧
      (∀ c ∈ count_history (Globals.init fun _ => 0)
          [.find, .find, .find, .free 1, .find, .find],
        c ≤ (run_pool (Globals.init fun _ => 0)
          [.find, .find, .find, .free 1, .find, .find]).max_reg_count) ∧
      (∀ k : Nat, (run_pool (Globals.init fun _ => 0)
          (([.find, .find, .find, .free 1, .find, .find] : List PoolOp).take k)).max_reg_count ≤
        (run_pool (Globals.init fun _ => 0)
          [.find, .find, .find, .free 1, .find, .find]).max_reg_count) :=
  pool_invariant (fun _ => 0) [.find, .find, .find, .free 1, .find, .find] (by decide)

/-! ## Creating and destroying handles -/

theorem find_reg_of_initial_segment (g : Globals) (k : Nat) (hk : k < reg_num)
    (hocc : ∀ j, g.occupied j = decide (j < k)) :
    find_reg g =
      (.ok (k : Int),
        { g with
            reg_map := g.reg_map.set k true
            current_reg_count := g.current_reg_count + 1
            max_reg_count := max g.max_reg_count (g.current_reg_count + 1) }) := by
  rcases find_reg_cases g with h | ⟨m, -, hmf, hml, h⟩
  · exfalso
    have hfree : g.occupied k = false := by rw [hocc]; simp
    obtain ⟨m, -, -, -, -, hm5⟩ :=
      find_reg_loop_ok g reg_num 0 ⟨k, Nat.zero_le _, by omega, hfree⟩
    unfold find_reg at h
    rw [hm5] at h
    cases h
  · have h1 : ¬ m < k := by
      intro hlt
      rw [hocc] at hmf
      simp [hlt] at hmf
    have h2 : ¬ k < m := by
      intro hlt
      have := hml k hlt
      rw [hocc] at this
      simp at this
    have : m = k := by omega
    subst this
    exact h

theorem create_handles_spec (vs : List Int) :
    ∀ (g : Globals) (k : Nat), g.WF → (∀ j, g.occupied j = decide (j < k)) →
      k + vs.length ≤ reg_num → g.current_reg_count ≤ g.max_reg_count →
      ∃ hs g1, create_handles vs g = (.ok hs, g1) ∧
        hs.map (fun h => h.reg_id_) = (List.range' k vs.length).map Int.ofNat ∧
        hs.map (fun h => h.reg_) = vs ∧
        (∀ h ∈ hs, h.state_ = .ACTIVE) ∧
        g1.WF ∧ (∀ j, g1.occupied j = decide (j < k + vs.length)) ∧
        g1.current_reg_count = g.current_reg_count + vs.length ∧
        g1.max_reg_count = max g.max_reg_count (g.current_reg_count + vs.length) ∧
        g1.access_logs = g.access_logs ∧ g1.mem = g.mem := by
  induction vs with
  | nil =>
    intro g k hwf hocc _ hcm
    refine ⟨[], g, rfl, rfl, rfl, ?_, hwf, ?_, ?_, ?_, rfl, rfl⟩
    · intro h hh; cases hh
    · simpa using hocc
    · simp
    · simpa using hcm
  | cons v vs ih =>
    intro g k hwf hocc hlen hcm
    simp only [List.length_cons] at hlen
    have hf := find_reg_of_initial_segment g k (by omega) hocc
    have hkl : k < g.reg_map.length := by rw [hwf]; omega
    obtain ⟨hs, g1, e1, e2, e3, e4, e5, e6, e7, e8, e9, e10⟩ :=
      ih { g with
            reg_map := g.reg_map.set k true
            current_reg_count := g.current_reg_count + 1
            max_reg_count := max g.max_reg_count (g.current_reg_count + 1) } (k + 1)
        (by simpa [Globals.WF] using hwf)
        (by
          intro j
          have := hocc j
          simp only [Globals.occupied] at this ⊢
          rw [getD_set, this]
          by_cases hj : k = j
          · subst hj; simp [hkl]
          · simp [hj]; omega)
        (by omega)
        (le_max_right _ _)
    refine ⟨⟨v, .ACTIVE, k⟩ :: hs, g1, ?_, ?_, ?_, ?_, e5, ?_, ?_, ?_, e9, e10⟩
    · simp only [create_handles, BaseRegisterWrapper.ctor, hf, e1]
    · simp [List.range', e2]
    · simp [e3]
    · intro h hh
      rcases List.mem_cons.mp hh with hh | hh
      · subst hh; rfl
      · exact e4 h hh
    · intro j; rw [e6]; simp only [List.length_cons]; congr 1; apply propext; omega
    · rw [e7]; simp only [List.length_cons]; push_cast; ring
    · rw [e8]; simp only [List.length_cons]; push_cast
      simp only [max_def]
      split_ifs <;> omega


theorem free_reg_occupied (g : Globals) (i : Int) (h0 : 0 ≤ i) (h1 : i < reg_num)
    (hwf : g.WF) (j : Nat) :
    (free_reg i g).occupied j = (g.occupied j && decide ((j : Int) ≠ i)) := by
  have hil : i.toNat < g.reg_map.length := by rw [hwf]; omega
  simp only [Globals.occupied, free_reg, h0, h1, and_self, if_true, getD_set, hil, and_true]
  by_cases hj : i.toNat = j
  · have : (j : Int) = i := by omega
    simp [hj, this]
  · have : (j : Int) ≠ i := by omega
    simp [hj, this]

theorem destroy_handles_spec (hs : List Handle) :
    ∀ g : Globals, g.WF →
      (∀ h ∈ hs, h.state_ = .ACTIVE ∧ 0 ≤ h.reg_id_ ∧ h.reg_id_ < reg_num) →
      (destroy_handles hs g).WF ∧
        (∀ j : Nat, (destroy_handles hs g).occupied j =
          (g.occupied j && decide ((j : Int) ∉ hs.map fun h => h.reg_id_))) ∧
        (destroy_handles hs g).current_reg_count = g.current_reg_count - hs.length ∧
        (destroy_handles hs g).max_reg_count = g.max_reg_count ∧
        (destroy_handles hs g).access_logs = g.access_logs ∧
        (destroy_handles hs g).mem = g.mem := by
  induction hs with
  | nil =>
    intro g hwf _
    refine ⟨hwf, ?_, ?_, rfl, rfl, rfl⟩
    · intro j; simp [destroy_handles]
    · simp [destroy_handles]
  | cons h hs ih =>
    intro g hwf hall
    obtain ⟨ha, h0, h1⟩ := hall h (List.mem_cons_self _ _)
    have hd : BaseRegisterWrapper.dtor h g = free_reg h.reg_id_ g := by
      simp [BaseRegisterWrapper.dtor, ha]
    have hwf1 : (free_reg h.reg_id_ g).WF := by
      simp only [Globals.WF, free_reg, h0, h1, and_self, if_true, List.length_set]
      exact hwf
    obtain ⟨i1, i2, i3, i4, i5, i6⟩ :=
      ih (free_reg h.reg_id_ g) hwf1 (fun x hx => hall x (List.mem_cons_of_mem _ hx))
    simp only [destroy_handles, hd]
    refine ⟨i1, ?_, ?_, ?_, ?_, ?_⟩
    · intro j
      rw [i2, free_reg_occupied g _ h0 h1 hwf]
      simp only [List.map_cons, List.mem_cons, not_or]
      cases g.occupied j <;> simp [Bool.decide_and]
    · rw [i3]; simp only [free_reg, List.length_cons]; push_cast; ring
    · rw [i4]; rfl
    · rw [i5]; rfl
    · rw [i6]; rfl

theorem mem_map_ofNat_range' (j n : Nat) :
    (j : Int) ∈ (List.range' 0 n).map Int.ofNat ↔ j < n := by
  simp only [List.mem_map, List.mem_range'_1]
  constructor
  · rintro ⟨a, ⟨_, ha⟩, e⟩
    have : (a : Int) = (j : Int) := e
    omega
  · intro h
    exact ⟨j, ⟨Nat.zero_le _, by omega⟩, rfl⟩

/-- C3, the case the claim gets wrong.  With `n = 0` no slot-id has been handed
out, so the slot-id returned by the further creation is not a reused one: the
last part of the claim fails for `n = 0`. -/
theorem reuse_fails_without_handles :
    ¬ ∃ hs g1, create_handles [] (Globals.init fun _ => 0) = (.ok hs, g1) ∧
        ∀ hs1, hs1.Perm hs →
          ∃ h g3, BaseRegisterWrapper.ctor 0 (destroy_handles hs1 g1) = (.ok h, g3) ∧
            h.reg_id_ ∈ hs.map fun x => x.reg_id_ := by
  rintro ⟨hs, g1, e, hall⟩
  simp only [create_handles, Prod.mk.injEq, Except.ok.injEq] at e
  obtain ⟨rfl, -⟩ := e
  obtain ⟨h, g3, -, hm⟩ := hall [] (List.Perm.refl _)
  simp at hm

/-- C3, amended.  For every `n <= 36`, from the initial state: `n`
consecutive constructions from literals all succeed, the handles are `ACTIVE`
and hold pairwise distinct slot-ids in `[0, 36)`, and both counters are `n`;
after the destructors have run on these handles in any order the current
count is `0` and the peak still `n`; one further construction then succeeds
and returns slot `0`, which for `n >= 1` is one of the slot-ids handed out
before. -/
theorem create_destroy_reuse (mem : Int → Int) (vs : List Int) (v : Int)
    (hn : vs.length ≤ 36) :
    ∃ hs g1, create_handles vs (Globals.init mem) = (.ok hs, g1) ∧
      hs.length = vs.length ∧
      (hs.map fun x => x.reg_id_).Nodup ∧
      (∀ h ∈ hs, h.state_ = .ACTIVE ∧ 0 ≤ h.reg_id_ ∧ h.reg_id_ < 36) ∧
      g1.current_reg_count = vs.length ∧ g1.max_reg_count = vs.length ∧
      ∀ hs1, hs1.Perm hs →
        (destroy_handles hs1 g1).current_reg_count = 0 ∧
        (destroy_handles hs1 g1).max_reg_count = vs.length ∧
        ∃ g3, BaseRegisterWrapper.ctor v (destroy_handles hs1 g1) =
            (.ok { reg_ := v, state_ := .ACTIVE, reg_id_ := 0 }, g3) ∧
          g3.current_reg_count = 1 ∧ g3.max_reg_count = max (vs.length : Int) 1 ∧
          (1 ≤ vs.length → (0 : Int) ∈ hs.map fun x => x.reg_id_) := by
  obtain ⟨hs, g1, e1, e2, e3, e4, e5, e6, e7, e8, -, -⟩ :=
    create_handles_spec vs (Globals.init mem) 0 rfl
      (by
        intro j
        simp only [Globals.occupied, Globals.init, List.getD_eq_getElem?_getD,
          List.getElem?_replicate]
        split <;> simp)
      (by simpa [reg_num] using hn) (le_refl _)
  have hlen : hs.length = vs.length := by
    have := congrArg List.length e3
    simpa using this
  have hids : ∀ h ∈ hs, h.state_ = .ACTIVE ∧ 0 ≤ h.reg_id_ ∧ h.reg_id_ < reg_num := by
    intro h hh
    refine ⟨e4 h hh, ?_⟩
    have hm : h.reg_id_ ∈ hs.map fun x => x.reg_id_ := List.mem_map_of_mem _ hh
    rw [e2] at hm
    simp only [List.mem_map, List.mem_range'_1] at hm
    obtain ⟨a, ⟨_, ha⟩, e⟩ := hm
    have : h.reg_id_ = (a : Int) := e.symm
    simp only [reg_num]
    omega
  have hcur : g1.current_reg_count = vs.length := by
    rw [e7]; simp [Globals.init]
  have hmax : g1.max_reg_count = vs.length := by
    rw [e8]; simp [Globals.init]
  refine ⟨hs, g1, e1, hlen, ?_, ?_, hcur, hmax, ?_⟩
  · rw [e2]
    exact List.Nodup.map Int.ofNat_injective (List.nodup_range' 0 vs.length)
  · intro h hh
    simpa [reg_num] using hids h hh
  · intro hs1 hp
    obtain ⟨d1, d2, d3, d4, -, -⟩ :=
      destroy_handles_spec hs1 g1 e5 (fun h hh => hids h (hp.mem_iff.mp hh))
    have hfree : ∀ j, (destroy_handles hs1 g1).occupied j = decide (j < 0) := by
      intro j
      rw [d2, e6]
      have hmem : ((j : Int) ∈ hs1.map fun x => x.reg_id_) ↔ j < vs.length := by
        rw [(hp.map fun x => x.reg_id_).mem_iff, e2]
        exact mem_map_ofNat_range' j vs.length
      by_cases hj : j < vs.length
      · simp [hj, hmem]
      · simp [hj]
    have hf := find_reg_of_initial_segment (destroy_handles hs1 g1) 0 (by decide) hfree
    have hc0 : (destroy_handles hs1 g1).current_reg_count = 0 := by
      rw [d3, hcur, hp.length_eq, hlen]; simp
    refine ⟨hc0, by rw [d4, hmax], (find_reg (destroy_handles hs1 g1)).2, ?_, ?_, ?_, ?_⟩
    · simp only [BaseRegisterWrapper.ctor, hf]
      rfl
    · rw [hf]
      show (destroy_handles hs1 g1).current_reg_count + 1 = 1
      rw [hc0]; rfl
    · rw [hf]
      show max (destroy_handles hs1 g1).max_reg_count
        ((destroy_handles hs1 g1).current_reg_count + 1) = _
      rw [hc0, d4, hmax]; rfl
    · intro h1
      rw [e2]
      exact (mem_map_ofNat_range' 0 vs.length).mpr (by omega)

/-- C3 amended, on three handles. -/
theorem create_destroy_reuse_witness :
    ∃ hs g1, create_handles [5, 6, 7] (Globals.init fun _ => 0) = (.ok hs, g1) ∧
      hs.length = ([5, 6, 7] : List Int).length ∧
      (hs.map fun x => x.reg_id_).Nodup ∧
      (∀ h ∈ hs, h.state_ = .ACTIVE ∧ 0 ≤ h.reg_id_ ∧ h.reg_id_ < 36) ∧
      g1.current_reg_count = ([5, 6, 7] : List Int).length ∧
      g1.max_reg_count = ([5, 6, 7] : List Int).length ∧
      ∀ hs1, hs1.Perm hs →
        (destroy_handles hs1 g1).current_reg_count = 0 ∧
        (destroy_handles hs1 g1).max_reg_count = ([5, 6, 7] : List Int).length ∧
        ∃ g3, BaseRegisterWrapper.ctor 9 (destroy_handles hs1 g1) =
            (.ok { reg_ := 9, state_ := .ACTIVE, reg_id_ := 0 }, g3) ∧
          g3.current_reg_count = 1 ∧
          g3.max_reg_count = max (([5, 6, 7] : List Int).length : Int) 1 ∧
          (1 ≤ ([5, 6, 7] : List Int).length → (0 : Int) ∈ hs.map fun x => x.reg_id_) :=
  create_destroy_reuse (fun _ => 0) [5, 6, 7] 9 (by decide)

/-! ## The deprecated state is never reached -/

theorem mem_set_cases {α : Type} (l : List α) (i : Nat) (a b : α) (h : b ∈ l.set i a) :
    b = a ∨ b ∈ l := by
  rcases List.mem_or_eq_of_mem_set h with h | h
  · exact Or.inr h
  · exact Or.inl h

theorem mem_push_cases (objs : List (Option Handle)) (r : Except Exn Handle) (h : Handle)
    (hm : some h ∈ World.push objs r) : some h ∈ objs ∨ r = .ok h := by
  cases r with
  | error e =>
    simp only [World.push, List.mem_append, List.mem_singleton] at hm
    rcases hm with hm | hm
    · exact Or.inl hm
    · cases hm
  | ok x =>
    simp only [World.push, List.mem_append, List.mem_singleton, Option.some.injEq] at hm
    rcases hm with hm | hm
    · exact Or.inl hm
    · right; rw [hm]

theorem obj_mem (w : World) (i : Nat) (h : Handle) (e : w.obj i = some h) : some h ∈ w.objs := by
  unfold World.obj at e
  rw [List.getD_eq_getElem?_getD] at e
  cases hi : w.objs[i]? with
  | none => rw [hi] at e; cases e
  | some o =>
    rw [hi] at e
    simp only [Option.getD_some] at e
    subst e
    exact List.mem_iff_getElem?.mpr ⟨i, hi⟩

theorem ctor_state_active (v : Int) (g : Globals) (h : Handle)
    (e : (BaseRegisterWrapper.ctor v g).1 = .ok h) : h.state_ = .ACTIVE := by
  unfold BaseRegisterWrapper.ctor at e
  rcases hf : find_reg g with ⟨r, g1⟩
  rw [hf] at e
  cases r with
  | error x => cases e
  | ok i => simp only [Except.ok.injEq] at e; subst e; rfl

theorem ctor_mem_state_active (cell : MemoryWrapper) (g : Globals) (h : Handle)
    (e : (BaseRegisterWrapper.ctor_mem cell g).1 = .ok h) : h.state_ = .ACTIVE := by
  unfold BaseRegisterWrapper.ctor_mem at e
  rcases hf : find_reg g with ⟨r, g1⟩
  simp only [hf] at e
  cases r with
  | error x => cases e
  | ok i => simp only [Except.ok.injEq] at e; subst e; rfl

theorem ctor_copy_state_active (o : Handle) (g : Globals) (h : Handle)
    (e : (BaseRegisterWrapper.ctor_copy o g).1 = .ok h) : h.state_ = .ACTIVE := by
  unfold BaseRegisterWrapper.ctor_copy at e
  rcases hf : find_reg g with ⟨r, g1⟩
  rw [hf] at e
  cases r with
  | error x => cases e
  | ok i => simp only [Except.ok.injEq] at e; subst e; rfl

theorem World.step_noTmp (w : World) (op : HandleOp) (hw : w.NoTmp) : (w.step op).NoTmp := by
  intro h hm
  cases op with
  | ctor_lit v =>
    rcases mem_push_cases _ _ _ hm with hm | hm
    · exact hw h hm
    · rw [ctor_state_active v w.g h hm]; decide
  | ctor_mem cell =>
    rcases mem_push_cases _ _ _ hm with hm | hm
    · exact hw h hm
    · rw [ctor_mem_state_active cell w.g h hm]; decide
  | ctor_copy src =>
    simp only [World.step] at hm
    cases ho : w.obj src with
    | none => rw [ho] at hm; exact hw h hm
    | some o =>
      rw [ho] at hm
      rcases mem_push_cases _ _ _ hm with hm | hm
      · exact hw h hm
      · rw [ctor_copy_state_active o w.g h hm]; decide
  | ctor_move src rnd =>
    simp only [World.step] at hm
    cases ho : w.obj src with
    | none => rw [ho] at hm; exact hw h hm
    | some o =>
      rw [ho] at hm
      dsimp only at hm
      have hne := hw o (obj_mem w src o ho)
      obtain ⟨r, s, i⟩ := o
      cases s with
      | TMP => exact absurd rfl hne
      | ACTIVE =>
        rcases mem_push_cases _ _ _ hm with hm | hm
        · rcases mem_set_cases _ _ _ _ hm with hm | hm
          · simp only [BaseRegisterWrapper.ctor_move, if_true, Option.some.injEq] at hm
            subst hm; intro hc; cases hc
          · exact hw h hm
        · simp only [BaseRegisterWrapper.ctor_move, if_true, Except.ok.injEq] at hm
          subst hm; intro hc; cases hc
      | INACTIVE =>
        rcases mem_push_cases _ _ _ hm with hm | hm
        · rcases mem_set_cases _ _ _ _ hm with hm | hm
          · simp [BaseRegisterWrapper.ctor_move] at hm
            subst hm; intro hc; cases hc
          · exact hw h hm
        · simp [BaseRegisterWrapper.ctor_move] at hm
  | assign_lit dst v =>
    simp only [World.step] at hm
    cases hd : w.obj dst with
    | none => rw [hd] at hm; exact hw h hm
    | some d =>
      rw [hd] at hm
      have hne := hw d (obj_mem w dst d hd)
      rcases mem_set_cases _ _ _ _ hm with hm | hm
      · simp only [Option.some.injEq] at hm
        subst hm
        unfold BaseRegisterWrapper.assign_lit
        cases BaseRegisterWrapper.check_valid d <;> exact hne
      · exact hw h hm
  | assign_copy dst src =>
    simp only [World.step] at hm
    cases hd : w.obj dst with
    | none => rw [hd] at hm; exact hw h hm
    | some d =>
      cases ho : w.obj src with
      | none => rw [hd, ho] at hm; exact hw h hm
      | some o =>
        rw [hd, ho] at hm
        have hne := hw d (obj_mem w dst d hd)
        rcases mem_set_cases _ _ _ _ hm with hm | hm
        · simp only [Option.some.injEq] at hm
          subst hm
          unfold BaseRegisterWrapper.assign_copy
          cases BaseRegisterWrapper.check_valid d <;> exact hne
        · exact hw h hm
  | assign_move dst src =>
    simp only [World.step] at hm
    cases hd : w.obj dst with
    | none => rw [hd] at hm; exact hw h hm
    | some d =>
      cases ho : w.obj src with
      | none => rw [hd, ho] at hm; exact hw h hm
      | some o =>
        rw [hd, ho] at hm
        have hne := hw d (obj_mem w dst d hd)
        have hne2 := hw o (obj_mem w src o ho)
        rcases mem_set_cases _ _ _ _ hm with hm | hm
        · simp only [Option.some.injEq] at hm
          subst hm
          unfold BaseRegisterWrapper.assign_move
          cases BaseRegisterWrapper.check_valid d
          · exact hne2
          · by_cases hs : o.state_ = .ACTIVE
            · simp [hs]
            · simp only [hs, if_false]; exact hne2
        · rcases mem_set_cases _ _ _ _ hm with hm | hm
          · simp only [Option.some.injEq] at hm
            subst hm
            unfold BaseRegisterWrapper.assign_move
            cases BaseRegisterWrapper.check_valid d
            · exact hne
            · by_cases hs : o.state_ = .ACTIVE
              · simp only [hs, if_true]; exact hne
              · simp only [hs, if_false]; exact hne
          · exact hw h hm
  | assign_mem dst cell =>
    simp only [World.step] at hm
    cases hd : w.obj dst with
    | none => rw [hd] at hm; exact hw h hm
    | some d =>
      rw [hd] at hm
      have hne := hw d (obj_mem w dst d hd)
      rcases mem_set_cases _ _ _ _ hm with hm | hm
      · simp only [Option.some.injEq] at hm
        subst hm
        unfold BaseRegisterWrapper.assign_mem
        cases BaseRegisterWrapper.check_valid d <;> exact hne
      · exact hw h hm
  | dtor i =>
    simp only [World.step] at hm
    cases hd : w.obj i with
    | none => rw [hd] at hm; exact hw h hm
    | some d =>
      rw [hd] at hm
      rcases mem_set_cases _ _ _ _ hm with hm | hm
      · cases hm
      · exact hw h hm

theorem World.run_noTmp (ops : List HandleOp) :
    ∀ w : World, w.NoTmp → (w.run ops).NoTmp := by
  induction ops with
  | nil => intro w hw; exact hw
  | cons op ops ih => intro w hw; exact ih _ (World.step_noTmp w op hw)

/-- Every handle object of a program that starts without handles is `ACTIVE`
or `INACTIVE`: no operation produces the state `TMP`. -/
theorem World.reachable_noTmp (mem : Int → Int) (ops : List HandleOp) :
    ((World.init mem).run ops).NoTmp :=
  World.run_noTmp ops _ (fun _ hm => by simp [World.init] at hm)

/-! ## Claims on handle ownership -/

/-- C5 fails on the move assignment.  The program
`reg a(1); reg b(2); a = std::move(b);` leaves slots 0 and 1 occupied and
`current_reg_count == 2` while only `a` is `ACTIVE` (with slot 0): slot 1 is
occupied and owned by no active handle.  After both destructors have run,
slot 1 is still occupied and `current_reg_count == 1` with no handle alive. -/
theorem move_assign_leaks_slot :
    ((World.init fun _ => 0).run
        [.ctor_lit 1, .ctor_lit 2, .assign_move 0 1]).objs =
        [some ⟨2, .ACTIVE, 0⟩, some ⟨2, .INACTIVE, 1⟩] ∧
      ((World.init fun _ => 0).run
        [.ctor_lit 1, .ctor_lit 2, .assign_move 0 1]).g.occupied_slots = [0, 1] ∧
      ((World.init fun _ => 0).run
        [.ctor_lit 1, .ctor_lit 2, .assign_move 0 1]).active_slots = [0] ∧
      ((World.init fun _ => 0).run
        [.ctor_lit 1, .ctor_lit 2, .assign_move 0 1]).g.current_reg_count = 2 ∧
      ((World.init fun _ => 0).run
        [.ctor_lit 1, .ctor_lit 2, .assign_move 0 1, .dtor 0, .dtor 1]).objs = [none, none] ∧
      ((World.init fun _ => 0).run
        [.ctor_lit 1, .ctor_lit 2, .assign_move 0 1, .dtor 0, .dtor 1]).g.occupied_slots = [1] ∧
      ((World.init fun _ => 0).run
        [.ctor_lit 1, .ctor_lit 2, .assign_move 0 1, .dtor 0, .dtor 1]).g.current_reg_count = 1 := by
  refine ⟨?_, ?_, ?_, ?_, ?_, ?_, ?_⟩ <;> decide

/-- C6. For a source that is `ACTIVE` or `INACTIVE`, move construction
succeeds exactly when the source is `ACTIVE`.  From an `ACTIVE` source with
value `v` and slot-id `i` the new handle is `ACTIVE` with value `v` and
slot-id `i`, the source becomes `INACTIVE`, and the globals (slot array, both
counters, log, memory) are unchanged.  From an `INACTIVE` source
`InactiveRegisterException` is thrown with the source and the globals
unchanged. -/
theorem ctor_move_spec (other : Handle) (rnd : Int) (g : Globals)
    (hst : other.state_ ≠ .TMP) :
    ((∃ h, (BaseRegisterWrapper.ctor_move other rnd g).1 = .ok h) ↔ other.state_ = .ACTIVE) ∧
      (other.state_ = .ACTIVE →
        BaseRegisterWrapper.ctor_move other rnd g =
          (.ok { reg_ := other.reg_, state_ := .ACTIVE, reg_id_ := other.reg_id_ },
            { reg_ := rnd, state_ := .INACTIVE, reg_id_ := other.reg_id_ }, g)) ∧
      (other.state_ = .INACTIVE →
        BaseRegisterWrapper.ctor_move other rnd g =
          (.error .InactiveRegisterException, other, g)) := by
  obtain ⟨r, s, i⟩ := other
  cases s
  · simp [BaseRegisterWrapper.ctor_move]
  · simp [BaseRegisterWrapper.ctor_move]
  · exact absurd rfl hst

/-- C6 at an active source with value 5 in slot 3, and at the handle it
leaves behind. -/
theorem ctor_move_spec_witness :
    (((∃ h, (BaseRegisterWrapper.ctor_move ⟨5, .ACTIVE, 3⟩ 42 Globals.example_full).1 = .ok h) ↔
          (⟨5, .ACTIVE, 3⟩ : Handle).state_ = .ACTIVE) ∧
        ((⟨5, .ACTIVE, 3⟩ : Handle).state_ = .ACTIVE →
          BaseRegisterWrapper.ctor_move ⟨5, .ACTIVE, 3⟩ 42 Globals.example_full =
            (.ok { reg_ := (⟨5, .ACTIVE, 3⟩ : Handle).reg_, state_ := .ACTIVE,
                   reg_id_ := (⟨5, .ACTIVE, 3⟩ : Handle).reg_id_ },
              { reg_ := 42, state_ := .INACTIVE, reg_id_ := (⟨5, .ACTIVE, 3⟩ : Handle).reg_id_ },
              Globals.example_full)) ∧
        ((⟨5, .ACTIVE, 3⟩ : Handle).state_ = .INACTIVE →
          BaseRegisterWrapper.ctor_move ⟨5, .ACTIVE, 3⟩ 42 Globals.example_full =
            (.error .InactiveRegisterException, ⟨5, .ACTIVE, 3⟩, Globals.example_full))) ∧
      BaseRegisterWrapper.ctor_move ⟨42, .INACTIVE, 3⟩ 7 Globals.example_full =
        (.error .InactiveRegisterException, ⟨42, .INACTIVE, 3⟩, Globals.example_full) :=
  ⟨ctor_move_spec ⟨5, .ACTIVE, 3⟩ 42 Globals.example_full (by decide),
    (ctor_move_spec ⟨42, .INACTIVE, 3⟩ 7 Globals.example_full (by decide)).2.2 rfl⟩

/-- C7 fails on the conversion and on the move assignment.  After the active
handle `a` (value 5, slot 0) has been moved into `b`, `a` is `INACTIVE`, yet
`operator int` on `a` returns normally (the value put there by `rand()`, here
42), and a move assignment from `a` into the active handle `c` returns
normally as well. -/
theorem moved_from_read_and_move_assign_succeed :
    (BaseRegisterWrapper.ctor_move ⟨5, .ACTIVE, 0⟩ 42 (Globals.init fun _ => 0)).2.1 =
        ⟨42, .INACTIVE, 0⟩ ∧
      (BaseRegisterWrapper.operator_int
        (BaseRegisterWrapper.ctor_move ⟨5, .ACTIVE, 0⟩ 42 (Globals.init fun _ => 0)).2.1
        (Globals.init fun _ => 0)).1 = .ok 42 ∧
      (BaseRegisterWrapper.assign_move ⟨9, .ACTIVE, 1⟩
        (BaseRegisterWrapper.ctor_move ⟨5, .ACTIVE, 0⟩ 42 (Globals.init fun _ => 0)).2.1
        (Globals.init fun _ => 0)).1 = .ok () := by
  refine ⟨?_, ?_, ?_⟩ <;> rfl

/-- C7, amended.  After an `ACTIVE` handle `a` has been moved into `b` by the
move constructor, `a` is `INACTIVE` and `b` is `ACTIVE` with the value and the
slot-id `a` had; `b` can be read and compared.  Every call of a member
relational operator (`<`, `>`, `<=`, `>=`, `==`) with `a` as the left operand
and a handle or a literal on the right, or with a handle on the left and `a`
on the right, and every further move construction from `a`, throws
`InactiveRegisterException` and changes nothing.  An ordering comparison with
a literal on the left (`c < a`, `c > a`, `c <= a`, `c >= a`) is not a call of
a member operator: it converts `a` by the unchecked `operator int()` and
returns normally, comparing `c` with the value left in `a`. -/
theorem moved_from_is_unusable (a : Handle) (rnd : Int) (g : Globals)
    (ha : a.state_ = .ACTIVE) :
    ∃ b a1, BaseRegisterWrapper.ctor_move a rnd g = (.ok b, a1, g) ∧
      a1.state_ = .INACTIVE ∧
      b = { reg_ := a.reg_, state_ := .ACTIVE, reg_id_ := a.reg_id_ } ∧
      (∀ g2 : Globals, BaseRegisterWrapper.operator_int b g2 = (.ok a.reg_, g2)) ∧
      (∀ (c : Int) (g2 : Globals),
        BaseRegisterWrapper.operator_lt_lit b c g2 = (.ok (decide (a.reg_ < c)), g2) ∧
        BaseRegisterWrapper.operator_eq_lit b c g2 = (.ok (decide (a.reg_ = c)), g2)) ∧
      (∀ (x : Handle) (g2 : Globals),
        BaseRegisterWrapper.operator_lt a1 x g2 = (.error .InactiveRegisterException, g2) ∧
        BaseRegisterWrapper.operator_gt a1 x g2 = (.error .InactiveRegisterException, g2) ∧
        BaseRegisterWrapper.operator_le a1 x g2 = (.error .InactiveRegisterException, g2) ∧
        BaseRegisterWrapper.operator_ge a1 x g2 = (.error .InactiveRegisterException, g2) ∧
        BaseRegisterWrapper.operator_eq a1 x g2 = (.error .InactiveRegisterException, g2) ∧
        BaseRegisterWrapper.operator_lt x a1 g2 = (.error .InactiveRegisterException, g2) ∧
        BaseRegisterWrapper.operator_gt x a1 g2 = (.error .InactiveRegisterException, g2) ∧
        BaseRegisterWrapper.operator_le x a1 g2 = (.error .InactiveRegisterException, g2) ∧
        BaseRegisterWrapper.operator_ge x a1 g2 = (.error .InactiveRegisterException, g2) ∧
        BaseRegisterWrapper.operator_eq x a1 g2 = (.error .InactiveRegisterException, g2)) ∧
      (∀ (c : Int) (g2 : Globals),
        BaseRegisterWrapper.operator_lt_lit a1 c g2 = (.error .InactiveRegisterException, g2) ∧
        BaseRegisterWrapper.operator_gt_lit a1 c g2 = (.error .InactiveRegisterException, g2) ∧
        BaseRegisterWrapper.operator_le_lit a1 c g2 = (.error .InactiveRegisterException, g2) ∧
        BaseRegisterWrapper.operator_ge_lit a1 c g2 = (.error .InactiveRegisterException, g2) ∧
        BaseRegisterWrapper.operator_eq_lit a1 c g2 = (.error .InactiveRegisterException, g2)) ∧
      (∀ (rnd2 : Int) (g2 : Globals),
        BaseRegisterWrapper.ctor_move a1 rnd2 g2 =
          (.error .InactiveRegisterException, a1, g2)) ∧
      a1.reg_ = rnd ∧
      (∀ (rel : OrderRel) (c : Int) (g2 : Globals),
        BaseRegisterWrapper.compare_int_left rel c a1 g2 = (.ok (rel.holds c rnd), g2)) := by
  obtain ⟨r, s, i⟩ := a
  simp only at ha
  subst ha
  refine ⟨⟨r, .ACTIVE, i⟩, ⟨rnd, .INACTIVE, i⟩, rfl, rfl, rfl, fun _ => rfl, ?_, ?_, ?_, ?_,
    rfl, fun _ _ _ => rfl⟩
  · intro c g2
    exact ⟨rfl, rfl⟩
  · intro x g2
    obtain ⟨xr, xs, xi⟩ := x
    cases xs <;>
      simp [BaseRegisterWrapper.operator_lt, BaseRegisterWrapper.operator_gt,
        BaseRegisterWrapper.operator_le, BaseRegisterWrapper.operator_ge,
        BaseRegisterWrapper.operator_eq, BaseRegisterWrapper.check_valid, bind, Except.bind]
  · intro c g2
    simp [BaseRegisterWrapper.operator_lt_lit, BaseRegisterWrapper.operator_gt_lit,
      BaseRegisterWrapper.operator_le_lit, BaseRegisterWrapper.operator_ge_lit,
      BaseRegisterWrapper.operator_eq_lit, BaseRegisterWrapper.check_valid, bind, Except.bind]
  · intro rnd2 g2
    rfl

/-- C7 amended, at the handle with value 5 in slot 0, with 42 the value put
into the source by `rand()`: `3 < a` then returns `true`. -/
theorem moved_from_is_unusable_witness :
    ∃ b a1, BaseRegisterWrapper.ctor_move ⟨5, .ACTIVE, 0⟩ 42 (Globals.init fun _ => 0) =
        (.ok b, a1, Globals.init fun _ => 0) ∧
      a1.state_ = .INACTIVE ∧
      b = { reg_ := (⟨5, .ACTIVE, 0⟩ : Handle).reg_, state_ := .ACTIVE,
            reg_id_ := (⟨5, .ACTIVE, 0⟩ : Handle).reg_id_ } ∧
      (∀ g2 : Globals,
        BaseRegisterWrapper.operator_int b g2 = (.ok (⟨5, .ACTIVE, 0⟩ : Handle).reg_, g2)) ∧
      (∀ (c : Int) (g2 : Globals),
        BaseRegisterWrapper.operator_lt_lit b c g2 =
          (.ok (decide ((⟨5, .ACTIVE, 0⟩ : Handle).reg_ < c)), g2) ∧
        BaseRegisterWrapper.operator_eq_lit b c g2 =
          (.ok (decide ((⟨5, .ACTIVE, 0⟩ : Handle).reg_ = c)), g2)) ∧
      (∀ (x : Handle) (g2 : Globals),
        BaseRegisterWrapper.operator_lt a1 x g2 = (.error .InactiveRegisterException, g2) ∧
        BaseRegisterWrapper.operator_gt a1 x g2 = (.error .InactiveRegisterException, g2) ∧
        BaseRegisterWrapper.operator_le a1 x g2 = (.error .InactiveRegisterException, g2) ∧
        BaseRegisterWrapper.operator_ge a1 x g2 = (.error .InactiveRegisterException, g2) ∧
        BaseRegisterWrapper.operator_eq a1 x g2 = (.error .InactiveRegisterException, g2) ∧
        BaseRegisterWrapper.operator_lt x a1 g2 = (.error .InactiveRegisterException, g2) ∧
        BaseRegisterWrapper.operator_gt x a1 g2 = (.error .InactiveRegisterException, g2) ∧
        BaseRegisterWrapper.operator_le x a1 g2 = (.error .InactiveRegisterException, g2) ∧
        BaseRegisterWrapper.operator_ge x a1 g2 = (.error .InactiveRegisterException, g2) ∧
        BaseRegisterWrapper.operator_eq x a1 g2 = (.error .InactiveRegisterException, g2)) ∧
      (∀ (c : Int) (g2 : Globals),
        BaseRegisterWrapper.operator_lt_lit a1 c g2 = (.error .InactiveRegisterException, g2) ∧
        BaseRegisterWrapper.operator_gt_lit a1 c g2 = (.error .InactiveRegisterException, g2) ∧
        BaseRegisterWrapper.operator_le_lit a1 c g2 = (.error .InactiveRegisterException, g2) ∧
        BaseRegisterWrapper.operator_ge_lit a1 c g2 = (.error .InactiveRegisterException, g2) ∧
        BaseRegisterWrapper.operator_eq_lit a1 c g2 = (.error .InactiveRegisterException, g2)) ∧
      (∀ (rnd2 : Int) (g2 : Globals),
        BaseRegisterWrapper.ctor_move a1 rnd2 g2 =
          (.error .InactiveRegisterException, a1, g2)) ∧
      a1.reg_ = 42 ∧
      (∀ (rel : OrderRel) (c : Int) (g2 : Globals),
        BaseRegisterWrapper.compare_int_left rel c a1 g2 = (.ok (rel.holds c 42), g2)) :=
  moved_from_is_unusable ⟨5, .ACTIVE, 0⟩ 42 (Globals.init fun _ => 0) rfl

/-- C8 fails on an inactive source.  With slot 0 occupied and a free slot
available, copy construction from the `INACTIVE` handle (value 42, slot-id 0)
throws nothing: it takes slot 1 and yields an `ACTIVE` handle with value 42. -/
theorem ctor_copy_from_inactive_succeeds :
    (BaseRegisterWrapper.ctor_copy ⟨42, .INACTIVE, 0⟩
        (find_reg (Globals.init fun _ => 0)).2).1 = .ok ⟨42, .ACTIVE, 1⟩ ∧
      (BaseRegisterWrapper.ctor_copy ⟨42, .INACTIVE, 0⟩
        (find_reg (Globals.init fun _ => 0)).2).2.occupied_slots = [0, 1] ∧
      (BaseRegisterWrapper.ctor_copy ⟨42, .INACTIVE, 0⟩
        (find_reg (Globals.init fun _ => 0)).2).2.current_reg_count = 2 := by
  refine ⟨?_, ?_, ?_⟩ <;> rfl

/-- C8, amended.  When a slot is free, copy construction from a source whose
slot is occupied (as the slot of an `ACTIVE` source is) takes the lowest free
slot, which is not the source's; the new handle is `ACTIVE` and has the
source's value; current count and peak are updated as by `find_reg`, the log
and the memory are unchanged.  The source is received by const reference and
is not written. -/
theorem ctor_copy_spec (other : Handle) (g : Globals) (hwf : g.WF)
    (hfree : ∃ j, j < reg_num ∧ g.occupied j = false)
    (hown : 0 ≤ other.reg_id_ ∧ g.occupied other.reg_id_.toNat = true) :
    ∃ i : Nat, i < reg_num ∧ g.occupied i = false ∧ (∀ j, j < i → g.occupied j = true) ∧
      (i : Int) ≠ other.reg_id_ ∧
      BaseRegisterWrapper.ctor_copy other g =
        (.ok { reg_ := other.reg_, state_ := .ACTIVE, reg_id_ := i }, (find_reg g).2) ∧
      (find_reg g).2.occupied i = true ∧
      (find_reg g).2.occupied other.reg_id_.toNat = true ∧
      (∀ j, j ≠ i → (find_reg g).2.occupied j = g.occupied j) ∧
      (find_reg g).2.current_reg_count = g.current_reg_count + 1 ∧
      (find_reg g).2.max_reg_count = max g.max_reg_count (g.current_reg_count + 1) ∧
      (find_reg g).2.access_logs = g.access_logs ∧
      (find_reg g).2.mem = g.mem := by
  obtain ⟨i, h1, h2, h3, h4, h5, h6, -, h8, h9, h10, h11⟩ :=
    find_reg_ok_spec g hwf hfree
  have hne : (i : Int) ≠ other.reg_id_ := by
    intro e
    have : other.reg_id_.toNat = i := by omega
    rw [this, h2] at hown
    exact absurd hown.2 (by decide)
  have hne2 : other.reg_id_.toNat ≠ i := by omega
  refine ⟨i, h1, h2, h3, hne, ?_, h5, ?_, h6, h8, h9, h10, h11⟩
  · have e : find_reg g = (.ok (i : Int), (find_reg g).2) := by
      rw [← h4]
    simp only [BaseRegisterWrapper.ctor_copy]
    rw [e]
  · rw [h6 _ hne2]; exact hown.2

/-- C8 amended, at an active source holding slot 0, the only occupied slot. -/
theorem ctor_copy_spec_witness :
    ∃ i : Nat, i < reg_num ∧ (find_reg (Globals.init fun _ => 0)).2.occupied i = false ∧
      (∀ j, j < i → (find_reg (Globals.init fun _ => 0)).2.occupied j = true) ∧
      (i : Int) ≠ (⟨7, .ACTIVE, 0⟩ : Handle).reg_id_ ∧
      BaseRegisterWrapper.ctor_copy ⟨7, .ACTIVE, 0⟩ (find_reg (Globals.init fun _ => 0)).2 =
        (.ok { reg_ := (⟨7, .ACTIVE, 0⟩ : Handle).reg_, state_ := .ACTIVE, reg_id_ := i },
          (find_reg (find_reg (Globals.init fun _ => 0)).2).2) ∧
      (find_reg (find_reg (Globals.init fun _ => 0)).2).2.occupied i = true ∧
      (find_reg (find_reg (Globals.init fun _ => 0)).2).2.occupied
        (⟨7, .ACTIVE, 0⟩ : Handle).reg_id_.toNat = true ∧
      (∀ j, j ≠ i → (find_reg (find_reg (Globals.init fun _ => 0)).2).2.occupied j =
        (find_reg (Globals.init fun _ => 0)).2.occupied j) ∧
      (find_reg (find_reg (Globals.init fun _ => 0)).2).2.current_reg_count =
        (find_reg (Globals.init fun _ => 0)).2.current_reg_count + 1 ∧
      (find_reg (find_reg (Globals.init fun _ => 0)).2).2.max_reg_count =
        max (find_reg (Globals.init fun _ => 0)).2.max_reg_count
          ((find_reg (Globals.init fun _ => 0)).2.current_reg_count + 1) ∧
      (find_reg (find_reg (Globals.init fun _ => 0)).2).2.access_logs =
        (find_reg (Globals.init fun _ => 0)).2.access_logs ∧
      (find_reg (find_reg (Globals.init fun _ => 0)).2).2.mem =
        (find_reg (Globals.init fun _ => 0)).2.mem :=
  ctor_copy_spec ⟨7, .ACTIVE, 0⟩ (find_reg (Globals.init fun _ => 0)).2 (by decide)
    ⟨1, by decide, by decide⟩ ⟨by decide, by decide⟩

/-! ## Claims on assignment and on the operators -/

/-- C9. Every assignment to an `INACTIVE` handle (from a literal, from another
handle by copy or by move, from a memory cell) throws
`InactiveRegisterException` and has no effect: the destination is as before,
the source of a move assignment is as before (not deactivated), and the
globals, the access log among them, are as before. -/
theorem assign_to_inactive_throws (self other : Handle) (v : Int) (cell : MemoryWrapper)
    (g : Globals) (hst : self.state_ = .INACTIVE) :
    BaseRegisterWrapper.assign_lit self v g = (.error .InactiveRegisterException, self, g) ∧
      BaseRegisterWrapper.assign_copy self other g =
        (.error .InactiveRegisterException, self, g) ∧
      BaseRegisterWrapper.assign_move self other g =
        (.error .InactiveRegisterException, self, other, g) ∧
      BaseRegisterWrapper.assign_mem self cell g =
        (.error .InactiveRegisterException, self, g) := by
  simp [BaseRegisterWrapper.assign_lit, BaseRegisterWrapper.assign_copy,
    BaseRegisterWrapper.assign_move, BaseRegisterWrapper.assign_mem,
    BaseRegisterWrapper.check_valid, hst]

/-- C9 at an inactive destination and an active source. -/
theorem assign_to_inactive_throws_witness :
    BaseRegisterWrapper.assign_lit ⟨42, .INACTIVE, 0⟩ 7 (Globals.init fun _ => 0) =
        (.error .InactiveRegisterException, ⟨42, .INACTIVE, 0⟩, Globals.init fun _ => 0) ∧
      BaseRegisterWrapper.assign_copy ⟨42, .INACTIVE, 0⟩ ⟨5, .ACTIVE, 1⟩
          (Globals.init fun _ => 0) =
        (.error .InactiveRegisterException, ⟨42, .INACTIVE, 0⟩, Globals.init fun _ => 0) ∧
      BaseRegisterWrapper.assign_move ⟨42, .INACTIVE, 0⟩ ⟨5, .ACTIVE, 1⟩
          (Globals.init fun _ => 0) =
        (.error .InactiveRegisterException, ⟨42, .INACTIVE, 0⟩, ⟨5, .ACTIVE, 1⟩,
          Globals.init fun _ => 0) ∧
      BaseRegisterWrapper.assign_mem ⟨42, .INACTIVE, 0⟩ ⟨64⟩ (Globals.init fun _ => 0) =
        (.error .InactiveRegisterException, ⟨42, .INACTIVE, 0⟩, Globals.init fun _ => 0) :=
  assign_to_inactive_throws ⟨42, .INACTIVE, 0⟩ ⟨5, .ACTIVE, 1⟩ 7 ⟨64⟩ (Globals.init fun _ => 0) rfl

theorem find_reg_ok_record (g : Globals) (hfree : ∃ j, j < reg_num ∧ g.occupied j = false) :
    ∃ m : Nat, m < reg_num ∧ g.occupied m = false ∧ (∀ j, j < m → g.occupied j = true) ∧
      find_reg g =
        (.ok (m : Int),
          { g with
              reg_map := g.reg_map.set m true
              current_reg_count := g.current_reg_count + 1
              max_reg_count := max g.max_reg_count (g.current_reg_count + 1) }) := by
  obtain ⟨j, hj, hjf⟩ := hfree
  obtain ⟨m, -, hm2, hm3, hm4, hm5⟩ :=
    find_reg_loop_ok g reg_num 0 ⟨j, Nat.zero_le _, by omega, hjf⟩
  exact ⟨m, by omega, hm3, fun j hj => hm4 j (Nat.zero_le _) hj, hm5⟩

theorem set_true_set_false (l : List Bool) (m : Nat) (hf : l.getD m false = false) :
    (l.set m true).set m false = l := by
  rw [List.set_set]
  apply List.ext_getElem?
  intro n
  rw [List.getElem?_set]
  by_cases h : m = n
  · subst h
    by_cases h2 : m < l.length
    · rw [getD_eq_getElem l m h2] at hf
      simp [h2, List.getElem?_eq_getElem h2, hf]
    · simp [h2, List.getElem?_eq_none (Nat.le_of_not_lt h2)]
  · simp [h]

theorem free_reg_after_find_reg (g : Globals) (m : Nat) (hm : m < reg_num)
    (hf : g.occupied m = false) :
    free_reg (m : Int)
        { g with
            reg_map := g.reg_map.set m true
            current_reg_count := g.current_reg_count + 1
            max_reg_count := max g.max_reg_count (g.current_reg_count + 1) } =
      { g with max_reg_count := max g.max_reg_count (g.current_reg_count + 1) } := by
  have h0 : (0 : Int) ≤ (m : Int) := Int.natCast_nonneg m
  have h1 : (m : Int) < (reg_num : Int) := by exact_mod_cast hm
  simp only [free_reg, h0, h1, and_self, if_true, Int.toNat_ofNat]
  rw [set_true_set_false g.reg_map m hf]
  congr 1
  omega

/-! ## Claims on memory cells -/

/-- C11 fails for the statement `*(p+3) = v` when no slot is free.  With all
36 slots occupied (the pointer `p` holding slot 0), the temporary `p + 3`
cannot be constructed: the statement throws `OutOfRegistersException` and
appends no entry to the log. -/
theorem store_at_offset_full_pool :
    (store_at_offset ⟨⟨0, .ACTIVE, 0⟩, 4096⟩ 3 7 Globals.example_full).1 =
        .error .OutOfRegistersException ∧
      (store_at_offset ⟨⟨0, .ACTIVE, 0⟩, 4096⟩ 3 7 Globals.example_full).2.access_logs =
        Globals.example_full.access_logs := by
  constructor <;> rfl

/-- C11, amended.  Assigning to the cell bound to address `a` returns
normally, stores the value at `a`, leaves every other memory location and the
pool as they were, and appends exactly one entry `{WRITE, a, slot}` at the
end of the log, with `slot = -1` for a literal and the source handle's
`reg_id_` for a register handle, which is returned unchanged.  When a slot is
free for the temporary pointer, the statement `*(p + n) = v` with a literal
(`n = 3` in the claim) appends exactly the entry `{WRITE, A + n*k, -1}` for
`p` at address `A`, stores `v` there, and leaves the slot array and the
current count as they were; the peak is the maximum of its old value and the
count while the temporary lived. -/
theorem cell_store_spec (cell : MemoryWrapper) (v : Int) (src : Handle) (p : PtrHandle)
    (n : Int) (g : Globals) :
    ((cell.assign_lit v g).1 = .ok v ∧
        (cell.assign_lit v g).2.mem cell.ptr_ = v ∧
        (∀ a, a ≠ cell.ptr_ → (cell.assign_lit v g).2.mem a = g.mem a) ∧
        (cell.assign_lit v g).2.access_logs =
          g.access_logs ++ [{ type_ := .WRITE, addr_ := cell.ptr_, reg_id_ := -1 }] ∧
        (cell.assign_lit v g).2.reg_map = g.reg_map ∧
        (cell.assign_lit v g).2.current_reg_count = g.current_reg_count ∧
        (cell.assign_lit v g).2.max_reg_count = g.max_reg_count) ∧
      ((cell.assign_reg src g).1 = .ok src ∧
        (cell.assign_reg src g).2.mem cell.ptr_ = src.reg_ ∧
        (∀ a, a ≠ cell.ptr_ → (cell.assign_reg src g).2.mem a = g.mem a) ∧
        (cell.assign_reg src g).2.access_logs =
          g.access_logs ++ [{ type_ := .WRITE, addr_ := cell.ptr_, reg_id_ := src.reg_id_ }] ∧
        (cell.assign_reg src g).2.reg_map = g.reg_map ∧
        (cell.assign_reg src g).2.current_reg_count = g.current_reg_count ∧
        (cell.assign_reg src g).2.max_reg_count = g.max_reg_count) ∧
      ((∃ j, j < reg_num ∧ g.occupied j = false) →
        (store_at_offset p n v g).1 = .ok v ∧
        (store_at_offset p n v g).2.mem (p.ptr_ + elem_size * n) = v ∧
        (∀ a, a ≠ p.ptr_ + elem_size * n → (store_at_offset p n v g).2.mem a = g.mem a) ∧
        (store_at_offset p n v g).2.access_logs =
          g.access_logs ++
            [{ type_ := .WRITE, addr_ := p.ptr_ + elem_size * n, reg_id_ := -1 }] ∧
        (store_at_offset p n v g).2.reg_map = g.reg_map ∧
        (store_at_offset p n v g).2.current_reg_count = g.current_reg_count ∧
        (store_at_offset p n v g).2.max_reg_count =
          max g.max_reg_count (g.current_reg_count + 1)) := by
  refine ⟨⟨rfl, ?_, ?_, rfl, rfl, rfl, rfl⟩, ⟨rfl, ?_, ?_, rfl, rfl, rfl, rfl⟩, ?_⟩
  · simp [MemoryWrapper.assign_lit]
  · intro a ha; simp [MemoryWrapper.assign_lit, ha]
  · simp [MemoryWrapper.assign_reg]
  · intro a ha; simp [MemoryWrapper.assign_reg, ha]
  · intro hfree
    obtain ⟨m, hm, hmf, -, hfind⟩ := find_reg_ok_record g hfree
    have h0 : (0 : Int) ≤ (m : Int) := Int.natCast_nonneg m
    have h1 : (m : Int) < (reg_num : Int) := by exact_mod_cast hm
    have hs : store_at_offset p n v g =
        (.ok v,
          { g with
              reg_map := (g.reg_map.set m true).set m false
              current_reg_count := g.current_reg_count + 1 - 1
              max_reg_count := max g.max_reg_count (g.current_reg_count + 1)
              mem := fun a => if a = p.ptr_ + elem_size * n then v else g.mem a
              access_logs :=
                g.access_logs ++
                  [{ type_ := .WRITE, addr_ := p.ptr_ + elem_size * n, reg_id_ := -1 }] }) := by
      simp [store_at_offset, PtrWrapper.operator_plus, PtrWrapper.ctor, BaseRegisterWrapper.ctor,
        hfind, PtrWrapper.deref, MemoryWrapper.assign_lit, PtrWrapper.dtor,
        BaseRegisterWrapper.dtor, free_reg, h1]
    rw [hs]
    refine ⟨rfl, ?_, ?_, rfl, ?_, ?_, rfl⟩
    · simp
    · intro a ha; simp [ha]
    · exact set_true_set_false g.reg_map m hmf
    · show g.current_reg_count + 1 - 1 = g.current_reg_count
      omega

/-- C11 amended, on the literal store, the register store and the statement
`*(p + 3) = 7` for `p` at address 4096 holding slot 0. -/
theorem cell_store_spec_witness :
    (store_at_offset ⟨⟨0, .ACTIVE, 0⟩, 4096⟩ 3 7 (find_reg (Globals.init fun _ => 0)).2).1 =
        .ok 7 ∧
      (store_at_offset ⟨⟨0, .ACTIVE, 0⟩, 4096⟩ 3 7
        (find_reg (Globals.init fun _ => 0)).2).2.mem (4096 + elem_size * 3) = 7 ∧
      (∀ a, a ≠ 4096 + elem_size * 3 →
        (store_at_offset ⟨⟨0, .ACTIVE, 0⟩, 4096⟩ 3 7
          (find_reg (Globals.init fun _ => 0)).2).2.mem a =
          (find_reg (Globals.init fun _ => 0)).2.mem a) ∧
      (store_at_offset ⟨⟨0, .ACTIVE, 0⟩, 4096⟩ 3 7
        (find_reg (Globals.init fun _ => 0)).2).2.access_logs =
        (find_reg (Globals.init fun _ => 0)).2.access_logs ++
          [{ type_ := .WRITE, addr_ := 4096 + elem_size * 3, reg_id_ := -1 }] ∧
      (store_at_offset ⟨⟨0, .ACTIVE, 0⟩, 4096⟩ 3 7
        (find_reg (Globals.init fun _ => 0)).2).2.reg_map =
        (find_reg (Globals.init fun _ => 0)).2.reg_map ∧
      (store_at_offset ⟨⟨0, .ACTIVE, 0⟩, 4096⟩ 3 7
        (find_reg (Globals.init fun _ => 0)).2).2.current_reg_count =
        (find_reg (Globals.init fun _ => 0)).2.current_reg_count ∧
      (store_at_offset ⟨⟨0, .ACTIVE, 0⟩, 4096⟩ 3 7
        (find_reg (Globals.init fun _ => 0)).2).2.max_reg_count =
        max (find_reg (Globals.init fun _ => 0)).2.max_reg_count
          ((find_reg (Globals.init fun _ => 0)).2.current_reg_count + 1) :=
  (cell_store_spec ⟨0⟩ 7 ⟨0, .ACTIVE, 0⟩ ⟨⟨0, .ACTIVE, 0⟩, 4096⟩ 3
    (find_reg (Globals.init fun _ => 0)).2).2.2 ⟨1, by decide, by decide⟩

/-- C12. Constructing a handle from the cell at address `a` when a slot is
free yields an `ACTIVE` handle with the value stored at `a` in the lowest
free slot `i`, appends exactly the entry `{READ, a, i}` at the end of the
log, takes that one slot and leaves the memory as it was.  Assigning the cell
to an `ACTIVE` handle gives it the value stored at `a`, appends exactly
`{READ, a, reg_id_ of the handle}`, and changes nothing else: state and
slot-id of the handle, the memory, the slot array and the counters are as
before. -/
theorem cell_read_spec (cell : MemoryWrapper) (self : Handle) (g : Globals) :
    ((∃ j, j < reg_num ∧ g.occupied j = false) →
        ∃ i : Nat, i < reg_num ∧ g.occupied i = false ∧
          (BaseRegisterWrapper.ctor_mem cell g).1 =
            .ok { reg_ := g.mem cell.ptr_, state_ := .ACTIVE, reg_id_ := i } ∧
          (BaseRegisterWrapper.ctor_mem cell g).2.access_logs =
            g.access_logs ++ [{ type_ := .READ, addr_ := cell.ptr_, reg_id_ := i }] ∧
          (BaseRegisterWrapper.ctor_mem cell g).2.mem = g.mem ∧
          (BaseRegisterWrapper.ctor_mem cell g).2.reg_map = g.reg_map.set i true ∧
          (BaseRegisterWrapper.ctor_mem cell g).2.current_reg_count =
            g.current_reg_count + 1 ∧
          (BaseRegisterWrapper.ctor_mem cell g).2.max_reg_count =
            max g.max_reg_count (g.current_reg_count + 1)) ∧
      (self.state_ = .ACTIVE →
        BaseRegisterWrapper.assign_mem self cell g =
          (.ok (), { self with reg_ := g.mem cell.ptr_ },
            { g with
                access_logs :=
                  g.access_logs ++
                    [{ type_ := .READ, addr_ := cell.ptr_, reg_id_ := self.reg_id_ }] })) := by
  constructor
  · intro hfree
    obtain ⟨m, hm, hmf, -, hfind⟩ := find_reg_ok_record g hfree
    have e : BaseRegisterWrapper.ctor_mem cell g =
        (.ok { reg_ := g.mem cell.ptr_, state_ := .ACTIVE, reg_id_ := m },
          { g with
              reg_map := g.reg_map.set m true
              current_reg_count := g.current_reg_count + 1
              max_reg_count := max g.max_reg_count (g.current_reg_count + 1)
              access_logs :=
                g.access_logs ++ [{ type_ := .READ, addr_ := cell.ptr_, reg_id_ := m }] }) := by
      simp only [BaseRegisterWrapper.ctor_mem, hfind]
    rw [e]
    exact ⟨m, hm, hmf, rfl, rfl, rfl, rfl, rfl, rfl⟩
  · intro ha
    simp [BaseRegisterWrapper.assign_mem, BaseRegisterWrapper.check_valid, ha]

/-- C12 on the cell at address 64 holding 9: construction in the initial
state, and assignment to the active handle in slot 2. -/
theorem cell_read_spec_witness :
    (∃ i : Nat, i < reg_num ∧ (Globals.init fun a => if a = 64 then 9 else 0).occupied i = false ∧
        (BaseRegisterWrapper.ctor_mem ⟨64⟩ (Globals.init fun a => if a = 64 then 9 else 0)).1 =
          .ok { reg_ := (Globals.init fun a => if a = 64 then 9 else 0).mem
                  (⟨64⟩ : MemoryWrapper).ptr_,
                state_ := .ACTIVE, reg_id_ := i } ∧
        (BaseRegisterWrapper.ctor_mem ⟨64⟩
          (Globals.init fun a => if a = 64 then 9 else 0)).2.access_logs =
          (Globals.init fun a => if a = 64 then 9 else 0).access_logs ++
            [{ type_ := .READ, addr_ := (⟨64⟩ : MemoryWrapper).ptr_, reg_id_ := i }] ∧
        (BaseRegisterWrapper.ctor_mem ⟨64⟩
          (Globals.init fun a => if a = 64 then 9 else 0)).2.mem =
          (Globals.init fun a => if a = 64 then 9 else 0).mem ∧
        (BaseRegisterWrapper.ctor_mem ⟨64⟩
          (Globals.init fun a => if a = 64 then 9 else 0)).2.reg_map =
          (Globals.init fun a => if a = 64 then 9 else 0).reg_map.set i true ∧
        (BaseRegisterWrapper.ctor_mem ⟨64⟩
          (Globals.init fun a => if a = 64 then 9 else 0)).2.current_reg_count =
          (Globals.init fun a => if a = 64 then 9 else 0).current_reg_count + 1 ∧
        (BaseRegisterWrapper.ctor_mem ⟨64⟩
          (Globals.init fun a => if a = 64 then 9 else 0)).2.max_reg_count =
          max (Globals.init fun a => if a = 64 then 9 else 0).max_reg_count
            ((Globals.init fun a => if a = 64 then 9 else 0).current_reg_count + 1)) ∧
      BaseRegisterWrapper.assign_mem ⟨5, .ACTIVE, 2⟩ ⟨64⟩
          (Globals.init fun a => if a = 64 then 9 else 0) =
        (.ok (), { (⟨5, .ACTIVE, 2⟩ : Handle) with
                    reg_ := (Globals.init fun a => if a = 64 then 9 else 0).mem
                      (⟨64⟩ : MemoryWrapper).ptr_ },
          { (Globals.init fun a => if a = 64 then 9 else 0) with
              access_logs :=
                (Globals.init fun a => if a = 64 then 9 else 0).access_logs ++
                  [{ type_ := .READ, addr_ := (⟨64⟩ : MemoryWrapper).ptr_,
                     reg_id_ := (⟨5, .ACTIVE, 2⟩ : Handle).reg_id_ }] }) :=
  ⟨(cell_read_spec ⟨64⟩ ⟨5, .ACTIVE, 2⟩ (Globals.init fun a => if a = 64 then 9 else 0)).1
      ⟨0, by decide, by decide⟩,
    (cell_read_spec ⟨64⟩ ⟨5, .ACTIVE, 2⟩ (Globals.init fun a => if a = 64 then 9 else 0)).2 rfl⟩

/-- C14. Constructing a handle from a memory cell while all 36 slots are
occupied throws `OutOfRegistersException` and leaves the globals as they
were: no `READ` entry is appended, and the slot array, both counters and the
memory are unchanged. -/
theorem ctor_mem_full_throws (cell : MemoryWrapper) (g : Globals)
    (hfull : ∀ j, j < reg_num → g.occupied j = true) :
    (BaseRegisterWrapper.ctor_mem cell g).1 = .error .OutOfRegistersException ∧
      (BaseRegisterWrapper.ctor_mem cell g).2 = g ∧
      (BaseRegisterWrapper.ctor_mem cell g).2.access_logs = g.access_logs ∧
      (BaseRegisterWrapper.ctor_mem cell g).2.reg_map = g.reg_map ∧
      (BaseRegisterWrapper.ctor_mem cell g).2.current_reg_count = g.current_reg_count ∧
      (BaseRegisterWrapper.ctor_mem cell g).2.max_reg_count = g.max_reg_count ∧
      (BaseRegisterWrapper.ctor_mem cell g).2.mem = g.mem := by
  have h : find_reg g = (.error .OutOfRegistersException, g) :=
    find_reg_loop_error g reg_num 0 (fun j _ hj => hfull j (by omega))
  have e : BaseRegisterWrapper.ctor_mem cell g = (.error .OutOfRegistersException, g) := by
    simp [BaseRegisterWrapper.ctor_mem, h]
  rw [e]
  exact ⟨rfl, rfl, rfl, rfl, rfl, rfl, rfl⟩

/-- C14 at the state with 36 occupied slots. -/
theorem ctor_mem_full_throws_witness :
    (BaseRegisterWrapper.ctor_mem ⟨64⟩ Globals.example_full).1 =
        .error .OutOfRegistersException ∧
      (BaseRegisterWrapper.ctor_mem ⟨64⟩ Globals.example_full).2 = Globals.example_full ∧
      (BaseRegisterWrapper.ctor_mem ⟨64⟩ Globals.example_full).2.access_logs =
        Globals.example_full.access_logs ∧
      (BaseRegisterWrapper.ctor_mem ⟨64⟩ Globals.example_full).2.reg_map =
        Globals.example_full.reg_map ∧
      (BaseRegisterWrapper.ctor_mem ⟨64⟩ Globals.example_full).2.current_reg_count =
        Globals.example_full.current_reg_count ∧
      (BaseRegisterWrapper.ctor_mem ⟨64⟩ Globals.example_full).2.max_reg_count =
        Globals.example_full.max_reg_count ∧
      (BaseRegisterWrapper.ctor_mem ⟨64⟩ Globals.example_full).2.mem =
        Globals.example_full.mem :=
  ctor_mem_full_throws ⟨64⟩ Globals.example_full (by decide)

/-! ## Claims on pointer handles -/

/-- C15. For a pointer handle at address `a` (element size `k = 4`):
`operator*` yields the cell bound to `a`; `operator[]` with a literal offset,
or with an `ACTIVE` register handle whose value is the offset, yields the
cell bound to `a + offset * k`.  Both return normally and leave the globals
(slot array, counters, log, memory) as they were; they are const members and
cannot write the pointer. -/
theorem pointer_cell_spec (p : PtrHandle) (n : Int) (r : Handle) (g : Globals)
    (_hr : r.state_ = .ACTIVE) :
    PtrWrapper.deref p g = (.ok { ptr_ := p.ptr_ }, g) ∧
      PtrWrapper.index_lit p n g = (.ok { ptr_ := p.ptr_ + n * elem_size }, g) ∧
      PtrWrapper.index_reg p r g = (.ok { ptr_ := p.ptr_ + r.reg_ * elem_size }, g) := by
  refine ⟨rfl, ?_, ?_⟩
  · simp [PtrWrapper.index_lit, mul_comm]
  · simp [PtrWrapper.index_reg, mul_comm]

/-- C15 at the pointer at address 4096, with offset 3 as a literal and as the
value of an active handle. -/
theorem pointer_cell_spec_witness :
    PtrWrapper.deref ⟨⟨0, .ACTIVE, 0⟩, 4096⟩ (Globals.init fun _ => 0) =
        (.ok { ptr_ := (⟨⟨0, .ACTIVE, 0⟩, 4096⟩ : PtrHandle).ptr_ }, Globals.init fun _ => 0) ∧
      PtrWrapper.index_lit ⟨⟨0, .ACTIVE, 0⟩, 4096⟩ 3 (Globals.init fun _ => 0) =
        (.ok { ptr_ := (⟨⟨0, .ACTIVE, 0⟩, 4096⟩ : PtrHandle).ptr_ + 3 * elem_size },
          Globals.init fun _ => 0) ∧
      PtrWrapper.index_reg ⟨⟨0, .ACTIVE, 0⟩, 4096⟩ ⟨3, .ACTIVE, 1⟩ (Globals.init fun _ => 0) =
        (.ok { ptr_ := (⟨⟨0, .ACTIVE, 0⟩, 4096⟩ : PtrHandle).ptr_ +
                  (⟨3, .ACTIVE, 1⟩ : Handle).reg_ * elem_size },
          Globals.init fun _ => 0) :=
  pointer_cell_spec ⟨⟨0, .ACTIVE, 0⟩, 4096⟩ 3 ⟨3, .ACTIVE, 1⟩ (Globals.init fun _ => 0) rfl

theorem find_reg_not_inactive (g : Globals) :
    (find_reg g).1 ≠ .error .InactiveRegisterException := by
  rcases find_reg_cases g with h | ⟨m, -, -, -, h⟩ <;> rw [h] <;> intro hc <;> cases hc

theorem ptr_ctor_not_inactive (ptr : Int) (g : Globals) :
    (PtrWrapper.ctor ptr g).1 ≠ .error .InactiveRegisterException := by
  have h := find_reg_not_inactive g
  unfold PtrWrapper.ctor BaseRegisterWrapper.ctor
  rcases hf : find_reg g with ⟨r, g1⟩
  rw [hf] at h
  cases r with
  | error e => simpa using h
  | ok i => intro hc; cases hc

theorem ptr_ctor_copy_not_inactive (p : PtrHandle) (g : Globals) :
    (PtrWrapper.ctor_copy p g).1 ≠ .error .InactiveRegisterException := by
  have h := find_reg_not_inactive g
  unfold PtrWrapper.ctor_copy BaseRegisterWrapper.ctor_copy
  rcases hf : find_reg g with ⟨r, g1⟩
  rw [hf] at h
  cases r with
  | error e => simpa using h
  | ok i => intro hc; cases hc

theorem ptr_ctor_ok (ptr : Int) (g : Globals)
    (hfree : ∃ j, j < reg_num ∧ g.occupied j = false) :
    ∃ i : Nat, i < reg_num ∧ g.occupied i = false ∧
      PtrWrapper.ctor ptr g =
        (.ok { base := { reg_ := 0, state_ := .ACTIVE, reg_id_ := i }, ptr_ := ptr },
          { g with
              reg_map := g.reg_map.set i true
              current_reg_count := g.current_reg_count + 1
              max_reg_count := max g.max_reg_count (g.current_reg_count + 1) }) := by
  obtain ⟨m, hm, hmf, -, hfind⟩ := find_reg_ok_record g hfree
  exact ⟨m, hm, hmf, by simp only [PtrWrapper.ctor, BaseRegisterWrapper.ctor, hfind]⟩

theorem ptr_ctor_copy_ok (p : PtrHandle) (g : Globals)
    (hfree : ∃ j, j < reg_num ∧ g.occupied j = false) :
    ∃ i : Nat, i < reg_num ∧ g.occupied i = false ∧
      PtrWrapper.ctor_copy p g =
        (.ok { base := { reg_ := p.base.reg_, state_ := .ACTIVE, reg_id_ := i }, ptr_ := p.ptr_ },
          { g with
              reg_map := g.reg_map.set i true
              current_reg_count := g.current_reg_count + 1
              max_reg_count := max g.max_reg_count (g.current_reg_count + 1) }) := by
  obtain ⟨m, hm, hmf, -, hfind⟩ := find_reg_ok_record g hfree
  exact ⟨m, hm, hmf, by simp only [PtrWrapper.ctor_copy, BaseRegisterWrapper.ctor_copy, hfind]⟩

/-- C16 fails: no pointer operation checks the register handle it takes as
offset.  With the `INACTIVE` handle `r` holding the value 3 and `p` at
address 4096, `p[r]` returns the cell at `4096 + 3*4` and `p + r` returns a
pointer at that address (in the free slot 2); neither throws. -/
theorem pointer_offset_inactive_succeeds :
    PtrWrapper.index_reg ⟨⟨0, .ACTIVE, 0⟩, 4096⟩ ⟨3, .INACTIVE, 1⟩
        (find_reg (find_reg (Globals.init fun _ => 0)).2).2 =
        (.ok { ptr_ := 4108 }, (find_reg (find_reg (Globals.init fun _ => 0)).2).2) ∧
      (PtrWrapper.operator_plus_reg ⟨⟨0, .ACTIVE, 0⟩, 4096⟩ ⟨3, .INACTIVE, 1⟩
        (find_reg (find_reg (Globals.init fun _ => 0)).2).2).1 =
        .ok { base := ⟨0, .ACTIVE, 2⟩, ptr_ := 4108 } := by
  constructor <;> rfl

/-- C16, amended.  A pointer operation does not inspect the state of the
register handle `r` it takes as offset and never throws
`InactiveRegisterException`: `p[r]` returns the cell bound to `a + v*k`,
where `v` is the value stored in `r`, and leaves the globals as they were;
`p + r`, `p - r`, `p += r` and `p -= r` return, when a slot is free, an
`ACTIVE` pointer handle at `a + v*k` (respectively `a - v*k`) in the lowest
free slot, and the in-place forms leave `p` at that address. -/
theorem pointer_offset_unchecked (p : PtrHandle) (r : Handle) (g : Globals) :
    PtrWrapper.index_reg p r g = (.ok { ptr_ := p.ptr_ + r.reg_ * elem_size }, g) ∧
      (PtrWrapper.operator_plus_reg p r g).1 ≠ .error .InactiveRegisterException ∧
      (PtrWrapper.operator_minus_reg p r g).1 ≠ .error .InactiveRegisterException ∧
      (PtrWrapper.operator_plus_assign_reg p r g).1 ≠ .error .InactiveRegisterException ∧
      (PtrWrapper.operator_minus_assign_reg p r g).1 ≠ .error .InactiveRegisterException ∧
      ((∃ j, j < reg_num ∧ g.occupied j = false) →
        ∃ i : Nat, i < reg_num ∧ g.occupied i = false ∧
          (PtrWrapper.operator_plus_reg p r g).1 =
            .ok { base := ⟨0, .ACTIVE, i⟩, ptr_ := p.ptr_ + r.reg_ * elem_size } ∧
          (PtrWrapper.operator_minus_reg p r g).1 =
            .ok { base := ⟨0, .ACTIVE, i⟩, ptr_ := p.ptr_ - r.reg_ * elem_size } ∧
          (PtrWrapper.operator_plus_assign_reg p r g).1 =
            .ok { base := ⟨p.base.reg_, .ACTIVE, i⟩, ptr_ := p.ptr_ + r.reg_ * elem_size } ∧
          (PtrWrapper.operator_plus_assign_reg p r g).2.1 =
            { p with ptr_ := p.ptr_ + r.reg_ * elem_size } ∧
          (PtrWrapper.operator_minus_assign_reg p r g).1 =
            .ok { base := ⟨p.base.reg_, .ACTIVE, i⟩, ptr_ := p.ptr_ - r.reg_ * elem_size } ∧
          (PtrWrapper.operator_minus_assign_reg p r g).2.1 =
            { p with ptr_ := p.ptr_ - r.reg_ * elem_size }) := by
  refine ⟨by simp [PtrWrapper.index_reg, mul_comm], ptr_ctor_not_inactive _ g,
    ptr_ctor_not_inactive _ g, ?_, ?_, ?_⟩
  · have h := ptr_ctor_copy_not_inactive { p with ptr_ := p.ptr_ + elem_size * r.reg_ } g
    rcases hc : PtrWrapper.ctor_copy { p with ptr_ := p.ptr_ + elem_size * r.reg_ } g with ⟨x, g1⟩
    rw [hc] at h
    simp only [PtrWrapper.operator_plus_assign_reg, hc]
    cases x with
    | error e => simpa using h
    | ok q => intro hc2; cases hc2
  · have h := ptr_ctor_copy_not_inactive { p with ptr_ := p.ptr_ - elem_size * r.reg_ } g
    rcases hc : PtrWrapper.ctor_copy { p with ptr_ := p.ptr_ - elem_size * r.reg_ } g with ⟨x, g1⟩
    rw [hc] at h
    simp only [PtrWrapper.operator_minus_assign_reg, hc]
    cases x with
    | error e => simpa using h
    | ok q => intro hc2; cases hc2
  · intro hfree
    obtain ⟨m, hm, hmf, -, hfind⟩ := find_reg_ok_record g hfree
    refine ⟨m, hm, hmf, ?_, ?_, ?_, ?_, ?_, ?_⟩ <;>
      simp [PtrWrapper.operator_plus_reg, PtrWrapper.operator_minus_reg,
        PtrWrapper.operator_plus_assign_reg, PtrWrapper.operator_minus_assign_reg,
        PtrWrapper.ctor, PtrWrapper.ctor_copy, BaseRegisterWrapper.ctor,
        BaseRegisterWrapper.ctor_copy, hfind, mul_comm]

/-- C16 amended, at an inactive offset handle holding 3, with slots 0 and 1
occupied. -/
theorem pointer_offset_unchecked_witness :
    ∃ i : Nat, i < reg_num ∧
      (find_reg (find_reg (Globals.init fun _ => 0)).2).2.occupied i = false ∧
      (PtrWrapper.operator_plus_reg ⟨⟨0, .ACTIVE, 0⟩, 4096⟩ ⟨3, .INACTIVE, 1⟩
        (find_reg (find_reg (Globals.init fun _ => 0)).2).2).1 =
        .ok { base := ⟨0, .ACTIVE, i⟩,
              ptr_ := (⟨⟨0, .ACTIVE, 0⟩, 4096⟩ : PtrHandle).ptr_ +
                (⟨3, .INACTIVE, 1⟩ : Handle).reg_ * elem_size } ∧
      (PtrWrapper.operator_minus_reg ⟨⟨0, .ACTIVE, 0⟩, 4096⟩ ⟨3, .INACTIVE, 1⟩
        (find_reg (find_reg (Globals.init fun _ => 0)).2).2).1 =
        .ok { base := ⟨0, .ACTIVE, i⟩,
              ptr_ := (⟨⟨0, .ACTIVE, 0⟩, 4096⟩ : PtrHandle).ptr_ -
                (⟨3, .INACTIVE, 1⟩ : Handle).reg_ * elem_size } ∧
      (PtrWrapper.operator_plus_assign_reg ⟨⟨0, .ACTIVE, 0⟩, 4096⟩ ⟨3, .INACTIVE, 1⟩
        (find_reg (find_reg (Globals.init fun _ => 0)).2).2).1 =
        .ok { base := ⟨(⟨⟨0, .ACTIVE, 0⟩, 4096⟩ : PtrHandle).base.reg_, .ACTIVE, i⟩,
              ptr_ := (⟨⟨0, .ACTIVE, 0⟩, 4096⟩ : PtrHandle).ptr_ +
                (⟨3, .INACTIVE, 1⟩ : Handle).reg_ * elem_size } ∧
      (PtrWrapper.operator_plus_assign_reg ⟨⟨0, .ACTIVE, 0⟩, 4096⟩ ⟨3, .INACTIVE, 1⟩
        (find_reg (find_reg (Globals.init fun _ => 0)).2).2).2.1 =
        { (⟨⟨0, .ACTIVE, 0⟩, 4096⟩ : PtrHandle) with
            ptr_ := (⟨⟨0, .ACTIVE, 0⟩, 4096⟩ : PtrHandle).ptr_ +
              (⟨3, .INACTIVE, 1⟩ : Handle).reg_ * elem_size } ∧
      (PtrWrapper.operator_minus_assign_reg ⟨⟨0, .ACTIVE, 0⟩, 4096⟩ ⟨3, .INACTIVE, 1⟩
        (find_reg (find_reg (Globals.init fun _ => 0)).2).2).1 =
        .ok { base := ⟨(⟨⟨0, .ACTIVE, 0⟩, 4096⟩ : PtrHandle).base.reg_, .ACTIVE, i⟩,
              ptr_ := (⟨⟨0, .ACTIVE, 0⟩, 4096⟩ : PtrHandle).ptr_ -
                (⟨3, .INACTIVE, 1⟩ : Handle).reg_ * elem_size } ∧
      (PtrWrapper.operator_minus_assign_reg ⟨⟨0, .ACTIVE, 0⟩, 4096⟩ ⟨3, .INACTIVE, 1⟩
        (find_reg (find_reg (Globals.init fun _ => 0)).2).2).2.1 =
        { (⟨⟨0, .ACTIVE, 0⟩, 4096⟩ : PtrHandle) with
            ptr_ := (⟨⟨0, .ACTIVE, 0⟩, 4096⟩ : PtrHandle).ptr_ -
              (⟨3, .INACTIVE, 1⟩ : Handle).reg_ * elem_size } :=
  (pointer_offset_unchecked ⟨⟨0, .ACTIVE, 0⟩, 4096⟩ ⟨3, .INACTIVE, 1⟩
    (find_reg (find_reg (Globals.init fun _ => 0)).2).2).2.2.2.2.2 ⟨2, by decide, by decide⟩

/-- C17 fails when no slot is free.  With all 36 slots occupied (`p` and `q`
holding slots 0 and 1), `p - q` throws `OutOfRegistersException`: the
parameter of `operator-` is passed by value and its copy needs a slot. -/
theorem pointer_difference_full_pool :
    PtrWrapper.operator_minus_ptr ⟨⟨0, .ACTIVE, 0⟩, 4096 + 5 * 4⟩ ⟨⟨0, .ACTIVE, 1⟩, 4096 + 2 * 4⟩
        Globals.example_full =
      (.error .OutOfRegistersException, Globals.example_full) := by
  rfl

/-- C17, amended.  For two pointer handles `p` and `q` at the addresses
`A + i*k` and `A + j*k`: when a slot is free, `p - q` returns the element
count `i - j` converted to `int`, that is, the value of the `int` range
congruent to `i - j` modulo `2^32`, which is `i - j` itself when
`-2^31 <= i - j < 2^31`; once the by-value copy of `q` is destroyed the slot
array, the current count, the log and the memory are as before, the peak
being the maximum of its old value and the count while the copy lived; when
all 36 slots are occupied, `p - q` throws `OutOfRegistersException` and
changes nothing. -/
theorem pointer_difference_spec (p q : PtrHandle) (A i j : Int) (g : Globals)
    (hp : p.ptr_ = A + i * elem_size) (hq : q.ptr_ = A + j * elem_size) :
    ((∃ s, s < reg_num ∧ g.occupied s = false) →
        PtrWrapper.operator_minus_ptr p q g =
            (.ok (Int.bmod (i - j) (2 ^ 32)),
              { g with max_reg_count := max g.max_reg_count (g.current_reg_count + 1) }) ∧
          (-2 ^ 31 ≤ i - j → i - j < 2 ^ 31 →
            PtrWrapper.operator_minus_ptr p q g =
              (.ok (i - j),
                { g with max_reg_count := max g.max_reg_count (g.current_reg_count + 1) }))) ∧
      ((∀ s, s < reg_num → g.occupied s = true) →
        PtrWrapper.operator_minus_ptr p q g = (.error .OutOfRegistersException, g)) := by
  constructor
  · intro hfree
    obtain ⟨m, hm, hmf, -, hfind⟩ := find_reg_ok_record g hfree
    have hdiv : Int.tdiv (p.ptr_ - q.ptr_) elem_size = i - j := by
      have e : p.ptr_ - q.ptr_ = elem_size * (i - j) := by rw [hp, hq]; ring
      rw [e]
      exact Int.mul_tdiv_cancel_left _ (by decide)
    have hcall : PtrWrapper.operator_minus_ptr p q g =
        (.ok (wrap32 (i - j)),
          { g with max_reg_count := max g.max_reg_count (g.current_reg_count + 1) }) := by
      simp only [PtrWrapper.operator_minus_ptr, PtrWrapper.ctor_copy,
        BaseRegisterWrapper.ctor_copy, hfind, PtrWrapper.dtor, BaseRegisterWrapper.dtor,
        if_true, hdiv]
      rw [free_reg_after_find_reg g m hm hmf]
    refine ⟨?_, ?_⟩
    · rw [hcall, wrap32_eq_bmod]
    · intro h1 h2
      rw [hcall, wrap32_of_range (i - j) h1 h2]
  · intro hfull
    have h : find_reg g = (.error .OutOfRegistersException, g) :=
      find_reg_loop_error g reg_num 0 (fun s _ hs => hfull s (by omega))
    simp only [PtrWrapper.operator_minus_ptr, PtrWrapper.ctor_copy,
      BaseRegisterWrapper.ctor_copy, h]

/-- C17 amended, on `p` and `q` five and two elements after address 4096 with
slots 0 and 1 occupied, on `p` and `q` `2^31` elements apart, where the
result is `-2^31`, and in the full pool. -/
theorem pointer_difference_spec_witness :
    PtrWrapper.operator_minus_ptr ⟨⟨0, .ACTIVE, 0⟩, 4096 + 5 * elem_size⟩
        ⟨⟨0, .ACTIVE, 1⟩, 4096 + 2 * elem_size⟩
        (find_reg (find_reg (Globals.init fun _ => 0)).2).2 =
        (.ok (5 - 2),
          { (find_reg (find_reg (Globals.init fun _ => 0)).2).2 with
              max_reg_count :=
                max (find_reg (find_reg (Globals.init fun _ => 0)).2).2.max_reg_count
                  ((find_reg (find_reg (Globals.init fun _ => 0)).2).2.current_reg_count + 1) }) ∧
      PtrWrapper.operator_minus_ptr ⟨⟨0, .ACTIVE, 0⟩, 4096 + 2147483648 * elem_size⟩
        ⟨⟨0, .ACTIVE, 1⟩, 4096 + 0 * elem_size⟩
        (find_reg (find_reg (Globals.init fun _ => 0)).2).2 =
        (.ok (Int.bmod (2147483648 - 0) (2 ^ 32)),
          { (find_reg (find_reg (Globals.init fun _ => 0)).2).2 with
              max_reg_count :=
                max (find_reg (find_reg (Globals.init fun _ => 0)).2).2.max_reg_count
                  ((find_reg (find_reg (Globals.init fun _ => 0)).2).2.current_reg_count + 1) }) ∧
      Int.bmod (2147483648 - 0) (2 ^ 32) = -2147483648 ∧
      PtrWrapper.operator_minus_ptr ⟨⟨0, .ACTIVE, 0⟩, 4096 + 5 * elem_size⟩
        ⟨⟨0, .ACTIVE, 1⟩, 4096 + 2 * elem_size⟩ Globals.example_full =
        (.error .OutOfRegistersException, Globals.example_full) :=
  ⟨((pointer_difference_spec ⟨⟨0, .ACTIVE, 0⟩, 4096 + 5 * elem_size⟩
      ⟨⟨0, .ACTIVE, 1⟩, 4096 + 2 * elem_size⟩ 4096 5 2
      (find_reg (find_reg (Globals.init fun _ => 0)).2).2 rfl rfl).1
        ⟨2, by decide, by decide⟩).2 (by decide) (by decide),
    ((pointer_difference_spec ⟨⟨0, .ACTIVE, 0⟩, 4096 + 2147483648 * elem_size⟩
      ⟨⟨0, .ACTIVE, 1⟩, 4096 + 0 * elem_size⟩ 4096 2147483648 0
      (find_reg (find_reg (Globals.init fun _ => 0)).2).2 rfl rfl).1
        ⟨2, by decide, by decide⟩).1,
    by decide,
    (pointer_difference_spec ⟨⟨0, .ACTIVE, 0⟩, 4096 + 5 * elem_size⟩
      ⟨⟨0, .ACTIVE, 1⟩, 4096 + 2 * elem_size⟩ 4096 5 2 Globals.example_full rfl rfl).2
      (by decide)⟩

/-! ## Claims on the reported addresses and on `print_log` -/

theorem rebase_of_aligned (base base_offset r : Int) (hal : elem_size ∣ r - base) :
    PtrWrapper.rebase base base_offset r = (r - base) + base_offset := by
  unfold PtrWrapper.rebase
  rw [Int.mul_tdiv_cancel' hal]
  ring

theorem print_log_loop_ok (base base_offset : Int) (logs : List MemoryAccessLog) :
    ∀ out : List TraceLine, (∀ e ∈ logs, e.type_ = .READ ∨ e.type_ = .WRITE) →
      print_log_loop base base_offset logs out =
        (.ok (), out ++ logs.map (trace_line base base_offset)) := by
  induction logs with
  | nil => intro out _; simp [print_log_loop]
  | cons e rest ih =>
    intro out h
    have hrest : ∀ x ∈ rest, x.type_ = .READ ∨ x.type_ = .WRITE :=
      fun x hx => h x (List.mem_cons_of_mem _ hx)
    rcases h e (List.mem_cons_self _ _) with he | he
    · simp only [print_log_loop, he]
      rw [ih _ hrest]
      simp [trace_line, he]
    · simp only [print_log_loop, he]
      rw [ih _ hrest]
      simp [trace_line, he]

/-- C18. With `base` and `base_offset` the configured values and all
addresses `int*` values (a multiple of the element size apart from `base`):
`operator<<` writes for a pointer handle at raw byte address `r` the address
`(r - base) + base_offset`; `print_log` writes for every entry of a log of
reads and writes the address `(addr_ - base) + base_offset`; in particular
with `base = A` and `base_offset = 0x1000` the pointer at `A + 3k` is written
as `0x1000 + 3k`. -/
theorem reported_address_spec (base base_offset : Int) (p : PtrHandle) (g : Globals) :
    (elem_size ∣ p.ptr_ - base →
        PtrWrapper.operator_shl base base_offset p = (p.ptr_ - base) + base_offset) ∧
      ((∀ e ∈ g.access_logs,
          (e.type_ = .READ ∨ e.type_ = .WRITE) ∧ elem_size ∣ e.addr_ - base) →
        (print_log base base_offset g).1 = .ok () ∧
        (print_log base base_offset g).2.map (fun l => l.addr) =
          g.access_logs.map fun e => (e.addr_ - base) + base_offset) ∧
      (∀ (A : Int) (b : Handle),
        PtrWrapper.operator_shl A 0x1000 { base := b, ptr_ := A + 3 * elem_size } =
          0x1000 + 3 * elem_size) := by
  refine ⟨fun hal => rebase_of_aligned base base_offset p.ptr_ hal, ?_, ?_⟩
  · intro h
    unfold print_log
    rw [print_log_loop_ok base base_offset g.access_logs [] (fun e he => (h e he).1)]
    refine ⟨rfl, ?_⟩
    simp only [List.nil_append, List.map_map]
    apply List.map_congr_left
    intro e he
    simp only [Function.comp, trace_line]
    exact rebase_of_aligned base base_offset e.addr_ (h e he).2
  · intro A b
    show PtrWrapper.rebase A 0x1000 (A + 3 * elem_size) = 0x1000 + 3 * elem_size
    rw [rebase_of_aligned A 0x1000 (A + 3 * elem_size) ⟨3, by ring⟩]
    ring

/-- C18 with `base = 8192` and `base_offset = 0x1000`, on the pointer three
elements after `base` and on a log with a read and a write. -/
theorem reported_address_spec_witness :
    PtrWrapper.operator_shl 8192 0x1000 ⟨⟨0, .ACTIVE, 0⟩, 8192 + 3 * 4⟩ =
        ((⟨⟨0, .ACTIVE, 0⟩, 8192 + 3 * 4⟩ : PtrHandle).ptr_ - 8192) + 0x1000 ∧
      ((print_log 8192 0x1000
          { (Globals.init fun _ => 0) with
              access_logs := [⟨.READ, 8192 + 12, 1⟩, ⟨.WRITE, 8192 + 40, -1⟩] }).1 = .ok () ∧
        (print_log 8192 0x1000
          { (Globals.init fun _ => 0) with
              access_logs := [⟨.READ, 8192 + 12, 1⟩, ⟨.WRITE, 8192 + 40, -1⟩] }).2.map
            (fun l => l.addr) =
          ({ (Globals.init fun _ => 0) with
              access_logs := [⟨.READ, 8192 + 12, 1⟩, ⟨.WRITE, 8192 + 40, -1⟩] } :
            Globals).access_logs.map fun e => (e.addr_ - 8192) + 0x1000) :=
  ⟨(reported_address_spec 8192 0x1000 ⟨⟨0, .ACTIVE, 0⟩, 8192 + 3 * 4⟩
      (Globals.init fun _ => 0)).1 ⟨3, by decide⟩,
    (reported_address_spec 8192 0x1000 ⟨⟨0, .ACTIVE, 0⟩, 8192 + 3 * 4⟩
      { (Globals.init fun _ => 0) with
          access_logs := [⟨.READ, 8192 + 12, 1⟩, ⟨.WRITE, 8192 + 40, -1⟩] }).2.1
      (by
        intro e he
        simp only [List.mem_cons, List.mem_singleton, List.not_mem_nil, or_false] at he
        rcases he with rfl | rfl
        · exact ⟨Or.inl rfl, ⟨3, by decide⟩⟩
        · exact ⟨Or.inr rfl, ⟨10, by decide⟩⟩)⟩

/-! ## The entries a program appends to the log -/

theorem find_reg_logs (g : Globals) : (find_reg g).2.access_logs = g.access_logs := by
  rcases find_reg_cases g with h | ⟨m, -, -, -, h⟩ <;> rw [h]

theorem ctor_logs (v : Int) (g : Globals) :
    (BaseRegisterWrapper.ctor v g).2.access_logs = g.access_logs := by
  have h := find_reg_logs g
  unfold BaseRegisterWrapper.ctor
  rcases hf : find_reg g with ⟨r, g1⟩
  rw [hf] at h
  cases r <;> exact h

theorem ctor_copy_logs (o : Handle) (g : Globals) :
    (BaseRegisterWrapper.ctor_copy o g).2.access_logs = g.access_logs := by
  have h := find_reg_logs g
  unfold BaseRegisterWrapper.ctor_copy
  rcases hf : find_reg g with ⟨r, g1⟩
  rw [hf] at h
  cases r <;> exact h

theorem ctor_mem_logStep (cell : MemoryWrapper) (g : Globals) :
    LogStep g (BaseRegisterWrapper.ctor_mem cell g).2 := by
  have h := find_reg_logs g
  unfold BaseRegisterWrapper.ctor_mem
  rcases hf : find_reg g with ⟨r, g1⟩
  rw [hf] at h
  cases r with
  | error e => exact Or.inl h
  | ok i =>
    right
    refine ⟨⟨.READ, cell.ptr_, i⟩, Or.inl rfl, ?_⟩
    show g1.access_logs ++ _ = _
    rw [h]

theorem dtor_logs (h : Handle) (g : Globals) :
    (BaseRegisterWrapper.dtor h g).access_logs = g.access_logs := by
  unfold BaseRegisterWrapper.dtor
  split <;> rfl

theorem assign_mem_logStep (d : Handle) (cell : MemoryWrapper) (g : Globals) :
    LogStep g (BaseRegisterWrapper.assign_mem d cell g).2.2 := by
  unfold BaseRegisterWrapper.assign_mem
  cases BaseRegisterWrapper.check_valid d with
  | error e => exact Or.inl rfl
  | ok u => exact Or.inr ⟨⟨.READ, cell.ptr_, d.reg_id_⟩, Or.inl rfl, rfl⟩

theorem assign_lit_globals (d : Handle) (v : Int) (g : Globals) :
    (BaseRegisterWrapper.assign_lit d v g).2.2 = g := by
  unfold BaseRegisterWrapper.assign_lit
  cases BaseRegisterWrapper.check_valid d <;> rfl

theorem assign_copy_globals (d o : Handle) (g : Globals) :
    (BaseRegisterWrapper.assign_copy d o g).2.2 = g := by
  unfold BaseRegisterWrapper.assign_copy
  cases BaseRegisterWrapper.check_valid d <;> rfl

theorem assign_move_globals (d o : Handle) (g : Globals) :
    (BaseRegisterWrapper.assign_move d o g).2.2.2 = g := by
  unfold BaseRegisterWrapper.assign_move
  cases BaseRegisterWrapper.check_valid d with
  | error e => rfl
  | ok u => simp only []; split <;> rfl

theorem ctor_move_globals (o : Handle) (rnd : Int) (g : Globals) :
    (BaseRegisterWrapper.ctor_move o rnd g).2.2 = g := by
  unfold BaseRegisterWrapper.ctor_move
  simp only []
  split
  · rfl
  · split <;> rfl

theorem RegBinOp.call_globals (op : RegBinOp) (a b : Handle) (g : Globals) :
    (op.call a b g).2.2 = g := by
  cases op <;>
    simp only [RegBinOp.call, RegisterWrapper.operator_plus, RegisterWrapper.operator_minus,
      RegisterWrapper.operator_times, RegisterWrapper.operator_div,
      RegisterWrapper.operator_mod, RegisterWrapper.operator_plus_assign,
      RegisterWrapper.operator_minus_assign, RegisterWrapper.operator_times_assign,
      RegisterWrapper.operator_div_assign, RegisterWrapper.operator_mod_assign,
      BaseRegisterWrapper.operator_lt, BaseRegisterWrapper.operator_le,
      BaseRegisterWrapper.operator_gt, BaseRegisterWrapper.operator_ge,
      BaseRegisterWrapper.operator_eq] <;>
    first
      | rfl
      | (split <;> first | rfl | (split <;> rfl))

theorem RegLitOp.litop_globals (op : RegLitOp) (a : Handle) (v : Int) (g : Globals) :
    (op.call a v g).2.2 = g := by
  cases op <;>
    simp only [RegLitOp.call, RegisterWrapper.operator_plus_assign_lit,
      RegisterWrapper.operator_minus_assign_lit, RegisterWrapper.operator_times_assign_lit,
      RegisterWrapper.operator_div_assign_lit, RegisterWrapper.operator_mod_assign_lit,
      RegisterWrapper.operator_inc, RegisterWrapper.operator_dec] <;>
    (split <;> first | rfl | (split <;> rfl))

theorem World.step_logStep (w : World) (op : HandleOp) : LogStep w.g (w.step op).g := by
  cases op with
  | ctor_lit v => exact Or.inl (ctor_logs v w.g)
  | ctor_mem cell => exact ctor_mem_logStep cell w.g
  | ctor_copy src =>
    simp only [World.step]
    cases w.obj src with
    | none => exact Or.inl rfl
    | some o => exact Or.inl (ctor_copy_logs o w.g)
  | ctor_move src rnd =>
    simp only [World.step]
    cases w.obj src with
    | none => exact Or.inl rfl
    | some o => exact Or.inl (by simp only [ctor_move_globals])
  | assign_lit dst v =>
    simp only [World.step]
    cases w.obj dst with
    | none => exact Or.inl rfl
    | some d => exact Or.inl (by simp only [assign_lit_globals])
  | assign_copy dst src =>
    simp only [World.step]
    cases w.obj dst with
    | none => exact Or.inl rfl
    | some d =>
      cases w.obj src with
      | none => exact Or.inl rfl
      | some o => exact Or.inl (by simp only [assign_copy_globals])
  | assign_move dst src =>
    simp only [World.step]
    cases w.obj dst with
    | none => exact Or.inl rfl
    | some d =>
      cases w.obj src with
      | none => exact Or.inl rfl
      | some o => exact Or.inl (by simp only [assign_move_globals])
  | assign_mem dst cell =>
    simp only [World.step]
    cases w.obj dst with
    | none => exact Or.inl rfl
    | some d => exact assign_mem_logStep d cell w.g
  | dtor i =>
    simp only [World.step]
    cases w.obj i with
    | none => exact Or.inl rfl
    | some h => exact Or.inl (dtor_logs h w.g)

theorem World.step_rt_logStep (w : World) (op : RtOp) : LogStep w.g (w.step_rt op).g := by
  cases op with
  | handle op => exact World.step_logStep w op
  | binop op lhs rhs =>
    simp only [World.step_rt]
    cases w.obj lhs with
    | none => exact Or.inl rfl
    | some a =>
      cases w.obj rhs with
      | none => exact Or.inl rfl
      | some b => exact Or.inl (by simp only [RegBinOp.call_globals])
  | litop op lhs v =>
    simp only [World.step_rt]
    cases w.obj lhs with
    | none => exact Or.inl rfl
    | some a => exact Or.inl (by simp only [RegLitOp.litop_globals])
  | store_lit cell v =>
    exact Or.inr ⟨⟨.WRITE, cell.ptr_, -1⟩, Or.inr rfl, rfl⟩
  | store_reg cell src =>
    simp only [World.step_rt]
    cases w.obj src with
    | none => exact Or.inl rfl
    | some s => exact Or.inr ⟨⟨.WRITE, cell.ptr_, s.reg_id_⟩, Or.inr rfl, rfl⟩

theorem logKinds_of_logStep (g g1 : Globals) (h : LogStep g g1) (hk : g.LogKinds) :
    g1.LogKinds := by
  intro e he
  rcases h with h | ⟨x, hx, h⟩
  · rw [h] at he; exact hk e he
  · rw [h, List.mem_append, List.mem_singleton] at he
    rcases he with he | he
    · exact hk e he
    · rw [he]; exact hx

theorem World.run_rt_logKinds (ops : List RtOp) :
    ∀ w : World, w.g.LogKinds → (w.run_rt ops).g.LogKinds := by
  induction ops with
  | nil => intro w hw; exact hw
  | cons op ops ih =>
    intro w hw
    exact ih _ (logKinds_of_logStep _ _ (World.step_rt_logStep w op) hw)

/-- C19. In the log of every program, run from the initial state, every entry
is of kind `READ` or `WRITE`; on it `print_log` returns normally (the
`default` branch with its `runtime_error` is not taken) and writes exactly
one line per entry, in the order of the log, with the letter `L` for `READ`
and `S` for `WRITE`, the rebased address, the size 4 and the entry's
register id. -/
theorem print_log_total (base base_offset : Int) (mem : Int → Int) (ops : List RtOp) :
    (∀ e ∈ ((World.init mem).run_rt ops).g.access_logs,
        e.type_ = .READ ∨ e.type_ = .WRITE) ∧
      print_log base base_offset ((World.init mem).run_rt ops).g =
        (.ok (),
          ((World.init mem).run_rt ops).g.access_logs.map fun e =>
            { op := if e.type_ = .READ then 'L' else 'S'
              addr := PtrWrapper.rebase base base_offset e.addr_
              size := 4
              reg_id := e.reg_id_ }) := by
  have hk : ((World.init mem).run_rt ops).g.LogKinds :=
    World.run_rt_logKinds ops _ (fun e he => by simp [World.init, Globals.init] at he)
  refine ⟨hk, ?_⟩
  unfold print_log
  rw [print_log_loop_ok base base_offset _ [] hk]
  rfl

/-! ## The state of a handle along a program -/

theorem getD_set_option {α : Type} (l : List (Option α)) (i j : Nat) (a : Option α) :
    (l.set i a).getD j none = if i = j ∧ i < l.length then a else l.getD j none := by
  rw [List.getD_eq_getElem?_getD, List.getD_eq_getElem?_getD, List.getElem?_set]
  by_cases h : i = j
  · by_cases h2 : i < l.length
    · subst h
      simp [h2]
    · subst h
      simp [h2, List.getElem?_eq_none (Nat.le_of_not_lt h2)]
  · simp [h]

theorem obj_lt (w : World) (i : Nat) (h : Handle) (e : w.obj i = some h) :
    i < w.objs.length := by
  by_contra hc
  unfold World.obj at e
  rw [List.getD_eq_getElem?_getD, List.getElem?_eq_none (Nat.le_of_not_lt hc)] at e
  cases e

theorem getD_push (objs : List (Option Handle)) (r : Except Exn Handle) (i : Nat)
    (hi : i < objs.length) : (World.push objs r).getD i none = objs.getD i none := by
  cases r <;> exact List.getD_append _ _ _ _ hi

theorem assign_lit_state (d : Handle) (v : Int) (g : Globals) :
    (BaseRegisterWrapper.assign_lit d v g).2.1.state_ = d.state_ := by
  unfold BaseRegisterWrapper.assign_lit
  cases BaseRegisterWrapper.check_valid d <;> rfl

theorem assign_copy_state (d o : Handle) (g : Globals) :
    (BaseRegisterWrapper.assign_copy d o g).2.1.state_ = d.state_ := by
  unfold BaseRegisterWrapper.assign_copy
  cases BaseRegisterWrapper.check_valid d <;> rfl

theorem assign_mem_state (d : Handle) (cell : MemoryWrapper) (g : Globals) :
    (BaseRegisterWrapper.assign_mem d cell g).2.1.state_ = d.state_ := by
  unfold BaseRegisterWrapper.assign_mem
  cases BaseRegisterWrapper.check_valid d <;> rfl

theorem assign_move_state_self (d o : Handle) (g : Globals) :
    (BaseRegisterWrapper.assign_move d o g).2.1.state_ = d.state_ := by
  unfold BaseRegisterWrapper.assign_move
  cases BaseRegisterWrapper.check_valid d with
  | error e => rfl
  | ok u => simp only []; split <;> rfl

theorem assign_move_state_other (d o : Handle) (g : Globals) :
    (BaseRegisterWrapper.assign_move d o g).2.2.1.state_ = o.state_ ∨
      (o.state_ = .ACTIVE ∧
        (BaseRegisterWrapper.assign_move d o g).2.2.1.state_ = .INACTIVE) := by
  unfold BaseRegisterWrapper.assign_move
  cases BaseRegisterWrapper.check_valid d with
  | error e => exact Or.inl rfl
  | ok u =>
    simp only []
    split
    · rename_i hs; exact Or.inr ⟨hs, rfl⟩
    · exact Or.inl rfl

theorem ctor_move_state_other (o : Handle) (rnd : Int) (g : Globals) :
    (BaseRegisterWrapper.ctor_move o rnd g).2.1.state_ = o.state_ ∨
      (o.state_ = .ACTIVE ∧ (BaseRegisterWrapper.ctor_move o rnd g).2.1.state_ = .INACTIVE) := by
  unfold BaseRegisterWrapper.ctor_move
  simp only []
  split
  · rename_i hs; exact Or.inr ⟨hs, rfl⟩
  · split <;> exact Or.inl rfl

theorem RegBinOp.call_state (op : RegBinOp) (a b : Handle) (g : Globals) :
    (op.call a b g).2.1.state_ = a.state_ := by
  cases op <;>
    simp only [RegBinOp.call, RegisterWrapper.operator_plus_assign,
      RegisterWrapper.operator_minus_assign, RegisterWrapper.operator_times_assign,
      RegisterWrapper.operator_div_assign, RegisterWrapper.operator_mod_assign] <;>
    first
      | rfl
      | (split <;> first | rfl | (split <;> rfl))

theorem RegLitOp.litop_state (op : RegLitOp) (a : Handle) (v : Int) (g : Globals) :
    (op.call a v g).2.1.state_ = a.state_ := by
  cases op <;>
    simp only [RegLitOp.call, RegisterWrapper.operator_plus_assign_lit,
      RegisterWrapper.operator_minus_assign_lit, RegisterWrapper.operator_times_assign_lit,
      RegisterWrapper.operator_div_assign_lit, RegisterWrapper.operator_mod_assign_lit,
      RegisterWrapper.operator_inc, RegisterWrapper.operator_dec] <;>
    (split <;> first | rfl | (split <;> rfl))

theorem stateStep_same (op : RtOp) (i : Nat) (h h1 : Handle) (after : Option Handle)
    (e : after = some h1) (hs : h1.state_ = h.state_) : StateStep op i h after :=
  Or.inr ⟨h1, e, fun hi => hs.trans hi, fun hne => absurd hs hne⟩

theorem stateStep_moved (op : RtOp) (i : Nat) (h h1 : Handle) (after : Option Handle)
    (e : after = some h1)
    (hs : h1.state_ = h.state_ ∨ (h.state_ = .ACTIVE ∧ h1.state_ = .INACTIVE))
    (hop : (∃ rnd, op = .handle (.ctor_move i rnd)) ∨ ∃ dst, op = .handle (.assign_move dst i)) :
    StateStep op i h after := by
  rcases hs with hs | ⟨ha, hi⟩
  · exact stateStep_same op i h h1 after e hs
  · refine Or.inr ⟨h1, e, fun hc => ?_, fun _ => ⟨ha, hi, hop⟩⟩
    rw [ha] at hc; cases hc

theorem World.step_stateStep (w : World) (op : HandleOp) (i : Nat) (h : Handle)
    (hobj : w.obj i = some h) : StateStep (.handle op) i h ((w.step op).obj i) := by
  have hi : i < w.objs.length := obj_lt w i h hobj
  have hget : w.objs.getD i none = some h := hobj
  cases op with
  | ctor_lit v =>
    refine stateStep_same _ i h h _ ?_ rfl
    show (World.push w.objs _).getD i none = some h
    rw [getD_push _ _ _ hi, hget]
  | ctor_mem cell =>
    refine stateStep_same _ i h h _ ?_ rfl
    show (World.push w.objs _).getD i none = some h
    rw [getD_push _ _ _ hi, hget]
  | ctor_copy src =>
    simp only [World.step]
    cases w.obj src with
    | none => exact stateStep_same _ i h h _ hobj rfl
    | some o =>
      refine stateStep_same _ i h h _ ?_ rfl
      show (World.push w.objs _).getD i none = some h
      rw [getD_push _ _ _ hi, hget]
  | ctor_move src rnd =>
    simp only [World.step]
    cases ho : w.obj src with
    | none => exact stateStep_same _ i h h _ hobj rfl
    | some o =>
      have e : (World.push (w.objs.set src (some (BaseRegisterWrapper.ctor_move o rnd w.g).2.1))
          (BaseRegisterWrapper.ctor_move o rnd w.g).1).getD i none =
          if src = i ∧ src < w.objs.length then
            some (BaseRegisterWrapper.ctor_move o rnd w.g).2.1
          else w.objs.getD i none := by
        rw [getD_push _ _ _ (by rw [List.length_set]; exact hi), getD_set_option]
      by_cases hsi : src = i
      · subst hsi
        have hoh : o = h := by rw [hobj] at ho; exact (Option.some.inj ho).symm
        subst hoh
        refine stateStep_moved _ src o _ _ ?_ (ctor_move_state_other o rnd w.g)
          (Or.inl ⟨rnd, rfl⟩)
        show (World.push _ _).getD src none = _
        rw [e]; simp [hi]
      · refine stateStep_same _ i h h _ ?_ rfl
        show (World.push _ _).getD i none = _
        rw [e, if_neg (fun hc => hsi hc.1)]; exact hget
  | assign_lit dst v =>
    simp only [World.step]
    cases hd : w.obj dst with
    | none => exact stateStep_same _ i h h _ hobj rfl
    | some d =>
      by_cases hdi : dst = i
      · subst hdi
        have hdh : d = h := by rw [hobj] at hd; exact (Option.some.inj hd).symm
        subst hdh
        refine stateStep_same _ dst d _ _ ?_ (assign_lit_state d v w.g)
        show (w.objs.set dst _).getD dst none = _
        rw [getD_set_option]; simp [hi]
      · refine stateStep_same _ i h h _ ?_ rfl
        show (w.objs.set dst _).getD i none = _
        rw [getD_set_option, if_neg (fun hc => hdi hc.1)]; exact hget
  | assign_copy dst src =>
    simp only [World.step]
    cases hd : w.obj dst with
    | none => exact stateStep_same _ i h h _ hobj rfl
    | some d =>
      cases ho : w.obj src with
      | none => exact stateStep_same _ i h h _ hobj rfl
      | some o =>
        by_cases hdi : dst = i
        · subst hdi
          have hdh : d = h := by rw [hobj] at hd; exact (Option.some.inj hd).symm
          subst hdh
          refine stateStep_same _ dst d _ _ ?_ (assign_copy_state d o w.g)
          show (w.objs.set dst _).getD dst none = _
          rw [getD_set_option]; simp [hi]
        · refine stateStep_same _ i h h _ ?_ rfl
          show (w.objs.set dst _).getD i none = _
          rw [getD_set_option, if_neg (fun hc => hdi hc.1)]; exact hget
  | assign_move dst src =>
    simp only [World.step]
    cases hd : w.obj dst with
    | none => exact stateStep_same _ i h h _ hobj rfl
    | some d =>
      cases ho : w.obj src with
      | none => exact stateStep_same _ i h h _ hobj rfl
      | some o =>
        have e : ((w.objs.set dst (some (BaseRegisterWrapper.assign_move d o w.g).2.1)).set src
            (some (BaseRegisterWrapper.assign_move d o w.g).2.2.1)).getD i none =
            if src = i ∧ src < w.objs.length then
              some (BaseRegisterWrapper.assign_move d o w.g).2.2.1
            else if dst = i ∧ dst < w.objs.length then
              some (BaseRegisterWrapper.assign_move d o w.g).2.1
            else w.objs.getD i none := by
          rw [getD_set_option, getD_set_option, List.length_set]
        by_cases hsi : src = i
        · subst hsi
          have hoh : o = h := by rw [hobj] at ho; exact (Option.some.inj ho).symm
          subst hoh
          refine stateStep_moved _ src o _ _ ?_ (assign_move_state_other d o w.g)
            (Or.inr ⟨dst, rfl⟩)
          show (List.set _ _ _).getD src none = _
          rw [e]; simp [hi]
        · by_cases hdi : dst = i
          · subst hdi
            have hdh : d = h := by rw [hobj] at hd; exact (Option.some.inj hd).symm
            subst hdh
            refine stateStep_same _ dst d _ _ ?_ (assign_move_state_self d o w.g)
            show (List.set _ _ _).getD dst none = _
            rw [e]; simp [hsi, hi]
          · refine stateStep_same _ i h h _ ?_ rfl
            show (List.set _ _ _).getD i none = _
            rw [e, if_neg (fun hc => hsi hc.1), if_neg (fun hc => hdi hc.1)]; exact hget
  | assign_mem dst cell =>
    simp only [World.step]
    cases hd : w.obj dst with
    | none => exact stateStep_same _ i h h _ hobj rfl
    | some d =>
      by_cases hdi : dst = i
      · subst hdi
        have hdh : d = h := by rw [hobj] at hd; exact (Option.some.inj hd).symm
        subst hdh
        refine stateStep_same _ dst d _ _ ?_ (assign_mem_state d cell w.g)
        show (w.objs.set dst _).getD dst none = _
        rw [getD_set_option]; simp [hi]
      · refine stateStep_same _ i h h _ ?_ rfl
        show (w.objs.set dst _).getD i none = _
        rw [getD_set_option, if_neg (fun hc => hdi hc.1)]; exact hget
  | dtor j =>
    simp only [World.step]
    cases hd : w.obj j with
    | none => exact stateStep_same _ i h h _ hobj rfl
    | some d =>
      by_cases hji : j = i
      · subst hji
        left
        refine ⟨?_, rfl⟩
        show (w.objs.set j none).getD j none = none
        rw [getD_set_option]; simp [hi]
      · refine stateStep_same _ i h h _ ?_ rfl
        show (w.objs.set j none).getD i none = _
        rw [getD_set_option, if_neg (fun hc => hji hc.1)]; exact hget

theorem World.step_rt_stateStep (w : World) (op : RtOp) (i : Nat) (h : Handle)
    (hobj : w.obj i = some h) : StateStep op i h ((w.step_rt op).obj i) := by
  have hi : i < w.objs.length := obj_lt w i h hobj
  have hget : w.objs.getD i none = some h := hobj
  cases op with
  | handle op => exact World.step_stateStep w op i h hobj
  | binop op lhs rhs =>
    simp only [World.step_rt]
    cases ha : w.obj lhs with
    | none => exact stateStep_same _ i h h _ hobj rfl
    | some a =>
      cases hb : w.obj rhs with
      | none => exact stateStep_same _ i h h _ hobj rfl
      | some b =>
        by_cases hli : lhs = i
        · subst hli
          have hah : a = h := by rw [hobj] at ha; exact (Option.some.inj ha).symm
          subst hah
          refine stateStep_same _ lhs a _ _ ?_ (RegBinOp.call_state op a b w.g)
          show (w.objs.set lhs _).getD lhs none = _
          rw [getD_set_option]; simp [hi]
        · refine stateStep_same _ i h h _ ?_ rfl
          show (w.objs.set lhs _).getD i none = _
          rw [getD_set_option, if_neg (fun hc => hli hc.1)]; exact hget
  | litop op lhs v =>
    simp only [World.step_rt]
    cases ha : w.obj lhs with
    | none => exact stateStep_same _ i h h _ hobj rfl
    | some a =>
      by_cases hli : lhs = i
      · subst hli
        have hah : a = h := by rw [hobj] at ha; exact (Option.some.inj ha).symm
        subst hah
        refine stateStep_same _ lhs a _ _ ?_ (RegLitOp.litop_state op a v w.g)
        show (w.objs.set lhs _).getD lhs none = _
        rw [getD_set_option]; simp [hi]
      · refine stateStep_same _ i h h _ ?_ rfl
        show (w.objs.set lhs _).getD i none = _
        rw [getD_set_option, if_neg (fun hc => hli hc.1)]; exact hget
  | store_lit cell v => exact stateStep_same _ i h h _ hobj rfl
  | store_reg cell src =>
    simp only [World.step_rt]
    cases w.obj src with
    | none => exact stateStep_same _ i h h _ hobj rfl
    | some s => exact stateStep_same _ i h h _ hobj rfl

theorem ptr_inplace_base (p : PtrHandle) (q : PtrHandle) (g : Globals) (hq : q.base = p.base) :
    (match PtrWrapper.ctor_copy q g with
      | (.ok r, g1) => ((.ok r, q, g1) : Except Exn PtrHandle × PtrHandle × Globals)
      | (.error e, g1) => (.error e, q, g1)).2.1.base = p.base := by
  split <;> exact hq

/-- C20. For every handle object that is alive and every operation of the
runtime, whether the operation returns normally or throws: afterwards the
object has been destroyed by its own destructor, or it is alive, and then it
is `INACTIVE` if it was `INACTIVE` before, and if its state differs from the
state before, it was `ACTIVE`, is now `INACTIVE`, and the operation is the
move construction or a move assignment that has this object as its source.
The in-place operators of a pointer handle write `ptr_` only and leave the
base object, and with it the state, as it was. -/
theorem handle_state_machine (w : World) (op : RtOp) (i : Nat) (h : Handle)
    (hobj : w.obj i = some h) (p : PtrHandle) (n : Int) (r : Handle) (g : Globals) :
    (((w.step_rt op).obj i = none ∧ op = .handle (.dtor i)) ∨
        ∃ h1, (w.step_rt op).obj i = some h1 ∧
          (h.state_ = .INACTIVE → h1.state_ = .INACTIVE) ∧
          (h1.state_ ≠ h.state_ →
            h.state_ = .ACTIVE ∧ h1.state_ = .INACTIVE ∧
              ((∃ rnd, op = .handle (.ctor_move i rnd)) ∨
                ∃ dst, op = .handle (.assign_move dst i)))) ∧
      ((PtrWrapper.operator_inc p g).2.1.base = p.base ∧
        (PtrWrapper.operator_dec p g).2.1.base = p.base ∧
        (PtrWrapper.operator_plus_assign p n g).2.1.base = p.base ∧
        (PtrWrapper.operator_plus_assign_reg p r g).2.1.base = p.base ∧
        (PtrWrapper.operator_minus_assign p n g).2.1.base = p.base ∧
        (PtrWrapper.operator_minus_assign_reg p r g).2.1.base = p.base) :=
  ⟨World.step_rt_stateStep w op i h hobj,
    ptr_inplace_base p _ g rfl, ptr_inplace_base p _ g rfl, ptr_inplace_base p _ g rfl,
    ptr_inplace_base p _ g rfl, ptr_inplace_base p _ g rfl, ptr_inplace_base p _ g rfl⟩

/-- C20 on the program `reg a(5); reg b(6);` followed by the move
construction `reg c(std::move(a));`, for the object `a`. -/
theorem handle_state_machine_witness :
    (((((World.init fun _ => 0).run [.ctor_lit 5, .ctor_lit 6]).step_rt
            (.handle (.ctor_move 0 42))).obj 0 = none ∧
          (RtOp.handle (.ctor_move 0 42)) = .handle (.dtor 0)) ∨
        ∃ h1, (((World.init fun _ => 0).run [.ctor_lit 5, .ctor_lit 6]).step_rt
              (.handle (.ctor_move 0 42))).obj 0 = some h1 ∧
          ((⟨5, .ACTIVE, 0⟩ : Handle).state_ = .INACTIVE → h1.state_ = .INACTIVE) ∧
          (h1.state_ ≠ (⟨5, .ACTIVE, 0⟩ : Handle).state_ →
            (⟨5, .ACTIVE, 0⟩ : Handle).state_ = .ACTIVE ∧ h1.state_ = .INACTIVE ∧
              ((∃ rnd, RtOp.handle (.ctor_move 0 42) = .handle (.ctor_move 0 rnd)) ∨
                ∃ dst, RtOp.handle (.ctor_move 0 42) = .handle (.assign_move dst 0)))) ∧
      ((PtrWrapper.operator_inc ⟨⟨0, .ACTIVE, 2⟩, 4096⟩ (Globals.init fun _ => 0)).2.1.base =
          (⟨⟨0, .ACTIVE, 2⟩, 4096⟩ : PtrHandle).base ∧
        (PtrWrapper.operator_dec ⟨⟨0, .ACTIVE, 2⟩, 4096⟩ (Globals.init fun _ => 0)).2.1.base =
          (⟨⟨0, .ACTIVE, 2⟩, 4096⟩ : PtrHandle).base ∧
        (PtrWrapper.operator_plus_assign ⟨⟨0, .ACTIVE, 2⟩, 4096⟩ 3
          (Globals.init fun _ => 0)).2.1.base = (⟨⟨0, .ACTIVE, 2⟩, 4096⟩ : PtrHandle).base ∧
        (PtrWrapper.operator_plus_assign_reg ⟨⟨0, .ACTIVE, 2⟩, 4096⟩ ⟨3, .ACTIVE, 1⟩
          (Globals.init fun _ => 0)).2.1.base = (⟨⟨0, .ACTIVE, 2⟩, 4096⟩ : PtrHandle).base ∧
        (PtrWrapper.operator_minus_assign ⟨⟨0, .ACTIVE, 2⟩, 4096⟩ 3
          (Globals.init fun _ => 0)).2.1.base = (⟨⟨0, .ACTIVE, 2⟩, 4096⟩ : PtrHandle).base ∧
        (PtrWrapper.operator_minus_assign_reg ⟨⟨0, .ACTIVE, 2⟩, 4096⟩ ⟨3, .ACTIVE, 1⟩
          (Globals.init fun _ => 0)).2.1.base = (⟨⟨0, .ACTIVE, 2⟩, 4096⟩ : PtrHandle).base) :=
  handle_state_machine ((World.init fun _ => 0).run [.ctor_lit 5, .ctor_lit 6])
    (.handle (.ctor_move 0 42)) 0 ⟨5, .ACTIVE, 0⟩ rfl ⟨⟨0, .ACTIVE, 2⟩, 4096⟩ 3 ⟨3, .ACTIVE, 1⟩
    (Globals.init fun _ => 0)

/-! ## Claims on the in-place pointer operators -/

theorem ptr_copy_full (q : PtrHandle) (g : Globals)
    (hfull : ∀ j, j < reg_num → g.occupied j = true) :
    PtrWrapper.ctor_copy q g = (.error .OutOfRegistersException, g) := by
  have h : find_reg g = (.error .OutOfRegistersException, g) :=
    find_reg_loop_error g reg_num 0 (fun j _ hj => hfull j (by omega))
  simp only [PtrWrapper.ctor_copy, BaseRegisterWrapper.ctor_copy, h]

/-- C21. For a pointer handle `p` at address `a` (element size `k = 4`), each
of `++p`, `--p`, `p += n`, `p -= n` first sets the address of `p` to `a + k`,
`a - k`, `a + n*k`, `a - n*k` and then returns `*this` by value, which
copy-constructs a pointer handle.  When a slot is free, the operator returns
an `ACTIVE` handle at the new address in the lowest free slot `i`, the
current count being one more and the peak updated; once that temporary is
destroyed, the slot array, the current count, the log and the memory are as
before the call, and the peak is the maximum of its old value and the count
while the temporary lived.  When all 36 slots are occupied, the operator
throws `OutOfRegistersException` with the globals unchanged and `p` already
at the new address. -/
theorem pointer_inplace_spec (p : PtrHandle) (n : Int) (g : Globals) :
    ((∃ j, j < reg_num ∧ g.occupied j = false) →
        ∃ i : Nat, i < reg_num ∧ g.occupied i = false ∧ (∀ j, j < i → g.occupied j = true) ∧
          PtrWrapper.operator_inc p g =
            (.ok { base := ⟨p.base.reg_, .ACTIVE, i⟩, ptr_ := p.ptr_ + elem_size },
              { p with ptr_ := p.ptr_ + elem_size },
              { g with
                  reg_map := g.reg_map.set i true
                  current_reg_count := g.current_reg_count + 1
                  max_reg_count := max g.max_reg_count (g.current_reg_count + 1) }) ∧
          PtrWrapper.operator_dec p g =
            (.ok { base := ⟨p.base.reg_, .ACTIVE, i⟩, ptr_ := p.ptr_ - elem_size },
              { p with ptr_ := p.ptr_ - elem_size },
              { g with
                  reg_map := g.reg_map.set i true
                  current_reg_count := g.current_reg_count + 1
                  max_reg_count := max g.max_reg_count (g.current_reg_count + 1) }) ∧
          PtrWrapper.operator_plus_assign p n g =
            (.ok { base := ⟨p.base.reg_, .ACTIVE, i⟩, ptr_ := p.ptr_ + n * elem_size },
              { p with ptr_ := p.ptr_ + n * elem_size },
              { g with
                  reg_map := g.reg_map.set i true
                  current_reg_count := g.current_reg_count + 1
                  max_reg_count := max g.max_reg_count (g.current_reg_count + 1) }) ∧
          PtrWrapper.operator_minus_assign p n g =
            (.ok { base := ⟨p.base.reg_, .ACTIVE, i⟩, ptr_ := p.ptr_ - n * elem_size },
              { p with ptr_ := p.ptr_ - n * elem_size },
              { g with
                  reg_map := g.reg_map.set i true
                  current_reg_count := g.current_reg_count + 1
                  max_reg_count := max g.max_reg_count (g.current_reg_count + 1) }) ∧
          (∀ addr : Int,
            PtrWrapper.dtor { base := ⟨p.base.reg_, .ACTIVE, i⟩, ptr_ := addr }
                { g with
                    reg_map := g.reg_map.set i true
                    current_reg_count := g.current_reg_count + 1
                    max_reg_count := max g.max_reg_count (g.current_reg_count + 1) } =
              { g with max_reg_count := max g.max_reg_count (g.current_reg_count + 1) })) ∧
      ((∀ j, j < reg_num → g.occupied j = true) →
        PtrWrapper.operator_inc p g =
          (.error .OutOfRegistersException, { p with ptr_ := p.ptr_ + elem_size }, g) ∧
        PtrWrapper.operator_dec p g =
          (.error .OutOfRegistersException, { p with ptr_ := p.ptr_ - elem_size }, g) ∧
        PtrWrapper.operator_plus_assign p n g =
          (.error .OutOfRegistersException, { p with ptr_ := p.ptr_ + n * elem_size }, g) ∧
        PtrWrapper.operator_minus_assign p n g =
          (.error .OutOfRegistersException, { p with ptr_ := p.ptr_ - n * elem_size }, g)) := by
  constructor
  · intro hfree
    obtain ⟨m, hm, hmf, hlow, hfind⟩ := find_reg_ok_record g hfree
    refine ⟨m, hm, hmf, hlow, ?_, ?_, ?_, ?_, ?_⟩
    · simp only [PtrWrapper.operator_inc, PtrWrapper.ctor_copy, BaseRegisterWrapper.ctor_copy,
        hfind]
    · simp only [PtrWrapper.operator_dec, PtrWrapper.ctor_copy, BaseRegisterWrapper.ctor_copy,
        hfind]
    · simp only [PtrWrapper.operator_plus_assign, PtrWrapper.ctor_copy,
        BaseRegisterWrapper.ctor_copy, hfind, mul_comm]
    · simp only [PtrWrapper.operator_minus_assign, PtrWrapper.ctor_copy,
        BaseRegisterWrapper.ctor_copy, hfind, mul_comm]
    · intro addr
      simp only [PtrWrapper.dtor, BaseRegisterWrapper.dtor, if_true]
      exact free_reg_after_find_reg g m hm hmf
  · intro hfull
    refine ⟨?_, ?_, ?_, ?_⟩
    · simp only [PtrWrapper.operator_inc, ptr_copy_full _ g hfull]
    · simp only [PtrWrapper.operator_dec, ptr_copy_full _ g hfull]
    · simp only [PtrWrapper.operator_plus_assign, ptr_copy_full _ g hfull, mul_comm]
    · simp only [PtrWrapper.operator_minus_assign, ptr_copy_full _ g hfull, mul_comm]

/-- C21 on `p += 3` for `p` at address 4096: with slots 0 and 1 occupied the
copy lands in slot 2 and its destruction restores the pool; in the full pool
the operator throws and leaves `p` at `4096 + 3*4`. -/
theorem pointer_inplace_spec_witness :
    (∃ i : Nat, i < reg_num ∧
        PtrWrapper.operator_plus_assign ⟨⟨0, .ACTIVE, 0⟩, 4096⟩ 3
            (find_reg (find_reg (Globals.init fun _ => 0)).2).2 =
          (.ok { base := ⟨0, .ACTIVE, i⟩, ptr_ := 4096 + 3 * elem_size },
            { base := ⟨0, .ACTIVE, 0⟩, ptr_ := 4096 + 3 * elem_size },
            { (find_reg (find_reg (Globals.init fun _ => 0)).2).2 with
                reg_map := (find_reg (find_reg (Globals.init fun _ => 0)).2).2.reg_map.set i true
                current_reg_count :=
                  (find_reg (find_reg (Globals.init fun _ => 0)).2).2.current_reg_count + 1
                max_reg_count :=
                  max (find_reg (find_reg (Globals.init fun _ => 0)).2).2.max_reg_count
                    ((find_reg (find_reg (Globals.init fun _ => 0)).2).2.current_reg_count + 1) }) ∧
        PtrWrapper.dtor { base := ⟨0, .ACTIVE, i⟩, ptr_ := 4096 + 3 * elem_size }
            { (find_reg (find_reg (Globals.init fun _ => 0)).2).2 with
                reg_map := (find_reg (find_reg (Globals.init fun _ => 0)).2).2.reg_map.set i true
                current_reg_count :=
                  (find_reg (find_reg (Globals.init fun _ => 0)).2).2.current_reg_count + 1
                max_reg_count :=
                  max (find_reg (find_reg (Globals.init fun _ => 0)).2).2.max_reg_count
                    ((find_reg (find_reg (Globals.init fun _ => 0)).2).2.current_reg_count + 1) } =
          { (find_reg (find_reg (Globals.init fun _ => 0)).2).2 with
              max_reg_count :=
                max (find_reg (find_reg (Globals.init fun _ => 0)).2).2.max_reg_count
                  ((find_reg (find_reg (Globals.init fun _ => 0)).2).2.current_reg_count + 1) }) ∧
      PtrWrapper.operator_plus_assign ⟨⟨0, .ACTIVE, 0⟩, 4096⟩ 3 Globals.example_full =
        (.error .OutOfRegistersException,
          { base := ⟨0, .ACTIVE, 0⟩, ptr_ := 4096 + 3 * elem_size }, Globals.example_full) :=
  ⟨(((pointer_inplace_spec ⟨⟨0, .ACTIVE, 0⟩, 4096⟩ 3
        (find_reg (find_reg (Globals.init fun _ => 0)).2).2).1
        ⟨2, by decide, by decide⟩).imp
      fun _ h => ⟨h.1, h.2.2.2.2.2.1, h.2.2.2.2.2.2.2 _⟩),
    ((pointer_inplace_spec ⟨⟨0, .ACTIVE, 0⟩, 4096⟩ 3 Globals.example_full).2
      (by decide)).2.2.1⟩

/-! ## The scan of a set -/

namespace Csim

theorem scanInv_start (cache : List line_t) (base tag : Nat) :
    ScanInv cache base tag 0 Scan.start where
  nohit := rfl
  notag := fun j hj => absurd hj (Nat.not_lt_zero j)
  empty_some := fun e he => by cases he
  empty_none := fun _ j hj => absurd hj (Nat.not_lt_zero j)
  lru_some := fun l hl => by cases hl
  lru_none := fun _ => rfl
  lru_le := fun j hj => absurd hj (Nat.not_lt_zero j)

theorem scan_loop_spec (cache : List line_t) (base tag : Nat) :
    ∀ (k i : Nat) (sc : Scan), ScanInv cache base tag i sc →
      (∃ h, (scan_loop cache base tag k i sc).hit_idx = some h ∧ h < i + k ∧
          (line_at cache (base + h)).valid = true ∧ (line_at cache (base + h)).tag = tag) ∨
        ScanInv cache base tag (i + k) (scan_loop cache base tag k i sc) := by
  intro k
  induction k with
  | zero => intro i sc h; exact Or.inr h
  | succ k ih =>
    intro i sc h
    have hstep : i + (k + 1) = (i + 1) + k := by omega
    rw [hstep]
    by_cases hv : (line_at cache (base + i)).valid = true
    · by_cases ht : (line_at cache (base + i)).tag = tag
      · left
        refine ⟨i, ?_, by omega, hv, ht⟩
        simp [scan_loop, hv, ht]
      · by_cases hl : (line_at cache (base + i)).lru < sc.lru_min
        · have e : scan_loop cache base tag (k + 1) i sc =
              scan_loop cache base tag k (i + 1)
                { sc with lru_min := (line_at cache (base + i)).lru, lru_idx := some i } := by
            simp [scan_loop, hv, ht, hl]
          rw [e]
          apply ih
          refine ⟨h.nohit, ?_, ?_, ?_, ?_, ?_, ?_⟩
          · intro j hj hjv
            rcases Nat.lt_succ_iff_lt_or_eq.mp hj with hj | hj
            · exact h.notag j hj hjv
            · subst hj; exact ht
          · intro e0 he
            obtain ⟨h1, h2, h3⟩ := h.empty_some e0 he
            exact ⟨by omega, h2, h3⟩
          · intro he j hj
            rcases Nat.lt_succ_iff_lt_or_eq.mp hj with hj | hj
            · exact h.empty_none he j hj
            · subst hj; exact hv
          · intro l hl2
            simp only [Option.some.injEq] at hl2
            subst hl2
            exact ⟨by omega, hv, rfl⟩
          · intro hc; cases hc
          · intro j hj hjv
            rcases Nat.lt_succ_iff_lt_or_eq.mp hj with hj | hj
            · exact le_trans (le_of_lt hl) (h.lru_le j hj hjv)
            · subst hj; exact le_refl _
        · have e : scan_loop cache base tag (k + 1) i sc =
              scan_loop cache base tag k (i + 1) sc := by
            simp [scan_loop, hv, ht, hl]
          rw [e]
          apply ih
          refine ⟨h.nohit, ?_, ?_, ?_, ?_, h.lru_none, ?_⟩
          · intro j hj hjv
            rcases Nat.lt_succ_iff_lt_or_eq.mp hj with hj | hj
            · exact h.notag j hj hjv
            · subst hj; exact ht
          · intro e0 he
            obtain ⟨h1, h2, h3⟩ := h.empty_some e0 he
            exact ⟨by omega, h2, h3⟩
          · intro he j hj
            rcases Nat.lt_succ_iff_lt_or_eq.mp hj with hj | hj
            · exact h.empty_none he j hj
            · subst hj; exact hv
          · intro l hl2
            obtain ⟨h1, h2, h3⟩ := h.lru_some l hl2
            exact ⟨by omega, h2, h3⟩
          · intro j hj hjv
            rcases Nat.lt_succ_iff_lt_or_eq.mp hj with hj | hj
            · exact h.lru_le j hj hjv
            · subst hj; exact Nat.le_of_not_lt hl
    · have hv2 : (line_at cache (base + i)).valid = false := by
        cases hx : (line_at cache (base + i)).valid
        · rfl
        · exact absurd hx hv
      by_cases he : sc.empty_idx = none
      · have e : scan_loop cache base tag (k + 1) i sc =
            scan_loop cache base tag k (i + 1) { sc with empty_idx := some i } := by
          simp [scan_loop, hv2, he]
        rw [e]
        apply ih
        refine ⟨h.nohit, ?_, ?_, ?_, ?_, h.lru_none, ?_⟩
        · intro j hj hjv
          rcases Nat.lt_succ_iff_lt_or_eq.mp hj with hj | hj
          · exact h.notag j hj hjv
          · subst hj; rw [hv2] at hjv; cases hjv
        · intro e0 he0
          simp only [Option.some.injEq] at he0
          subst he0
          exact ⟨by omega, hv2, fun j hj => h.empty_none he j hj⟩
        · intro hc; cases hc
        · intro l hl2
          obtain ⟨h1, h2, h3⟩ := h.lru_some l hl2
          exact ⟨by omega, h2, h3⟩
        · intro j hj hjv
          rcases Nat.lt_succ_iff_lt_or_eq.mp hj with hj | hj
          · exact h.lru_le j hj hjv
          · subst hj; rw [hv2] at hjv; cases hjv
      · have e : scan_loop cache base tag (k + 1) i sc =
            scan_loop cache base tag k (i + 1) sc := by
          simp [scan_loop, hv2, he]
        rw [e]
        apply ih
        refine ⟨h.nohit, ?_, ?_, ?_, ?_, h.lru_none, ?_⟩
        · intro j hj hjv
          rcases Nat.lt_succ_iff_lt_or_eq.mp hj with hj | hj
          · exact h.notag j hj hjv
          · subst hj; rw [hv2] at hjv; cases hjv
        · intro e0 he0
          obtain ⟨h1, h2, h3⟩ := h.empty_some e0 he0
          exact ⟨by omega, h2, h3⟩
        · intro hc; exact absurd hc he
        · intro l hl2
          obtain ⟨h1, h2, h3⟩ := h.lru_some l hl2
          exact ⟨by omega, h2, h3⟩
        · intro j hj hjv
          rcases Nat.lt_succ_iff_lt_or_eq.mp hj with hj | hj
          · exact h.lru_le j hj hjv
          · subst hj; rw [hv2] at hjv; cases hjv

end Csim

/-! ## The three outcomes of an access -/

namespace Csim

theorem access_cases (p : Params) (op : Char) (addr : Nat) (st : Sim) (hE : 0 < p.E)
    (hsent : ∀ j, j < p.E → (line_at st.cache (set_index p addr * p.E + j)).valid = true →
      (line_at st.cache (set_index p addr * p.E + j)).lru < 2 ^ 64 - 1) :
    (∃ h, h < p.E ∧ (line_at st.cache (set_index p addr * p.E + h)).valid = true ∧
        (line_at st.cache (set_index p addr * p.E + h)).tag = tag_of p addr ∧
        access p op addr st =
          { st with
              hits := st.hits + 1
              cache :=
                st.cache.set (set_index p addr * p.E + h)
                  { line_at st.cache (set_index p addr * p.E + h) with
                      lru := st.use_clock
                      dirty :=
                        if op = 'S' ∨ op = 'M' then true
                        else (line_at st.cache (set_index p addr * p.E + h)).dirty }
              use_clock := st.use_clock + 1 }) ∨
      ((∀ j, j < p.E → (line_at st.cache (set_index p addr * p.E + j)).valid = true →
          (line_at st.cache (set_index p addr * p.E + j)).tag ≠ tag_of p addr) ∧
        ∃ e, e < p.E ∧ (line_at st.cache (set_index p addr * p.E + e)).valid = false ∧
          (∀ j, j < e → (line_at st.cache (set_index p addr * p.E + j)).valid = true) ∧
          access p op addr st =
            { st with
                misses := st.misses + 1
                cache :=
                  st.cache.set (set_index p addr * p.E + e)
                    (filled op (tag_of p addr) st.use_clock)
                use_clock := st.use_clock + 1 }) ∨
      ((∀ j, j < p.E → (line_at st.cache (set_index p addr * p.E + j)).valid = true →
          (line_at st.cache (set_index p addr * p.E + j)).tag ≠ tag_of p addr) ∧
        (∀ j, j < p.E → (line_at st.cache (set_index p addr * p.E + j)).valid = true) ∧
        ∃ l, l < p.E ∧
          (∀ j, j < p.E → (line_at st.cache (set_index p addr * p.E + l)).lru ≤
            (line_at st.cache (set_index p addr * p.E + j)).lru) ∧
          access p op addr st =
            { st with
                misses := st.misses + 1
                evictions := st.evictions + 1
                cache :=
                  st.cache.set (set_index p addr * p.E + l)
                    (filled op (tag_of p addr) st.use_clock)
                use_clock := st.use_clock + 1 }) := by
  have hspec := scan_loop_spec st.cache (set_index p addr * p.E) (tag_of p addr) p.E 0
    Scan.start (scanInv_start _ _ _)
  rw [Nat.zero_add] at hspec
  rcases hspec with ⟨h, hh, hlt, hv, ht⟩ | hinv
  · left
    refine ⟨h, hlt, hv, ht, ?_⟩
    simp only [access, hh]
  · right
    have hnohit := hinv.nohit
    cases hemp : (scan_loop st.cache (set_index p addr * p.E) (tag_of p addr) p.E 0
        Scan.start).empty_idx with
    | some e =>
      left
      obtain ⟨h1, h2, h3⟩ := hinv.empty_some e hemp
      refine ⟨hinv.notag, e, h1, h2, h3, ?_⟩
      simp only [access, hnohit, hemp]
    | none =>
      right
      have hall := hinv.empty_none hemp
      cases hlru : (scan_loop st.cache (set_index p addr * p.E) (tag_of p addr) p.E 0
          Scan.start).lru_idx with
      | some l =>
        obtain ⟨h1, h2, h3⟩ := hinv.lru_some l hlru
        refine ⟨hinv.notag, hall, l, h1, ?_, ?_⟩
        · intro j hj
          rw [h3]
          exact hinv.lru_le j hj (hall j hj)
        · simp only [access, hnohit, hemp, hlru]
      | none =>
        exfalso
        have h1 := hinv.lru_none hlru
        have h2 := hinv.lru_le 0 hE (hall 0 hE)
        have h3 := hsent 0 hE (hall 0 hE)
        omega

end Csim

/-! ## Lemmas on the array of lines -/

namespace Csim

theorem line_at_set (cache : List line_t) (i j : Nat) (x : line_t) :
    line_at (cache.set i x) j = if i = j ∧ i < cache.length then x else line_at cache j := by
  unfold line_at
  rw [List.getD_eq_getElem?_getD, List.getD_eq_getElem?_getD, List.getElem?_set]
  by_cases h : i = j
  · by_cases h2 : i < cache.length
    · subst h
      simp [h2]
    · subst h
      simp [h2, List.getElem?_eq_none (Nat.le_of_not_lt h2)]
  · simp [h]

theorem line_at_valid_lt (cache : List line_t) (i : Nat)
    (h : (line_at cache i).valid = true) : i < cache.length := by
  by_contra hc
  unfold line_at at h
  rw [List.getD_eq_getElem?_getD, List.getElem?_eq_none (Nat.le_of_not_lt hc)] at h
  cases h

theorem line_at_eq_getElem (cache : List line_t) (i : Nat) (h : i < cache.length) :
    line_at cache i = cache[i] := by
  unfold line_at
  rw [List.getD_eq_getElem?_getD, List.getElem?_eq_getElem h]
  rfl

theorem valid_lines_set (cache : List line_t) (i : Nat) (x : line_t) (h : i < cache.length) :
    valid_lines (cache.set i x) + (if (line_at cache i).valid = true then 1 else 0) =
      valid_lines cache + (if x.valid = true then 1 else 0) := by
  unfold valid_lines
  rw [List.countP_set _ _ _ _ h, line_at_eq_getElem cache i h]
  cases hvb : cache[i].valid with
  | true =>
    have hpos : 0 < List.countP (fun ln => ln.valid) cache :=
      List.countP_pos_iff.mpr ⟨cache[i], List.getElem_mem h, hvb⟩
    simp only [if_true]
    omega
  | false =>
    simp only [Bool.false_eq_true, if_false]
    omega

theorem set_index_lt (p : Params) (addr : Nat) : set_index p addr < S p := by
  unfold set_index S
  rw [Nat.one_shiftLeft]
  have h1 : (addr >>> p.b) &&& (2 ^ p.s - 1) ≤ 2 ^ p.s - 1 := Nat.and_le_right
  have h2 : 0 < 2 ^ p.s := Nat.two_pow_pos p.s
  omega

theorem flat_index_lt (E k w n : Nat) (hk : k < n) (hw : w < E) : k * E + w < n * E := by
  have h1 : (k + 1) * E ≤ n * E := Nat.mul_le_mul_right E hk
  have h2 : (k + 1) * E = k * E + E := by ring
  omega

theorem flat_index_inj (E k a k1 b : Nat) (ha : a < E) (hb : b < E)
    (h : k * E + a = k1 * E + b) : k = k1 ∧ a = b := by
  have hE : 0 < E := by omega
  have e1 : (k * E + a) / E = k := by
    rw [Nat.add_comm, Nat.add_mul_div_right _ _ hE, Nat.div_eq_of_lt ha, Nat.zero_add]
  have e2 : (k1 * E + b) / E = k1 := by
    rw [Nat.add_comm, Nat.add_mul_div_right _ _ hE, Nat.div_eq_of_lt hb, Nat.zero_add]
  have hk : k = k1 := by rw [← e1, ← e2, h]
  subst hk
  exact ⟨rfl, by omega⟩

theorem same_block (p : Params) (x y : Nat) (h : y >>> p.b = x >>> p.b) :
    set_index p y = set_index p x ∧ tag_of p y = tag_of p x := by
  constructor
  · unfold set_index; rw [h]
  · unfold tag_of
    rw [Nat.add_comm p.s p.b, Nat.shiftRight_add, Nat.shiftRight_add, h]

theorem inv_init (p : Params) : Inv p (Sim.init p) := by
  have hline : ∀ i, (line_at (Sim.init p).cache i).valid = false := by
    intro i
    unfold line_at Sim.init
    rw [List.getD_eq_getElem?_getD, List.getElem?_replicate]
    split <;> rfl
  refine ⟨?_, ?_, ?_, ?_, ?_⟩
  · simp [Sim.init]
  · intro i hi; rw [hline i] at hi; cases hi
  · simp [Sim.init, valid_lines, List.countP_replicate]
  · intro k a b _ _ hv; rw [hline _] at hv; cases hv
  · intro i j hv; rw [hline _] at hv; cases hv

end Csim

/-! ## The invariant of the replay loop -/

namespace Csim

theorem inv_update (p : Params) (st : Sim) (hinv : Inv p st) (k0 w : Nat) (hk0 : k0 < S p)
    (hw : w < p.E) (nl : line_t) (hv : nl.valid = true) (hl : nl.lru = st.use_clock)
    (htag : ∀ j, j < p.E → j ≠ w → (line_at st.cache (k0 * p.E + j)).valid = true →
      (line_at st.cache (k0 * p.E + j)).tag ≠ nl.tag)
    (h m e : Nat)
    (hcount : e + (valid_lines st.cache +
      (if (line_at st.cache (k0 * p.E + w)).valid = true then 0 else 1)) = m) :
    Inv p
      { cache := st.cache.set (k0 * p.E + w) nl, hits := h, misses := m, evictions := e,
        use_clock := st.use_clock + 1 } := by
  have hidx : k0 * p.E + w < st.cache.length := by
    rw [hinv.len]; exact flat_index_lt p.E k0 w (S p) hk0 hw
  refine ⟨?_, ?_, ?_, ?_, ?_⟩
  · show (st.cache.set (k0 * p.E + w) nl).length = S p * p.E
    rw [List.length_set]; exact hinv.len
  · intro i hi
    show (line_at (st.cache.set (k0 * p.E + w) nl) i).lru < st.use_clock + 1
    have hi2 : (line_at (st.cache.set (k0 * p.E + w) nl) i).valid = true := hi
    rw [line_at_set] at hi2 ⊢
    by_cases hc : k0 * p.E + w = i ∧ k0 * p.E + w < st.cache.length
    · rw [if_pos hc]; omega
    · rw [if_neg hc] at hi2 ⊢
      have := hinv.stamp i hi2
      omega
  · show e + valid_lines (st.cache.set (k0 * p.E + w) nl) = m
    have hvs := valid_lines_set st.cache (k0 * p.E + w) nl hidx
    rw [hv] at hvs
    simp only [if_true] at hvs
    by_cases hold : (line_at st.cache (k0 * p.E + w)).valid = true
    · rw [if_pos hold] at hvs hcount; omega
    · rw [if_neg hold] at hvs hcount; omega
  · intro k a b ha hb hva hvb htg
    have hva2 : (line_at (st.cache.set (k0 * p.E + w) nl) (k * p.E + a)).valid = true := hva
    have hvb2 : (line_at (st.cache.set (k0 * p.E + w) nl) (k * p.E + b)).valid = true := hvb
    have htg2 : (line_at (st.cache.set (k0 * p.E + w) nl) (k * p.E + a)).tag =
        (line_at (st.cache.set (k0 * p.E + w) nl) (k * p.E + b)).tag := htg
    rw [line_at_set] at hva2 hvb2
    rw [line_at_set, line_at_set] at htg2
    by_cases hca : k0 * p.E + w = k * p.E + a
    · obtain ⟨hk, hwa⟩ := flat_index_inj p.E k0 w k a hw ha hca
      subst hk hwa
      by_cases hcb : k0 * p.E + w = k0 * p.E + b
      · omega
      · exfalso
        rw [if_neg (fun hc => hcb hc.1)] at hvb2
        rw [if_pos ⟨rfl, hidx⟩, if_neg (fun hc => hcb hc.1)] at htg2
        exact htag b hb (fun hc => hcb (by rw [hc])) hvb2 htg2.symm
    · by_cases hcb : k0 * p.E + w = k * p.E + b
      · obtain ⟨hk, hwb⟩ := flat_index_inj p.E k0 w k b hw hb hcb
        subst hk hwb
        exfalso
        rw [if_neg (fun hc => hca hc.1)] at hva2
        rw [if_neg (fun hc => hca hc.1), if_pos ⟨rfl, hidx⟩] at htg2
        exact htag a ha (fun hc => hca (by rw [hc])) hva2 htg2
      · rw [if_neg (fun hc => hca hc.1)] at hva2
        rw [if_neg (fun hc => hcb hc.1)] at hvb2
        rw [if_neg (fun hc => hca hc.1), if_neg (fun hc => hcb hc.1)] at htg2
        exact hinv.tags k a b ha hb hva2 hvb2 htg2
  · intro i j hvi hvj hlru
    have hvi2 : (line_at (st.cache.set (k0 * p.E + w) nl) i).valid = true := hvi
    have hvj2 : (line_at (st.cache.set (k0 * p.E + w) nl) j).valid = true := hvj
    have hlru2 : (line_at (st.cache.set (k0 * p.E + w) nl) i).lru =
        (line_at (st.cache.set (k0 * p.E + w) nl) j).lru := hlru
    rw [line_at_set] at hvi2 hvj2
    rw [line_at_set, line_at_set] at hlru2
    by_cases hci : k0 * p.E + w = i
    · by_cases hcj : k0 * p.E + w = j
      · omega
      · exfalso
        rw [if_neg (fun hc => hcj hc.1)] at hvj2
        rw [if_pos ⟨hci, hidx⟩, if_neg (fun hc => hcj hc.1)] at hlru2
        have := hinv.stamp j hvj2
        omega
    · by_cases hcj : k0 * p.E + w = j
      · exfalso
        rw [if_neg (fun hc => hci hc.1)] at hvi2
        rw [if_neg (fun hc => hci hc.1), if_pos ⟨hcj, hidx⟩] at hlru2
        have := hinv.stamp i hvi2
        omega
      · rw [if_neg (fun hc => hci hc.1)] at hvi2
        rw [if_neg (fun hc => hcj hc.1)] at hvj2
        rw [if_neg (fun hc => hci hc.1), if_neg (fun hc => hcj hc.1)] at hlru2
        exact hinv.stamps i j hvi2 hvj2 hlru2

theorem access_inv (p : Params) (op : Char) (addr : Nat) (st : Sim) (hE : 0 < p.E)
    (hinv : Inv p st) (hclock : st.use_clock < 2 ^ 64 - 1) : Inv p (access p op addr st) := by
  have hsent : ∀ j, j < p.E → (line_at st.cache (set_index p addr * p.E + j)).valid = true →
      (line_at st.cache (set_index p addr * p.E + j)).lru < 2 ^ 64 - 1 :=
    fun j _ hv => lt_trans (hinv.stamp _ hv) hclock
  have hk0 := set_index_lt p addr
  rcases access_cases p op addr st hE hsent with
    ⟨h, hh, hv, _, hacc⟩ | ⟨hno, e, he, hev, _, hacc⟩ | ⟨hno, hall, l, hl, _, hacc⟩
  · rw [hacc]
    refine inv_update p st hinv (set_index p addr) h hk0 hh
      { line_at st.cache (set_index p addr * p.E + h) with
          lru := st.use_clock
          dirty :=
            if op = 'S' ∨ op = 'M' then true
            else (line_at st.cache (set_index p addr * p.E + h)).dirty }
      hv rfl ?_ _ _ _ ?_
    · intro j hj hne hvj htg
      exact hne (hinv.tags (set_index p addr) j h hj hh hvj hv htg)
    · rw [if_pos hv]; exact hinv.count
  · rw [hacc]
    refine inv_update p st hinv (set_index p addr) e hk0 he _ rfl rfl ?_ _ _ _ ?_
    · intro j hj _ hvj
      exact hno j hj hvj
    · rw [hev]
      simp only [Bool.false_eq_true, if_false]
      have := hinv.count
      omega
  · rw [hacc]
    refine inv_update p st hinv (set_index p addr) l hk0 hl _ rfl rfl ?_ _ _ _ ?_
    · intro j hj _ hvj
      exact hno j hj hvj
    · rw [if_pos (hall l hl)]
      have := hinv.count
      omega

theorem access_counters (p : Params) (op : Char) (addr : Nat) (st : Sim) :
    (access p op addr st).hits + (access p op addr st).misses = st.hits + st.misses + 1 ∧
      (access p op addr st).use_clock = st.use_clock + 1 := by
  unfold access
  simp only []
  split
  · exact ⟨by simp only []; omega, rfl⟩
  · split
    · exact ⟨by simp only []; omega, rfl⟩
    · split
      · exact ⟨by simp only []; omega, rfl⟩
      · exact ⟨by simp only []; omega, rfl⟩

end Csim

/-! ## The replay of a trace -/

namespace Csim

theorem access_hit (p : Params) (op : Char) (addr : Nat) (st : Sim) (w : Nat) (hw : w < p.E)
    (hv : (line_at st.cache (set_index p addr * p.E + w)).valid = true)
    (ht : (line_at st.cache (set_index p addr * p.E + w)).tag = tag_of p addr) :
    (access p op addr st).hits = st.hits + 1 ∧ (access p op addr st).misses = st.misses ∧
      (access p op addr st).evictions = st.evictions := by
  have hspec := scan_loop_spec st.cache (set_index p addr * p.E) (tag_of p addr) p.E 0
    Scan.start (scanInv_start _ _ _)
  rw [Nat.zero_add] at hspec
  rcases hspec with ⟨h, hh, _, _, _⟩ | hinv
  · simp only [access, hh, and_self]
  · exact absurd ht (hinv.notag w hw hv)

theorem access_other_lines (p : Params) (op : Char) (addr : Nat) (st : Sim) (hE : 0 < p.E)
    (hsent : ∀ j, j < p.E → (line_at st.cache (set_index p addr * p.E + j)).valid = true →
      (line_at st.cache (set_index p addr * p.E + j)).lru < 2 ^ 64 - 1)
    (k a : Nat) (hk : k ≠ set_index p addr) (ha : a < p.E) :
    line_at (access p op addr st).cache (k * p.E + a) = line_at st.cache (k * p.E + a) := by
  have hne : ∀ w, w < p.E → ¬ (set_index p addr * p.E + w = k * p.E + a ∧
      set_index p addr * p.E + w < st.cache.length) := by
    intro w hw hc
    exact hk (flat_index_inj p.E (set_index p addr) w k a hw ha hc.1).1.symm
  rcases access_cases p op addr st hE hsent with
    ⟨h, hh, _, _, hacc⟩ | ⟨_, e, he, _, _, hacc⟩ | ⟨_, _, l, hl, _, hacc⟩
  · rw [hacc]
    show line_at (st.cache.set _ _) _ = _
    rw [line_at_set, if_neg (hne h hh)]
  · rw [hacc]
    show line_at (st.cache.set _ _) _ = _
    rw [line_at_set, if_neg (hne e he)]
  · rw [hacc]
    show line_at (st.cache.set _ _) _ = _
    rw [line_at_set, if_neg (hne l hl)]

theorem replay_line_inv (p : Params) (r : Record) (st : Sim) (hE : 0 < p.E) (hinv : Inv p st)
    (hclock : st.use_clock + (if r.op = 'I' then 0 else if r.op = 'M' then 2 else 1) ≤
      2 ^ 64 - 1) :
    Inv p (replay_line p r st) ∧
      (replay_line p r st).hits + (replay_line p r st).misses =
        st.hits + st.misses + (if r.op = 'I' then 0 else if r.op = 'M' then 2 else 1) ∧
      (replay_line p r st).use_clock =
        st.use_clock + (if r.op = 'I' then 0 else if r.op = 'M' then 2 else 1) := by
  unfold replay_line
  by_cases hI : r.op = 'I'
  · rw [if_pos hI, if_pos hI]
    exact ⟨hinv, rfl, rfl⟩
  · rw [if_neg hI, if_neg hI] at *
    by_cases hM : r.op = 'M'
    · rw [if_pos hM, if_pos hM] at *
      have h1 := access_inv p r.op r.addr st hE hinv (by omega)
      have c1 := access_counters p r.op r.addr st
      have h2 := access_inv p r.op r.addr _ hE h1 (by omega)
      have c2 := access_counters p r.op r.addr (access p r.op r.addr st)
      exact ⟨h2, by omega, by omega⟩
    · rw [if_neg hM, if_neg hM] at *
      have h1 := access_inv p r.op r.addr st hE hinv (by omega)
      have c1 := access_counters p r.op r.addr st
      exact ⟨h1, by omega, by omega⟩

theorem replay_inv (p : Params) (hE : 0 < p.E) :
    ∀ (trace : List Record) (st : Sim), Inv p st →
      st.use_clock + accesses trace ≤ 2 ^ 64 - 1 →
      Inv p (replay p trace st) ∧
        (replay p trace st).hits + (replay p trace st).misses =
          st.hits + st.misses + accesses trace ∧
        (replay p trace st).use_clock = st.use_clock + accesses trace := by
  intro trace
  induction trace with
  | nil => intro st hinv _; exact ⟨hinv, rfl, rfl⟩
  | cons r rest ih =>
    intro st hinv hclock
    simp only [accesses] at hclock ⊢
    obtain ⟨h1, h2, h3⟩ := replay_line_inv p r st hE hinv (by omega)
    obtain ⟨i1, i2, i3⟩ := ih (replay_line p r st) h1 (by omega)
    simp only [replay]
    exact ⟨i1, by omega, by omega⟩

theorem accesses_count (trace : List Record) :
    accesses trace = (trace.countP fun r => decide (r.op ≠ 'I')) + count_op 'M' trace := by
  induction trace with
  | nil => rfl
  | cons r rest ih =>
    simp only [accesses, count_op, List.countP_cons] at ih ⊢
    rw [ih]
    by_cases hI : r.op = 'I'
    · have hM : r.op ≠ 'M' := by rw [hI]; decide
      simp [hI]
    · by_cases hM : r.op = 'M'
      · simp [hM]; omega
      · simp [hI, hM]; omega

theorem accesses_format (trace : List Record)
    (hops : ∀ r ∈ trace, r.op = 'I' ∨ r.op = 'L' ∨ r.op = 'S' ∨ r.op = 'M') :
    accesses trace = count_op 'L' trace + count_op 'S' trace + 2 * count_op 'M' trace := by
  induction trace with
  | nil => rfl
  | cons r rest ih =>
    have ih2 := ih fun x hx => hops x (List.mem_cons_of_mem _ hx)
    simp only [accesses, count_op, List.countP_cons] at ih2 ⊢
    rw [ih2]
    rcases hops r (List.mem_cons_self _ _) with h | h | h | h
    · simp [h]
    · simp [h]; omega
    · simp [h]; omega
    · simp [h]; omega

theorem valid_lines_le (p : Params) (st : Sim) (hinv : Inv p st) :
    valid_lines st.cache ≤ 2 ^ p.s * p.E := by
  have h1 : valid_lines st.cache ≤ st.cache.length := List.countP_le_length _
  have h2 : S p = 2 ^ p.s := by
    unfold S
    rw [Nat.shiftLeft_eq, Nat.one_mul]
  rw [hinv.len, h2] at h1
  exact h1

end Csim

/-! ## The states of a run -/

namespace Csim

theorem reachable_inv (p : Params) (st : Sim) (hE : 0 < p.E) (hr : Reachable p st) :
    Inv p st ∧ st.use_clock < 2 ^ 64 - 1 := by
  obtain ⟨trace, hn, rfl⟩ := hr
  have hc : (Sim.init p).use_clock + accesses trace ≤ 2 ^ 64 - 1 := by
    show 1 + accesses trace ≤ 2 ^ 64 - 1
    omega
  obtain ⟨hinv, _, hclock⟩ := replay_inv p hE trace (Sim.init p) (inv_init p) hc
  refine ⟨hinv, ?_⟩
  rw [hclock]
  show 1 + accesses trace < 2 ^ 64 - 1
  omega

theorem line_at_mem (cache : List line_t) (i : Nat) (h : (line_at cache i).valid = true) :
    line_at cache i ∈ cache := by
  have hi := line_at_valid_lt cache i h
  rw [line_at_eq_getElem cache i hi]
  exact List.getElem_mem hi

theorem access_twice (p : Params) (op1 op2 : Char) (x y : Nat) (st : Sim) (hE : 0 < p.E)
    (hlen : st.cache.length = S p * p.E)
    (hsent : ∀ ln ∈ st.cache, ln.valid = true → ln.lru < 2 ^ 64 - 1)
    (hxy : y >>> p.b = x >>> p.b) :
    (access p op2 y (access p op1 x st)).hits = (access p op1 x st).hits + 1 ∧
      (access p op2 y (access p op1 x st)).misses = (access p op1 x st).misses ∧
      (access p op2 y (access p op1 x st)).evictions = (access p op1 x st).evictions := by
  obtain ⟨hs, ht⟩ := same_block p x y hxy
  have hidx : ∀ w, w < p.E → set_index p x * p.E + w < st.cache.length := by
    intro w hw
    rw [hlen]
    exact flat_index_lt p.E (set_index p x) w (S p) (set_index_lt p x) hw
  have hsent2 : ∀ j, j < p.E → (line_at st.cache (set_index p x * p.E + j)).valid = true →
      (line_at st.cache (set_index p x * p.E + j)).lru < 2 ^ 64 - 1 :=
    fun j _ hv => hsent _ (line_at_mem _ _ hv) hv
  rcases access_cases p op1 x st hE hsent2 with
    ⟨h, hh, hv, htg, hacc⟩ | ⟨_, e, he, _, _, hacc⟩ | ⟨_, _, l, hl, _, hacc⟩
  · refine access_hit p op2 y _ h hh ?_ ?_
    · rw [hs, hacc]
      show (line_at (st.cache.set _ _) _).valid = true
      rw [line_at_set, if_pos ⟨rfl, hidx h hh⟩]
      exact hv
    · rw [hs, ht, hacc]
      show (line_at (st.cache.set _ _) _).tag = _
      rw [line_at_set, if_pos ⟨rfl, hidx h hh⟩]
      exact htg
  · refine access_hit p op2 y _ e he ?_ ?_
    · rw [hs, hacc]
      show (line_at (st.cache.set _ _) _).valid = true
      rw [line_at_set, if_pos ⟨rfl, hidx e he⟩]
      rfl
    · rw [hs, ht, hacc]
      show (line_at (st.cache.set _ _) _).tag = _
      rw [line_at_set, if_pos ⟨rfl, hidx e he⟩]
      rfl
  · refine access_hit p op2 y _ l hl ?_ ?_
    · rw [hs, hacc]
      show (line_at (st.cache.set _ _) _).valid = true
      rw [line_at_set, if_pos ⟨rfl, hidx l hl⟩]
      rfl
    · rw [hs, ht, hacc]
      show (line_at (st.cache.set _ _) _).tag = _
      rw [line_at_set, if_pos ⟨rfl, hidx l hl⟩]
      rfl

end Csim

namespace Csim

theorem replay_append (p : Params) :
    ∀ (t1 t2 : List Record) (st : Sim), replay p (t1 ++ t2) st = replay p t2 (replay p t1 st) := by
  intro t1
  induction t1 with
  | nil => intro t2 st; rfl
  | cons r rest ih => intro t2 st; exact ih t2 (replay_line p r st)

theorem accesses_append (t1 t2 : List Record) :
    accesses (t1 ++ t2) = accesses t1 + accesses t2 := by
  induction t1 with
  | nil => simp only [List.nil_append, accesses, Nat.zero_add]
  | cons r rest ih =>
    show _ + accesses (rest ++ t2) = _ + accesses rest + accesses t2
    rw [ih]
    omega

theorem access_M_eq_S (p : Params) (addr : Nat) (st : Sim) :
    access p 'M' addr st = access p 'S' addr st := by
  simp [access, filled]

theorem reachable_between (p : Params) (trace : List Record) (addr : Nat) (sz : Int)
    (hn : accesses trace + 1 < 2 ^ 31) :
    Reachable p (access p 'M' addr (replay p trace (Sim.init p))) := by
  refine ⟨trace ++ [{ op := 'S', addr := addr, size := sz }], ?_, ?_⟩
  · rw [accesses_append]
    exact hn
  · rw [replay_append, access_M_eq_S]
    rfl

end Csim

/-! ## The claims on the cache simulator -/

namespace Csim

/-- C22, counterexample.  With `-s 1 -E 2 -b 2` the trace of the one line
`X 10,1` ends with `hits = 0` and `misses = 1`, while it has no line with the
operation `L`, `S` or `M`: the replay loop counts one access for every
operation other than `I` and `M`. -/
theorem accounting_counts_other_ops :
    1 ≤ example_params.E ∧ example_params.s + example_params.b < 64 ∧
      (replay example_params other_op_trace (Sim.init example_params)).hits = 0 ∧
      (replay example_params other_op_trace (Sim.init example_params)).misses = 1 ∧
      count_op 'L' other_op_trace + count_op 'S' other_op_trace +
        2 * count_op 'M' other_op_trace = 0 ∧
      (replay example_params other_op_trace (Sim.init example_params)).hits +
          (replay example_params other_op_trace (Sim.init example_params)).misses ≠
        count_op 'L' other_op_trace + count_op 'S' other_op_trace +
          2 * count_op 'M' other_op_trace := by
  decide

/-- C22, amended.  For `E >= 1`, `s + b < 64` and a trace with fewer than
`2^31` accesses, the final counters satisfy: `hits + misses` is the number of
lines whose operation is not `I` plus the number of `M` lines, which is
`L + S + 2 * M` when every line has one of the operations `I`, `L`, `S`, `M`;
`evictions <= misses`; and `misses - evictions` is the number of valid lines
at the end, at most `2^s * E`. -/
theorem accounting_spec (p : Params) (trace : List Record) (hE : 1 ≤ p.E)
    (_hsb : p.s + p.b < 64) (hn : accesses trace < 2 ^ 31) :
    (replay p trace (Sim.init p)).hits + (replay p trace (Sim.init p)).misses =
        (trace.countP fun r => decide (r.op ≠ 'I')) + count_op 'M' trace ∧
      ((∀ r ∈ trace, r.op = 'I' ∨ r.op = 'L' ∨ r.op = 'S' ∨ r.op = 'M') →
        (replay p trace (Sim.init p)).hits + (replay p trace (Sim.init p)).misses =
          count_op 'L' trace + count_op 'S' trace + 2 * count_op 'M' trace) ∧
      (replay p trace (Sim.init p)).evictions ≤ (replay p trace (Sim.init p)).misses ∧
      (replay p trace (Sim.init p)).misses - (replay p trace (Sim.init p)).evictions =
        valid_lines (replay p trace (Sim.init p)).cache ∧
      valid_lines (replay p trace (Sim.init p)).cache ≤ 2 ^ p.s * p.E := by
  have hc : (Sim.init p).use_clock + accesses trace ≤ 2 ^ 64 - 1 := by
    show 1 + accesses trace ≤ 2 ^ 64 - 1
    omega
  obtain ⟨hinv, hcnt, _⟩ := replay_inv p hE trace (Sim.init p) (inv_init p) hc
  have hcnt2 : (replay p trace (Sim.init p)).hits + (replay p trace (Sim.init p)).misses =
      accesses trace := by
    rw [hcnt]
    show 0 + 0 + accesses trace = accesses trace
    omega
  have hcount := hinv.count
  refine ⟨?_, ?_, ?_, ?_, valid_lines_le p _ hinv⟩
  · rw [hcnt2]; exact accesses_count trace
  · intro hops
    rw [hcnt2]; exact accesses_format trace hops
  · omega
  · omega

/-- C22 on `example_trace` with `-s 1 -E 2 -b 2`: three `L` lines, one `S`
line, one `M` line and one `I` line give `hits + misses = 6`. -/
theorem accounting_spec_witness :
    1 ≤ example_params.E ∧ example_params.s + example_params.b < 64 ∧
      accesses example_trace < 2 ^ 31 ∧
      (∀ r ∈ example_trace, r.op = 'I' ∨ r.op = 'L' ∨ r.op = 'S' ∨ r.op = 'M') ∧
      (replay example_params example_trace (Sim.init example_params)).hits +
          (replay example_params example_trace (Sim.init example_params)).misses =
        count_op 'L' example_trace + count_op 'S' example_trace +
          2 * count_op 'M' example_trace ∧
      (replay example_params example_trace (Sim.init example_params)).evictions ≤
        (replay example_params example_trace (Sim.init example_params)).misses ∧
      (replay example_params example_trace (Sim.init example_params)).misses -
          (replay example_params example_trace (Sim.init example_params)).evictions =
        valid_lines (replay example_params example_trace (Sim.init example_params)).cache ∧
      valid_lines (replay example_params example_trace (Sim.init example_params)).cache ≤
        2 ^ example_params.s * example_params.E :=
  ⟨by decide, by decide, by decide, by decide,
    (accounting_spec example_params example_trace (by decide) (by decide) (by decide)).2.1
      (by decide),
    (accounting_spec example_params example_trace (by decide) (by decide) (by decide)).2.2⟩

end Csim

namespace Csim

/-- C23. In every state `st` of a run, for an access `op addr`: no two valid
lines of a set hold the same tag; every valid line carries a stamp older than
the clock, and the line an access touches (hit or fill) is stamped with the
clock, which then advances, so the stamp of a line is the time of its most
recent access; the lines of the other sets are left as they are; and the
access is a hit on a valid line with the tag, or a miss that fills the first
invalid line of the set without counting an eviction, or, only when all `E`
lines of the set are valid, a miss that counts an eviction and replaces the
line whose stamp is strictly the oldest of the set. -/
theorem lru_replacement_spec (p : Params) (st : Sim) (op : Char) (addr : Nat) (hE : 1 ≤ p.E)
    (_hsb : p.s + p.b < 64) (hr : Reachable p st) :
    (∀ k a b, a < p.E → b < p.E →
        (line_at st.cache (k * p.E + a)).valid = true →
        (line_at st.cache (k * p.E + b)).valid = true →
        (line_at st.cache (k * p.E + a)).tag = (line_at st.cache (k * p.E + b)).tag → a = b) ∧
      (∀ i, (line_at st.cache i).valid = true → (line_at st.cache i).lru < st.use_clock) ∧
      (∀ k a, k ≠ set_index p addr → a < p.E →
        line_at (access p op addr st).cache (k * p.E + a) = line_at st.cache (k * p.E + a)) ∧
      ((∃ h, h < p.E ∧ (line_at st.cache (set_index p addr * p.E + h)).valid = true ∧
          (line_at st.cache (set_index p addr * p.E + h)).tag = tag_of p addr ∧
          access p op addr st =
            { st with
                hits := st.hits + 1
                cache :=
                  st.cache.set (set_index p addr * p.E + h)
                    { line_at st.cache (set_index p addr * p.E + h) with
                        lru := st.use_clock
                        dirty :=
                          if op = 'S' ∨ op = 'M' then true
                          else (line_at st.cache (set_index p addr * p.E + h)).dirty }
                use_clock := st.use_clock + 1 }) ∨
        ((∀ j, j < p.E → (line_at st.cache (set_index p addr * p.E + j)).valid = true →
            (line_at st.cache (set_index p addr * p.E + j)).tag ≠ tag_of p addr) ∧
          ∃ e, e < p.E ∧ (line_at st.cache (set_index p addr * p.E + e)).valid = false ∧
            (∀ j, j < e → (line_at st.cache (set_index p addr * p.E + j)).valid = true) ∧
            access p op addr st =
              { st with
                  misses := st.misses + 1
                  cache :=
                    st.cache.set (set_index p addr * p.E + e)
                      (filled op (tag_of p addr) st.use_clock)
                  use_clock := st.use_clock + 1 }) ∨
        ((∀ j, j < p.E → (line_at st.cache (set_index p addr * p.E + j)).valid = true →
            (line_at st.cache (set_index p addr * p.E + j)).tag ≠ tag_of p addr) ∧
          (∀ j, j < p.E → (line_at st.cache (set_index p addr * p.E + j)).valid = true) ∧
          ∃ l, l < p.E ∧
            (∀ j, j < p.E → j ≠ l → (line_at st.cache (set_index p addr * p.E + l)).lru <
              (line_at st.cache (set_index p addr * p.E + j)).lru) ∧
            access p op addr st =
              { st with
                  misses := st.misses + 1
                  evictions := st.evictions + 1
                  cache :=
                    st.cache.set (set_index p addr * p.E + l)
                      (filled op (tag_of p addr) st.use_clock)
                  use_clock := st.use_clock + 1 })) := by
  obtain ⟨hinv, hclock⟩ := reachable_inv p st hE hr
  have hsent : ∀ j, j < p.E → (line_at st.cache (set_index p addr * p.E + j)).valid = true →
      (line_at st.cache (set_index p addr * p.E + j)).lru < 2 ^ 64 - 1 :=
    fun j _ hv => lt_trans (hinv.stamp _ hv) hclock
  refine ⟨hinv.tags, hinv.stamp,
    fun k a hk ha => access_other_lines p op addr st hE hsent k a hk ha, ?_⟩
  rcases access_cases p op addr st hE hsent with
    hhit | hfill | ⟨hno, hall, l, hl, hmin, hacc⟩
  · exact Or.inl hhit
  · exact Or.inr (Or.inl hfill)
  · refine Or.inr (Or.inr ⟨hno, hall, l, hl, ?_, hacc⟩)
    intro j hj hne
    rcases Nat.lt_or_eq_of_le (hmin j hj) with h | h
    · exact h
    · exfalso
      have := hinv.stamps _ _ (hall l hl) (hall j hj) h
      omega

/-- C23 on the access `L 18` in `example_state` with `-s 1 -E 2 -b 2`: set 0
holds the tags 2 and 1 with the stamps 4 and 6, so the access is a miss that
replaces line 0 of set 0 and counts an eviction; set 1 is left as it is. -/
theorem lru_replacement_spec_witness :
    1 ≤ example_params.E ∧ example_params.s + example_params.b < 64 ∧
      Reachable example_params example_state ∧
      (∀ a, a < example_params.E →
        line_at (access example_params 'L' 0x18 example_state).cache
            (1 * example_params.E + a) =
          line_at example_state.cache (1 * example_params.E + a)) ∧
      (∀ k a b, a < example_params.E → b < example_params.E →
        (line_at example_state.cache (k * example_params.E + a)).valid = true →
        (line_at example_state.cache (k * example_params.E + b)).valid = true →
        (line_at example_state.cache (k * example_params.E + a)).tag =
          (line_at example_state.cache (k * example_params.E + b)).tag → a = b) ∧
      access example_params 'L' 0x18 example_state =
        { example_state with
            misses := example_state.misses + 1
            evictions := example_state.evictions + 1
            cache :=
              example_state.cache.set (set_index example_params 0x18 * example_params.E + 0)
                (filled 'L' (tag_of example_params 0x18) example_state.use_clock)
            use_clock := example_state.use_clock + 1 } :=
  ⟨by decide, by decide, ⟨example_trace, by decide, rfl⟩,
    fun a ha =>
      (lru_replacement_spec example_params example_state 'L' 0x18 (by decide) (by decide)
        ⟨example_trace, by decide, rfl⟩).2.2.1 1 a (by decide) ha,
    (lru_replacement_spec example_params example_state 'L' 0x18 (by decide) (by decide)
      ⟨example_trace, by decide, rfl⟩).1,
    by decide⟩

/-- C24. For `E >= 1` and `s + b < 64`: every state of a run is an array of
`S * E` lines in which no valid line carries the stamp `2^64 - 1`; and for
every such array, an access to `y` made immediately after an access to `x`
with `y >> b == x >> b` is a hit (`hits` grows by one, `misses` and
`evictions` stay); so an `M` line makes two accesses to its address of which
the second is a hit. -/
theorem same_block_hits (p : Params) (op1 op2 : Char) (x y : Nat) (sz : Int) (st : Sim)
    (hE : 1 ≤ p.E) (_hsb : p.s + p.b < 64) :
    (Reachable p st →
        st.cache.length = S p * p.E ∧
          ∀ ln ∈ st.cache, ln.valid = true → ln.lru < 2 ^ 64 - 1) ∧
      (st.cache.length = S p * p.E →
        (∀ ln ∈ st.cache, ln.valid = true → ln.lru < 2 ^ 64 - 1) →
        (y >>> p.b = x >>> p.b →
          (access p op2 y (access p op1 x st)).hits = (access p op1 x st).hits + 1 ∧
            (access p op2 y (access p op1 x st)).misses = (access p op1 x st).misses ∧
            (access p op2 y (access p op1 x st)).evictions =
              (access p op1 x st).evictions) ∧
          replay_line p { op := 'M', addr := x, size := sz } st =
            access p 'M' x (access p 'M' x st) ∧
          (replay_line p { op := 'M', addr := x, size := sz } st).hits =
            (access p 'M' x st).hits + 1 ∧
          (replay_line p { op := 'M', addr := x, size := sz } st).misses =
            (access p 'M' x st).misses ∧
          (replay_line p { op := 'M', addr := x, size := sz } st).evictions =
            (access p 'M' x st).evictions) := by
  refine ⟨?_, ?_⟩
  · intro hr
    obtain ⟨hinv, hclock⟩ := reachable_inv p st hE hr
    refine ⟨hinv.len, ?_⟩
    intro ln hln hv
    obtain ⟨i, hi, rfl⟩ := List.getElem_of_mem hln
    have h1 := hinv.stamp i (by rw [line_at_eq_getElem _ i hi]; exact hv)
    rw [line_at_eq_getElem _ i hi] at h1
    omega
  · intro hlen hsent
    have hM : replay_line p { op := 'M', addr := x, size := sz } st =
        access p 'M' x (access p 'M' x st) := by
      unfold replay_line
      rw [if_neg (show ¬ ('M' = 'I') by decide), if_pos rfl]
    refine ⟨fun hxy => access_twice p op1 op2 x y st hE hlen hsent hxy, hM, ?_⟩
    rw [hM]
    exact access_twice p 'M' 'M' x x st hE hlen hsent rfl

/-- C24 in `example_state` with `-s 1 -E 2 -b 2`: after the access `L 18`, a
miss with an eviction, the access `S 1b` to the same block is a hit, and the
line `M 18,4` makes a miss and then a hit. -/
theorem same_block_hits_witness :
    1 ≤ example_params.E ∧ example_params.s + example_params.b < 64 ∧
      Reachable example_params example_state ∧
      example_state.cache.length = S example_params * example_params.E ∧
      (∀ ln ∈ example_state.cache, ln.valid = true → ln.lru < 2 ^ 64 - 1) ∧
      0x1b >>> example_params.b = 0x18 >>> example_params.b ∧
      ((access example_params 'S' 0x1b (access example_params 'L' 0x18 example_state)).hits =
          (access example_params 'L' 0x18 example_state).hits + 1 ∧
        (access example_params 'S' 0x1b (access example_params 'L' 0x18 example_state)).misses =
          (access example_params 'L' 0x18 example_state).misses ∧
        (access example_params 'S' 0x1b
            (access example_params 'L' 0x18 example_state)).evictions =
          (access example_params 'L' 0x18 example_state).evictions) ∧
      (replay_line example_params { op := 'M', addr := 0x18, size := 4 } example_state).hits =
        (access example_params 'M' 0x18 example_state).hits + 1 :=
  ⟨by decide, by decide, ⟨example_trace, by decide, rfl⟩,
    ((same_block_hits example_params 'L' 'S' 0x18 0x1b 4 example_state (by decide)
      (by decide)).1 ⟨example_trace, by decide, rfl⟩).1,
    ((same_block_hits example_params 'L' 'S' 0x18 0x1b 4 example_state (by decide)
      (by decide)).1 ⟨example_trace, by decide, rfl⟩).2,
    by decide,
    ((same_block_hits example_params 'L' 'S' 0x18 0x1b 4 example_state (by decide)
      (by decide)).2 (by decide) (by decide)).1 (by decide),
    ((same_block_hits example_params 'L' 'S' 0x18 0x1b 4 example_state (by decide)
      (by decide)).2 (by decide) (by decide)).2.2.1⟩

end Csim

end Cachelab
